import Mathlib

/-!
# MPI-Checker: schema analysis engine

A shallow embedding of the function classifier (`MPIFunctionClassifier.cpp`) and of the
redundancy check of `MPICheckerImpl.cpp`, followed by the properties established for them.

Conventions of the embedding:
* a C++ pointer that may be null is an `Option`; `none` is `nullptr`;
* `llvm::SmallVector` is a `List`, `push_back x` is `++ [x]`;
* an access that is undefined in C++ (`arguments_[idx]` out of range, `front()` of an
  empty vector) makes the enclosing function return `none`;
* diagnostics handed to the bug reporter are appended to a list of `Diagnostic`s.
-/

namespace mpi

/-! ## Function classifier (`src/src/MPIFunctionClassifier.cpp`) -/

/-- An interned identifier of clang's identifier table. The table holds one
`IdentifierInfo` per spelling, so an identifier is determined by its spelling. -/
structure IdentifierInfo where
  name : String
  deriving DecidableEq, Repr

/-- A `const IdentifierInfo *`; `none` is the null pointer. -/
abbrev IdentPtr := Option IdentifierInfo

/-- The lookup `&context.Idents.get(name)`: the address of the unique table entry
for `name`, never null. -/
def Idents.get (name : String) : IdentPtr := some ⟨name⟩

/-- Modelled from the spec: the class declaration (`MPIFunctionClassifier.hpp`) is not part
of the sources. The data members are the ones `MPIFunctionClassifier.cpp` assigns: one
identifier pointer per MPI function and the classification buckets. A freshly constructed
classifier has null pointers and empty buckets. -/
structure MPIFunctionClassifier where
  identInfo_MPI_Send_ : IdentPtr := none
  identInfo_MPI_Isend_ : IdentPtr := none
  identInfo_MPI_Ssend_ : IdentPtr := none
  identInfo_MPI_Issend_ : IdentPtr := none
  identInfo_MPI_Bsend_ : IdentPtr := none
  identInfo_MPI_Ibsend_ : IdentPtr := none
  identInfo_MPI_Rsend_ : IdentPtr := none
  identInfo_MPI_Irsend_ : IdentPtr := none
  identInfo_MPI_Recv_ : IdentPtr := none
  identInfo_MPI_Irecv_ : IdentPtr := none
  identInfo_MPI_Scatter_ : IdentPtr := none
  identInfo_MPI_Iscatter_ : IdentPtr := none
  identInfo_MPI_Gather_ : IdentPtr := none
  identInfo_MPI_Igather_ : IdentPtr := none
  identInfo_MPI_Allgather_ : IdentPtr := none
  identInfo_MPI_Iallgather_ : IdentPtr := none
  identInfo_MPI_Bcast_ : IdentPtr := none
  identInfo_MPI_Ibcast_ : IdentPtr := none
  identInfo_MPI_Reduce_ : IdentPtr := none
  identInfo_MPI_Ireduce_ : IdentPtr := none
  identInfo_MPI_Allreduce_ : IdentPtr := none
  identInfo_MPI_Iallreduce_ : IdentPtr := none
  identInfo_MPI_Alltoall_ : IdentPtr := none
  identInfo_MPI_Ialltoall_ : IdentPtr := none
  identInfo_MPI_Comm_rank_ : IdentPtr := none
  identInfo_MPI_Wait_ : IdentPtr := none
  identInfo_MPI_Waitall_ : IdentPtr := none
  identInfo_MPI_Barrier_ : IdentPtr := none
  mpiSendTypes_ : List IdentPtr := []
  mpiRecvTypes_ : List IdentPtr := []
  mpiBlockingTypes_ : List IdentPtr := []
  mpiNonBlockingTypes_ : List IdentPtr := []
  mpiPointToPointTypes_ : List IdentPtr := []
  mpiPointToCollTypes_ : List IdentPtr := []
  mpiCollToPointTypes_ : List IdentPtr := []
  mpiCollToCollTypes_ : List IdentPtr := []
  mpiCollectiveTypes_ : List IdentPtr := []
  mpiType_ : List IdentPtr := []

/-- Modelled from the spec: the helper `cont::isContained(container, element)`
(`Container.hpp`, not part of the sources), the membership test of a classification
bucket: a linear search with `==`. -/
def cont.isContained {α : Type} [DecidableEq α] (container : List α) (element : α) : Bool :=
  container.contains element

/-- Embedding of `MPIFunctionClassifier::initPointToPointIdentifiers`
(MPIFunctionClassifier.cpp:50-124) as a state transformer on the data members: one
`modify` per assignment or `push_back` of the source, in source order. The `MPI_Irsend`
block pushes to `mpiBlockingTypes_`, as the source does. -/
def MPIFunctionClassifier.initPointToPointIdentifiers : StateM MPIFunctionClassifier Unit := do
  modify fun c => { c with identInfo_MPI_Send_ := Idents.get "MPI_Send" }
  modify fun c => { c with mpiSendTypes_ := c.mpiSendTypes_ ++ [c.identInfo_MPI_Send_] }
  modify fun c => { c with mpiPointToPointTypes_ := c.mpiPointToPointTypes_ ++ [c.identInfo_MPI_Send_] }
  modify fun c => { c with mpiBlockingTypes_ := c.mpiBlockingTypes_ ++ [c.identInfo_MPI_Send_] }
  modify fun c => { c with mpiType_ := c.mpiType_ ++ [c.identInfo_MPI_Send_] }
  modify fun c => { c with identInfo_MPI_Isend_ := Idents.get "MPI_Isend" }
  modify fun c => { c with mpiSendTypes_ := c.mpiSendTypes_ ++ [c.identInfo_MPI_Isend_] }
  modify fun c => { c with mpiPointToPointTypes_ := c.mpiPointToPointTypes_ ++ [c.identInfo_MPI_Isend_] }
  modify fun c => { c with mpiNonBlockingTypes_ := c.mpiNonBlockingTypes_ ++ [c.identInfo_MPI_Isend_] }
  modify fun c => { c with mpiType_ := c.mpiType_ ++ [c.identInfo_MPI_Isend_] }
  modify fun c => { c with identInfo_MPI_Ssend_ := Idents.get "MPI_Ssend" }
  modify fun c => { c with mpiSendTypes_ := c.mpiSendTypes_ ++ [c.identInfo_MPI_Ssend_] }
  modify fun c => { c with mpiPointToPointTypes_ := c.mpiPointToPointTypes_ ++ [c.identInfo_MPI_Ssend_] }
  modify fun c => { c with mpiBlockingTypes_ := c.mpiBlockingTypes_ ++ [c.identInfo_MPI_Ssend_] }
  modify fun c => { c with mpiType_ := c.mpiType_ ++ [c.identInfo_MPI_Ssend_] }
  modify fun c => { c with identInfo_MPI_Issend_ := Idents.get "MPI_Issend" }
  modify fun c => { c with mpiSendTypes_ := c.mpiSendTypes_ ++ [c.identInfo_MPI_Issend_] }
  modify fun c => { c with mpiPointToPointTypes_ := c.mpiPointToPointTypes_ ++ [c.identInfo_MPI_Issend_] }
  modify fun c => { c with mpiNonBlockingTypes_ := c.mpiNonBlockingTypes_ ++ [c.identInfo_MPI_Issend_] }
  modify fun c => { c with mpiType_ := c.mpiType_ ++ [c.identInfo_MPI_Issend_] }
  modify fun c => { c with identInfo_MPI_Bsend_ := Idents.get "MPI_Bsend" }
  modify fun c => { c with mpiSendTypes_ := c.mpiSendTypes_ ++ [c.identInfo_MPI_Bsend_] }
  modify fun c => { c with mpiPointToPointTypes_ := c.mpiPointToPointTypes_ ++ [c.identInfo_MPI_Bsend_] }
  modify fun c => { c with mpiBlockingTypes_ := c.mpiBlockingTypes_ ++ [c.identInfo_MPI_Bsend_] }
  modify fun c => { c with mpiType_ := c.mpiType_ ++ [c.identInfo_MPI_Bsend_] }
  modify fun c => { c with identInfo_MPI_Ibsend_ := Idents.get "MPI_Ibsend" }
  modify fun c => { c with mpiSendTypes_ := c.mpiSendTypes_ ++ [c.identInfo_MPI_Ibsend_] }
  modify fun c => { c with mpiPointToPointTypes_ := c.mpiPointToPointTypes_ ++ [c.identInfo_MPI_Ibsend_] }
  modify fun c => { c with mpiNonBlockingTypes_ := c.mpiNonBlockingTypes_ ++ [c.identInfo_MPI_Ibsend_] }
  modify fun c => { c with mpiType_ := c.mpiType_ ++ [c.identInfo_MPI_Ibsend_] }
  modify fun c => { c with identInfo_MPI_Rsend_ := Idents.get "MPI_Rsend" }
  modify fun c => { c with mpiSendTypes_ := c.mpiSendTypes_ ++ [c.identInfo_MPI_Rsend_] }
  modify fun c => { c with mpiPointToPointTypes_ := c.mpiPointToPointTypes_ ++ [c.identInfo_MPI_Rsend_] }
  modify fun c => { c with mpiBlockingTypes_ := c.mpiBlockingTypes_ ++ [c.identInfo_MPI_Rsend_] }
  modify fun c => { c with mpiType_ := c.mpiType_ ++ [c.identInfo_MPI_Rsend_] }
  modify fun c => { c with identInfo_MPI_Irsend_ := Idents.get "MPI_Irsend" }
  modify fun c => { c with mpiSendTypes_ := c.mpiSendTypes_ ++ [c.identInfo_MPI_Irsend_] }
  modify fun c => { c with mpiPointToPointTypes_ := c.mpiPointToPointTypes_ ++ [c.identInfo_MPI_Irsend_] }
  modify fun c => { c with mpiBlockingTypes_ := c.mpiBlockingTypes_ ++ [c.identInfo_MPI_Irsend_] }
  modify fun c => { c with mpiType_ := c.mpiType_ ++ [c.identInfo_MPI_Irsend_] }
  modify fun c => { c with identInfo_MPI_Recv_ := Idents.get "MPI_Recv" }
  modify fun c => { c with mpiRecvTypes_ := c.mpiRecvTypes_ ++ [c.identInfo_MPI_Recv_] }
  modify fun c => { c with mpiPointToPointTypes_ := c.mpiPointToPointTypes_ ++ [c.identInfo_MPI_Recv_] }
  modify fun c => { c with mpiBlockingTypes_ := c.mpiBlockingTypes_ ++ [c.identInfo_MPI_Recv_] }
  modify fun c => { c with mpiType_ := c.mpiType_ ++ [c.identInfo_MPI_Recv_] }
  modify fun c => { c with identInfo_MPI_Irecv_ := Idents.get "MPI_Irecv" }
  modify fun c => { c with mpiRecvTypes_ := c.mpiRecvTypes_ ++ [c.identInfo_MPI_Irecv_] }
  modify fun c => { c with mpiPointToPointTypes_ := c.mpiPointToPointTypes_ ++ [c.identInfo_MPI_Irecv_] }
  modify fun c => { c with mpiNonBlockingTypes_ := c.mpiNonBlockingTypes_ ++ [c.identInfo_MPI_Irecv_] }
  modify fun c => { c with mpiType_ := c.mpiType_ ++ [c.identInfo_MPI_Irecv_] }

/-- Embedding of `MPIFunctionClassifier::initCollectiveIdentifiers`
(MPIFunctionClassifier.cpp:126-229). The `MPI_Igather` block pushes `identInfo_MPI_Gather_`
(not `identInfo_MPI_Igather_`) to `mpiBlockingTypes_`, as the source does. -/
def MPIFunctionClassifier.initCollectiveIdentifiers : StateM MPIFunctionClassifier Unit := do
  modify fun c => { c with identInfo_MPI_Scatter_ := Idents.get "MPI_Scatter" }
  modify fun c => { c with mpiCollectiveTypes_ := c.mpiCollectiveTypes_ ++ [c.identInfo_MPI_Scatter_] }
  modify fun c => { c with mpiPointToCollTypes_ := c.mpiPointToCollTypes_ ++ [c.identInfo_MPI_Scatter_] }
  modify fun c => { c with mpiBlockingTypes_ := c.mpiBlockingTypes_ ++ [c.identInfo_MPI_Scatter_] }
  modify fun c => { c with mpiType_ := c.mpiType_ ++ [c.identInfo_MPI_Scatter_] }
  modify fun c => { c with identInfo_MPI_Iscatter_ := Idents.get "MPI_Iscatter" }
  modify fun c => { c with mpiCollectiveTypes_ := c.mpiCollectiveTypes_ ++ [c.identInfo_MPI_Iscatter_] }
  modify fun c => { c with mpiPointToCollTypes_ := c.mpiPointToCollTypes_ ++ [c.identInfo_MPI_Iscatter_] }
  modify fun c => { c with mpiNonBlockingTypes_ := c.mpiNonBlockingTypes_ ++ [c.identInfo_MPI_Iscatter_] }
  modify fun c => { c with mpiType_ := c.mpiType_ ++ [c.identInfo_MPI_Iscatter_] }
  modify fun c => { c with identInfo_MPI_Gather_ := Idents.get "MPI_Gather" }
  modify fun c => { c with mpiCollectiveTypes_ := c.mpiCollectiveTypes_ ++ [c.identInfo_MPI_Gather_] }
  modify fun c => { c with mpiCollToPointTypes_ := c.mpiCollToPointTypes_ ++ [c.identInfo_MPI_Gather_] }
  modify fun c => { c with mpiBlockingTypes_ := c.mpiBlockingTypes_ ++ [c.identInfo_MPI_Gather_] }
  modify fun c => { c with mpiType_ := c.mpiType_ ++ [c.identInfo_MPI_Gather_] }
  modify fun c => { c with identInfo_MPI_Igather_ := Idents.get "MPI_Igather" }
  modify fun c => { c with mpiCollectiveTypes_ := c.mpiCollectiveTypes_ ++ [c.identInfo_MPI_Igather_] }
  modify fun c => { c with mpiCollToPointTypes_ := c.mpiCollToPointTypes_ ++ [c.identInfo_MPI_Igather_] }
  modify fun c => { c with mpiBlockingTypes_ := c.mpiBlockingTypes_ ++ [c.identInfo_MPI_Gather_] }
  modify fun c => { c with mpiNonBlockingTypes_ := c.mpiNonBlockingTypes_ ++ [c.identInfo_MPI_Igather_] }
  modify fun c => { c with mpiType_ := c.mpiType_ ++ [c.identInfo_MPI_Igather_] }
  modify fun c => { c with identInfo_MPI_Allgather_ := Idents.get "MPI_Allgather" }
  modify fun c => { c with mpiCollectiveTypes_ := c.mpiCollectiveTypes_ ++ [c.identInfo_MPI_Allgather_] }
  modify fun c => { c with mpiCollToCollTypes_ := c.mpiCollToCollTypes_ ++ [c.identInfo_MPI_Allgather_] }
  modify fun c => { c with mpiBlockingTypes_ := c.mpiBlockingTypes_ ++ [c.identInfo_MPI_Allgather_] }
  modify fun c => { c with mpiType_ := c.mpiType_ ++ [c.identInfo_MPI_Allgather_] }
  modify fun c => { c with identInfo_MPI_Iallgather_ := Idents.get "MPI_Iallgather" }
  modify fun c => { c with mpiCollectiveTypes_ := c.mpiCollectiveTypes_ ++ [c.identInfo_MPI_Iallgather_] }
  modify fun c => { c with mpiCollToCollTypes_ := c.mpiCollToCollTypes_ ++ [c.identInfo_MPI_Iallgather_] }
  modify fun c => { c with mpiNonBlockingTypes_ := c.mpiNonBlockingTypes_ ++ [c.identInfo_MPI_Iallgather_] }
  modify fun c => { c with mpiType_ := c.mpiType_ ++ [c.identInfo_MPI_Iallgather_] }
  modify fun c => { c with identInfo_MPI_Bcast_ := Idents.get "MPI_Bcast" }
  modify fun c => { c with mpiCollectiveTypes_ := c.mpiCollectiveTypes_ ++ [c.identInfo_MPI_Bcast_] }
  modify fun c => { c with mpiPointToCollTypes_ := c.mpiPointToCollTypes_ ++ [c.identInfo_MPI_Bcast_] }
  modify fun c => { c with mpiBlockingTypes_ := c.mpiBlockingTypes_ ++ [c.identInfo_MPI_Bcast_] }
  modify fun c => { c with mpiType_ := c.mpiType_ ++ [c.identInfo_MPI_Bcast_] }
  modify fun c => { c with identInfo_MPI_Ibcast_ := Idents.get "MPI_Ibcast" }
  modify fun c => { c with mpiCollectiveTypes_ := c.mpiCollectiveTypes_ ++ [c.identInfo_MPI_Ibcast_] }
  modify fun c => { c with mpiPointToCollTypes_ := c.mpiPointToCollTypes_ ++ [c.identInfo_MPI_Ibcast_] }
  modify fun c => { c with mpiNonBlockingTypes_ := c.mpiNonBlockingTypes_ ++ [c.identInfo_MPI_Ibcast_] }
  modify fun c => { c with mpiType_ := c.mpiType_ ++ [c.identInfo_MPI_Ibcast_] }
  modify fun c => { c with identInfo_MPI_Reduce_ := Idents.get "MPI_Reduce" }
  modify fun c => { c with mpiCollectiveTypes_ := c.mpiCollectiveTypes_ ++ [c.identInfo_MPI_Reduce_] }
  modify fun c => { c with mpiCollToPointTypes_ := c.mpiCollToPointTypes_ ++ [c.identInfo_MPI_Reduce_] }
  modify fun c => { c with mpiBlockingTypes_ := c.mpiBlockingTypes_ ++ [c.identInfo_MPI_Reduce_] }
  modify fun c => { c with mpiType_ := c.mpiType_ ++ [c.identInfo_MPI_Reduce_] }
  modify fun c => { c with identInfo_MPI_Ireduce_ := Idents.get "MPI_Ireduce" }
  modify fun c => { c with mpiCollectiveTypes_ := c.mpiCollectiveTypes_ ++ [c.identInfo_MPI_Ireduce_] }
  modify fun c => { c with mpiCollToPointTypes_ := c.mpiCollToPointTypes_ ++ [c.identInfo_MPI_Ireduce_] }
  modify fun c => { c with mpiNonBlockingTypes_ := c.mpiNonBlockingTypes_ ++ [c.identInfo_MPI_Ireduce_] }
  modify fun c => { c with mpiType_ := c.mpiType_ ++ [c.identInfo_MPI_Ireduce_] }
  modify fun c => { c with identInfo_MPI_Allreduce_ := Idents.get "MPI_Allreduce" }
  modify fun c => { c with mpiCollectiveTypes_ := c.mpiCollectiveTypes_ ++ [c.identInfo_MPI_Allreduce_] }
  modify fun c => { c with mpiCollToCollTypes_ := c.mpiCollToCollTypes_ ++ [c.identInfo_MPI_Allreduce_] }
  modify fun c => { c with mpiBlockingTypes_ := c.mpiBlockingTypes_ ++ [c.identInfo_MPI_Allreduce_] }
  modify fun c => { c with mpiType_ := c.mpiType_ ++ [c.identInfo_MPI_Allreduce_] }
  modify fun c => { c with identInfo_MPI_Iallreduce_ := Idents.get "MPI_Iallreduce" }
  modify fun c => { c with mpiCollectiveTypes_ := c.mpiCollectiveTypes_ ++ [c.identInfo_MPI_Iallreduce_] }
  modify fun c => { c with mpiCollToCollTypes_ := c.mpiCollToCollTypes_ ++ [c.identInfo_MPI_Iallreduce_] }
  modify fun c => { c with mpiNonBlockingTypes_ := c.mpiNonBlockingTypes_ ++ [c.identInfo_MPI_Iallreduce_] }
  modify fun c => { c with mpiType_ := c.mpiType_ ++ [c.identInfo_MPI_Iallreduce_] }
  modify fun c => { c with identInfo_MPI_Alltoall_ := Idents.get "MPI_Alltoall" }
  modify fun c => { c with mpiCollectiveTypes_ := c.mpiCollectiveTypes_ ++ [c.identInfo_MPI_Alltoall_] }
  modify fun c => { c with mpiCollToCollTypes_ := c.mpiCollToCollTypes_ ++ [c.identInfo_MPI_Alltoall_] }
  modify fun c => { c with mpiBlockingTypes_ := c.mpiBlockingTypes_ ++ [c.identInfo_MPI_Alltoall_] }
  modify fun c => { c with mpiType_ := c.mpiType_ ++ [c.identInfo_MPI_Alltoall_] }
  modify fun c => { c with identInfo_MPI_Ialltoall_ := Idents.get "MPI_Ialltoall" }
  modify fun c => { c with mpiCollectiveTypes_ := c.mpiCollectiveTypes_ ++ [c.identInfo_MPI_Ialltoall_] }
  modify fun c => { c with mpiCollToCollTypes_ := c.mpiCollToCollTypes_ ++ [c.identInfo_MPI_Ialltoall_] }
  modify fun c => { c with mpiNonBlockingTypes_ := c.mpiNonBlockingTypes_ ++ [c.identInfo_MPI_Ialltoall_] }
  modify fun c => { c with mpiType_ := c.mpiType_ ++ [c.identInfo_MPI_Ialltoall_] }

/-- Embedding of `MPIFunctionClassifier::initAdditionalIdentifiers`
(MPIFunctionClassifier.cpp:231-251). -/
def MPIFunctionClassifier.initAdditionalIdentifiers : StateM MPIFunctionClassifier Unit := do
  modify fun c => { c with identInfo_MPI_Comm_rank_ := Idents.get "MPI_Comm_rank" }
  modify fun c => { c with mpiType_ := c.mpiType_ ++ [c.identInfo_MPI_Comm_rank_] }
  modify fun c => { c with identInfo_MPI_Wait_ := Idents.get "MPI_Wait" }
  modify fun c => { c with mpiType_ := c.mpiType_ ++ [c.identInfo_MPI_Wait_] }
  modify fun c => { c with identInfo_MPI_Waitall_ := Idents.get "MPI_Waitall" }
  modify fun c => { c with mpiType_ := c.mpiType_ ++ [c.identInfo_MPI_Waitall_] }
  modify fun c => { c with identInfo_MPI_Barrier_ := Idents.get "MPI_Barrier" }
  modify fun c => { c with mpiCollectiveTypes_ := c.mpiCollectiveTypes_ ++ [c.identInfo_MPI_Barrier_] }
  modify fun c => { c with mpiType_ := c.mpiType_ ++ [c.identInfo_MPI_Barrier_] }

/-- Embedding of `MPIFunctionClassifier::identifierInit` (MPIFunctionClassifier.cpp:42-48). -/
def MPIFunctionClassifier.identifierInit : StateM MPIFunctionClassifier Unit := do
  initPointToPointIdentifiers
  initCollectiveIdentifiers
  initAdditionalIdentifiers

/-- The classifier in use by the checker (`funcClassifier_`): the state of a freshly
constructed classifier (null pointers, empty containers) after `identifierInit` has run. -/
def funcClassifier_ : MPIFunctionClassifier :=
  (MPIFunctionClassifier.identifierInit.run {}).2

namespace MPIFunctionClassifier

/-- Embedding of `isMPIType` (MPIFunctionClassifier.cpp:254-256). -/
def isMPIType (c : MPIFunctionClassifier) (identInfo : IdentPtr) : Bool :=
  cont.isContained c.mpiType_ identInfo

/-- Embedding of `isBlockingType` (MPIFunctionClassifier.cpp:258-261). -/
def isBlockingType (c : MPIFunctionClassifier) (identInfo : IdentPtr) : Bool :=
  cont.isContained c.mpiBlockingTypes_ identInfo

/-- Embedding of `isNonBlockingType` (MPIFunctionClassifier.cpp:263-266). -/
def isNonBlockingType (c : MPIFunctionClassifier) (identInfo : IdentPtr) : Bool :=
  cont.isContained c.mpiNonBlockingTypes_ identInfo

/-- Embedding of `isPointToPointType` (MPIFunctionClassifier.cpp:269-272). -/
def isPointToPointType (c : MPIFunctionClassifier) (identInfo : IdentPtr) : Bool :=
  cont.isContained c.mpiPointToPointTypes_ identInfo

/-- Embedding of `isSendType` (MPIFunctionClassifier.cpp:274-276). -/
def isSendType (c : MPIFunctionClassifier) (identInfo : IdentPtr) : Bool :=
  cont.isContained c.mpiSendTypes_ identInfo

/-- Embedding of `isRecvType` (MPIFunctionClassifier.cpp:278-280). -/
def isRecvType (c : MPIFunctionClassifier) (identInfo : IdentPtr) : Bool :=
  cont.isContained c.mpiRecvTypes_ identInfo

/-- Embedding of `isCollectiveType` (MPIFunctionClassifier.cpp:283-286). -/
def isCollectiveType (c : MPIFunctionClassifier) (identInfo : IdentPtr) : Bool :=
  cont.isContained c.mpiCollectiveTypes_ identInfo

/-- Embedding of `isCollToColl` (MPIFunctionClassifier.cpp:288-291). -/
def isCollToColl (c : MPIFunctionClassifier) (identInfo : IdentPtr) : Bool :=
  cont.isContained c.mpiCollToCollTypes_ identInfo

/-- Embedding of `isScatterType` (MPIFunctionClassifier.cpp:293-297). -/
def isScatterType (c : MPIFunctionClassifier) (identInfo : IdentPtr) : Bool :=
  identInfo == c.identInfo_MPI_Scatter_ ||
  identInfo == c.identInfo_MPI_Iscatter_

/-- Embedding of `isGatherType` (MPIFunctionClassifier.cpp:299-305). -/
def isGatherType (c : MPIFunctionClassifier) (identInfo : IdentPtr) : Bool :=
  identInfo == c.identInfo_MPI_Gather_ ||
  identInfo == c.identInfo_MPI_Igather_ ||
  identInfo == c.identInfo_MPI_Allgather_ ||
  identInfo == c.identInfo_MPI_Iallgather_

/-- Embedding of `isAllgatherType` (MPIFunctionClassifier.cpp:307-311). -/
def isAllgatherType (c : MPIFunctionClassifier) (identInfo : IdentPtr) : Bool :=
  identInfo == c.identInfo_MPI_Allgather_ ||
  identInfo == c.identInfo_MPI_Iallgather_

/-- Embedding of `isAlltoallType` (MPIFunctionClassifier.cpp:313-317). -/
def isAlltoallType (c : MPIFunctionClassifier) (identInfo : IdentPtr) : Bool :=
  identInfo == c.identInfo_MPI_Alltoall_ ||
  identInfo == c.identInfo_MPI_Ialltoall_

/-- Embedding of `isBcastType` (MPIFunctionClassifier.cpp:319-322). -/
def isBcastType (c : MPIFunctionClassifier) (identInfo : IdentPtr) : Bool :=
  identInfo == c.identInfo_MPI_Bcast_ ||
  identInfo == c.identInfo_MPI_Ibcast_

/-- Embedding of `isReduceType` (MPIFunctionClassifier.cpp:324-330). -/
def isReduceType (c : MPIFunctionClassifier) (identInfo : IdentPtr) : Bool :=
  identInfo == c.identInfo_MPI_Reduce_ ||
  identInfo == c.identInfo_MPI_Ireduce_ ||
  identInfo == c.identInfo_MPI_Allreduce_ ||
  identInfo == c.identInfo_MPI_Iallreduce_

/-- Embedding of `isMPI_Comm_rank` (MPIFunctionClassifier.cpp:333-336). -/
def isMPI_Comm_rank (c : MPIFunctionClassifier) (identInfo : IdentPtr) : Bool :=
  identInfo == c.identInfo_MPI_Comm_rank_

/-- Embedding of `isMPI_Wait` (MPIFunctionClassifier.cpp:338-340). -/
def isMPI_Wait (c : MPIFunctionClassifier) (identInfo : IdentPtr) : Bool :=
  identInfo == c.identInfo_MPI_Wait_

/-- Embedding of `isMPI_Waitall` (MPIFunctionClassifier.cpp:342-345). -/
def isMPI_Waitall (c : MPIFunctionClassifier) (identInfo : IdentPtr) : Bool :=
  identInfo == c.identInfo_MPI_Waitall_

/-- Embedding of `isWaitType` (MPIFunctionClassifier.cpp:347-350). -/
def isWaitType (c : MPIFunctionClassifier) (identInfo : IdentPtr) : Bool :=
  identInfo == c.identInfo_MPI_Wait_ ||
  identInfo == c.identInfo_MPI_Waitall_

end MPIFunctionClassifier

/-! ## Call records and argument fingerprints -/

/-- Operator kinds of clang's `BinaryOperatorKind`. -/
inductive BinaryOperatorKind where
  | BO_PtrMemD | BO_PtrMemI
  | BO_Mul | BO_Div | BO_Rem
  | BO_Add | BO_Sub
  | BO_Shl | BO_Shr
  | BO_LT | BO_GT | BO_LE | BO_GE | BO_EQ | BO_NE
  | BO_And | BO_Xor | BO_Or | BO_LAnd | BO_LOr
  | BO_Assign | BO_MulAssign | BO_DivAssign | BO_RemAssign | BO_AddAssign | BO_SubAssign
  | BO_ShlAssign | BO_ShrAssign | BO_AndAssign | BO_XorAssign | BO_OrAssign
  | BO_Comma
  deriving DecidableEq, Repr

/-- A variable declaration node. A `VarDecl *` is the record itself: `decl` identifies the
node, so two pointers are equal exactly when the records are; `name` is `getName()`. -/
structure VarDecl where
  decl : Nat
  name : String
  deriving DecidableEq, Repr

/-- A function declaration node, identified by `decl`; `name` is `getName()`. -/
structure FunctionDecl where
  decl : Nat
  name : String
  deriving DecidableEq, Repr

/-- The value of a floating literal (`llvm::APFloat`), as its bit pattern. -/
structure APFloat where
  bits : Nat
  deriving DecidableEq, Repr

/-- A call-expression node (`CallExpr *`), identified by `node`; it is the call site a
diagnostic points to. -/
structure CallExpr where
  node : Nat
  deriving DecidableEq, Repr

/-- An expression node (`Expr *`) with the text of its source range, which is what
`util::sourceRangeAsStringRef(expr->getSourceRange(), analysisManager_)` returns. -/
structure Expr where
  sourceText : String
  deriving DecidableEq, Repr

/-- The helper `util::sourceRangeAsStringRef` (declared in `Utility.hpp:16`), applied to the
source range of `expr`: the part of the code the range covers, unmodified. -/
def util.sourceRangeAsStringRef (expr : Expr) : String := expr.sourceText

/-- A floating literal node (`FloatingLiteral *`), identified by `node`. -/
structure FloatingLiteral where
  node : Nat
  deriving DecidableEq, Repr

/-- An integer literal node (`IntegerLiteral *`), identified by `node`: every occurrence of
an integer literal in the program is a node of its own. -/
structure IntegerLiteral where
  node : Nat
  deriving DecidableEq, Repr

/-- Modelled from the spec: the argument fingerprint, an element of `MPICall::arguments_`
(declared in `MPITypes.hpp`, which is not part of the sources; legacy declaration:
MPISchemaCheckerAST.cpp:16-65). The fields are the members that `MPICheckerImpl.cpp` reads:
the complete argument expression `expr_` and the component lists, in traversal order of
the argument expression. Integer literal values (`llvm::APInt`) are unbounded integers;
`intValues_` is the list of the values of the integer literals, read by
`areComponentsOfArgumentEqual` and by the rank test of `isSendRecvPair`. The members
`integerLiterals_` and `floatingLiterals_` hold the literal nodes themselves, as the use
`floatingLiterals_.front()->getSourceRange()` shows (MPICheckerImpl.cpp:384-387):
`integerLiterals_` is read at MPICheckerImpl.cpp:93 only, `floatingLiterals_` by
`checkForInvalidArgs`; `floatValues_` is the list of the values of the floating literals. -/
structure SingleArgVisitor where
  expr_ : Expr := { sourceText := "" }
  binaryOperators_ : List BinaryOperatorKind := []
  vars_ : List VarDecl := []
  functions_ : List FunctionDecl := []
  integerLiterals_ : List IntegerLiteral := []
  intValues_ : List Int := []
  floatValues_ : List APFloat := []
  floatingLiterals_ : List FloatingLiteral := []
  deriving DecidableEq, Repr

/-- Modelled from the spec: the record of one observed MPI call (declared in
`MPITypes.hpp`, which is not part of the sources; legacy declaration:
MPISchemaChecker.cpp:19-35). The fields are the ones `MPICheckerImpl.cpp` reads;
`isMarked_` is the mutable flag of the redundancy scan. -/
structure MPICall where
  callExpr_ : CallExpr
  identInfo_ : IdentPtr
  arguments_ : List SingleArgVisitor := []
  id_ : Nat
  isMarked_ : Bool := false
  deriving DecidableEq, Repr

/-- The source range handed to `reportInvalidArgumentType`: the range of the node that
`getSourceRange()` is called on (a variable declaration, a floating literal or a function
declaration). -/
inductive SourceRange where
  | ofVarDecl (var : VarDecl)
  | ofFloatingLiteral (literal : FloatingLiteral)
  | ofFunctionDecl (function : FunctionDecl)
  deriving DecidableEq, Repr

/-- Modelled from the spec: a finding handed to the diagnostic sink (the bug reporter is
not part of the sources), one constructor per reporting function, with the arguments of
the call:
`bugReporter_.reportRedundantCall(callExpr, comparedCallExpr, checkedIndices)`,
`bugReporter_.reportDoubleRequestUse(callExpr, requestVar, callUsingTheRequest)`,
`bugReporter_.reportUnmatchedWait(callExpr, requestVar)`,
`bugReporter_.reportUnmatchedCall(callExpr, missingType)`,
`bugReporter_.reportCollCallInBranch(callExpr)`,
`bugReporter_.reportTypeMismatch(callExpr, idxPair)`,
`bugReporter_.reportInvalidArgumentType(callExpr, idx, invalidSourceRange, typeAsString)`. -/
inductive Diagnostic where
  | redundantCall (callExpr comparedCallExpr : CallExpr) (checkedIndices : List Nat)
  | doubleRequestUse (callExpr : CallExpr) (requestVar : VarDecl)
      (callUsingTheRequest : CallExpr)
  | unmatchedWait (callExpr : CallExpr) (requestVar : VarDecl)
  | unmatchedCall (callExpr : CallExpr) (missingType : String)
  | collCallInBranch (callExpr : CallExpr)
  | typeMismatch (callExpr : CallExpr) (idxPair : Nat × Nat)
  | invalidArgumentType (callExpr : CallExpr) (idx : Nat) (invalidSourceRange : SourceRange)
      (typeAsString : String)
  deriving DecidableEq, Repr

/-- Whether a diagnostic names the call site `e`. -/
def Diagnostic.names (d : Diagnostic) (e : CallExpr) : Bool :=
  match d with
  | .redundantCall callExpr comparedCallExpr _ => callExpr == e || comparedCallExpr == e
  | .doubleRequestUse callExpr _ callUsingTheRequest =>
    callExpr == e || callUsingTheRequest == e
  | .unmatchedWait callExpr _ => callExpr == e
  | .unmatchedCall callExpr _ => callExpr == e
  | .collCallInBranch callExpr => callExpr == e
  | .typeMismatch callExpr _ => callExpr == e
  | .invalidArgumentType callExpr _ _ _ => callExpr == e

/-- The process-wide state touched by the redundancy check: the recorded calls
(`MPICall::visitedCalls`, MPITypes.cpp:5) and the diagnostics emitted so far. -/
structure CheckerState where
  visitedCalls : List MPICall := []
  reports : List Diagnostic := []
  deriving DecidableEq, Repr

/-- Modelled from the spec: the positional constant `MPIPointToPoint::kCount` (declared in a
header that is not part of the sources); the point-to-point layout is
`(buf=0, count=1, datatype=2, rank=3, tag=4, comm=5[, request=6])`. -/
def MPIPointToPoint.kCount : Nat := 1

/-- Modelled from the spec: the positional constant `MPIPointToPoint::kDatatype`. -/
def MPIPointToPoint.kDatatype : Nat := 2

/-- Modelled from the spec: the positional constant `MPIPointToPoint::kRank`. -/
def MPIPointToPoint.kRank : Nat := 3

/-- Modelled from the spec: the positional constant `MPIPointToPoint::kTag`. -/
def MPIPointToPoint.kTag : Nat := 4

/-- Modelled from the spec: the helper `util::isPermutation` (its definition is not part of
the sources). Two component lists compare equal when one is a permutation of the other;
the comparison is the erase-and-search over a copy of `first`: every element of `second`
must be found in the copy and is erased from it once, and nothing may be left over. -/
def util.isPermutation {α : Type} [DecidableEq α] : List α → List α → Bool
  | first, [] => first.isEmpty
  | first, x :: second => first.contains x && util.isPermutation (first.erase x) second

/-! ## Redundancy check (`src/_MPI_Checker/MPICheckerImpl.cpp`) -/

/-- Embedding of `MPICheckerImpl::areComponentsOfArgumentEqual` (MPICheckerImpl.cpp:416-445).
`none` when `idx` is not an argument index of both calls. -/
def areComponentsOfArgumentEqual (callOne callTwo : MPICall) (idx : Nat) : Option Bool :=
  match callOne.arguments_[idx]?, callTwo.arguments_[idx]? with
  | some argOne, some argTwo =>
    -- operators
    if !util.isPermutation argOne.binaryOperators_ argTwo.binaryOperators_ then some false
    -- variables
    else if !util.isPermutation argOne.vars_ argTwo.vars_ then some false
    -- int literals
    else if !util.isPermutation argOne.intValues_ argTwo.intValues_ then some false
    -- float literals: just compare count
    else if argOne.floatValues_.length != argTwo.floatValues_.length then some false
    -- functions
    else if !util.isPermutation argOne.functions_ argTwo.functions_ then some false
    else some true
  | _, _ => none

/-- Embedding of `MPICheckerImpl::areDatatypesEqual` (MPICheckerImpl.cpp:447-454): the names
of the first variable of each argument are compared. `none` when `idx` is not an argument
index of both calls or one of the two arguments references no variable (`vars_.front()` on
an empty vector). -/
def areDatatypesEqual (callOne callTwo : MPICall) (idx : Nat) : Option Bool :=
  match callOne.arguments_[idx]?, callTwo.arguments_[idx]? with
  | some argOne, some argTwo =>
    match argOne.vars_.head?, argTwo.vars_.head? with
    | some mpiTypeNew, some mpiTypePrev => some (mpiTypeNew.name == mpiTypePrev.name)
    | _, _ => none
  | _, _ => none

/-- Embedding of `MPICheckerImpl::areCommunicationTypesEqual` (MPICheckerImpl.cpp:464-471). -/
def areCommunicationTypesEqual (c : MPIFunctionClassifier) (callOne callTwo : MPICall) : Bool :=
  (c.isPointToPointType callOne.identInfo_ && c.isPointToPointType callTwo.identInfo_) ||
  (c.isCollectiveType callOne.identInfo_ && c.isCollectiveType callTwo.identInfo_)

/-- Embedding of `MPICheckerImpl::qualifyRedundancyCheck` (MPICheckerImpl.cpp:481-513). -/
def qualifyRedundancyCheck (c : MPIFunctionClassifier) (callToCheck comparedCall : MPICall) :
    Bool :=
  if comparedCall.isMarked_ then false  -- to omit double matching
  -- do not compare with the call itself
  else if callToCheck.id_ == comparedCall.id_ then false
  else if !areCommunicationTypesEqual c callToCheck comparedCall then false
  else if c.isPointToPointType callToCheck.identInfo_ then
    -- both must be send or recv types
    (c.isSendType callToCheck.identInfo_ && c.isSendType comparedCall.identInfo_) ||
    (c.isRecvType callToCheck.identInfo_ && c.isRecvType comparedCall.identInfo_)
  else if c.isCollectiveType callToCheck.identInfo_ then
    -- calls must be of the same type
    (c.isScatterType callToCheck.identInfo_ && c.isScatterType comparedCall.identInfo_) ||
    (c.isGatherType callToCheck.identInfo_ && c.isGatherType comparedCall.identInfo_) ||
    (c.isAlltoallType callToCheck.identInfo_ && c.isAlltoallType comparedCall.identInfo_) ||
    (c.isBcastType callToCheck.identInfo_ && c.isBcastType comparedCall.identInfo_) ||
    (c.isReduceType callToCheck.identInfo_ && c.isReduceType comparedCall.identInfo_)
  else false

namespace checkForRedundantCall

/-- The index vectors chosen at the head of `checkForRedundantCall`
(MPICheckerImpl.cpp:521-540): (`indicesToCheckComponents`, `indicesToCheckAsString`). -/
def indicesToCheck (c : MPIFunctionClassifier) (callToCheck : MPICall) : List Nat × List Nat :=
  if c.isPointToPointType callToCheck.identInfo_ then
    ([MPIPointToPoint.kCount, MPIPointToPoint.kRank, MPIPointToPoint.kTag],
      [MPIPointToPoint.kDatatype])
  else if c.isReduceType callToCheck.identInfo_ then
    ([2], [3, 4])
  else if c.isScatterType callToCheck.identInfo_ ||
      c.isGatherType callToCheck.identInfo_ ||
      c.isAlltoallType callToCheck.identInfo_ then
    ([1, 4, 6], [2, 5])
  else if c.isBcastType callToCheck.identInfo_ then
    ([1, 3], [2])
  else ([], [])

/-- The first inner loop (MPICheckerImpl.cpp:546-552): the value of `identical` after the
arguments compared by components; the loop ends at the first unequal argument. -/
def componentsLoop (callToCheck comparedCall : MPICall) : List Nat → Option Bool
  | [] => some true
  | idx :: rest =>
    match areComponentsOfArgumentEqual callToCheck comparedCall idx with
    | none => none
    | some false => some false
    | some true => componentsLoop callToCheck comparedCall rest

/-- The second inner loop (MPICheckerImpl.cpp:554-559): it runs whatever the value of
`identical` is, and ends at the first unequal datatype. -/
def datatypesLoop (callToCheck comparedCall : MPICall) (identical : Bool) :
    List Nat → Option Bool
  | [] => some identical
  | idx :: rest =>
    match areDatatypesEqual callToCheck comparedCall idx with
    | none => none
    | some false => some false
    | some true => datatypesLoop callToCheck comparedCall identical rest

/-- One iteration of the scan (MPICheckerImpl.cpp:543-560) for `comparedCall`: `some true`
when the iteration reaches the report, `some false` when it ends in a `continue`. -/
def isRedundantWith (c : MPIFunctionClassifier) (callToCheck comparedCall : MPICall)
    (indicesToCheckComponents indicesToCheckAsString : List Nat) : Option Bool :=
  if !qualifyRedundancyCheck c callToCheck comparedCall then some false
  else
    match componentsLoop callToCheck comparedCall indicesToCheckComponents with
    | none => none
    | some identical =>
      datatypesLoop callToCheck comparedCall identical indicesToCheckAsString

/-- The scan `for (const MPICall &comparedCall : MPICall::visitedCalls)`
(MPICheckerImpl.cpp:542-577): the first recorded call at which the iteration reaches the
report, if any. -/
def scan (c : MPIFunctionClassifier) (callToCheck : MPICall)
    (indicesToCheckComponents indicesToCheckAsString : List Nat) :
    List MPICall → Option (Option MPICall)
  | [] => some none
  | comparedCall :: rest =>
    match isRedundantWith c callToCheck comparedCall indicesToCheckComponents
        indicesToCheckAsString with
    | none => none
    | some true => some (some comparedCall)
    | some false => scan c callToCheck indicesToCheckComponents indicesToCheckAsString rest

end checkForRedundantCall

/-- Embedding of `MPICheckerImpl::checkForRedundantCall` (MPICheckerImpl.cpp:520-578).
`callToCheck` is a reference to an element of `MPICall::visitedCalls`; it is given by its
position `k`. On a match the call is marked in place and one diagnostic is emitted with
the component indices followed by the string indices. -/
def checkForRedundantCall (c : MPIFunctionClassifier) (st : CheckerState) (k : Nat) :
    Option CheckerState :=
  match st.visitedCalls[k]? with
  | none => none
  | some callToCheck =>
    let indices := checkForRedundantCall.indicesToCheck c callToCheck
    match checkForRedundantCall.scan c callToCheck indices.1 indices.2 st.visitedCalls with
    | none => none
    | some none => some st
    | some (some comparedCall) =>
      some { visitedCalls := st.visitedCalls.set k { callToCheck with isMarked_ := true }
             reports := st.reports ++
               [Diagnostic.redundantCall callToCheck.callExpr_ comparedCall.callExpr_
                 (indices.1 ++ indices.2)] }

/-- Embedding of `MPICheckerImpl::checkForRedundantCalls` (MPICheckerImpl.cpp:588-597): every
recorded call is checked in insertion order, then every call is unmarked. -/
def checkForRedundantCalls (c : MPIFunctionClassifier) (st : CheckerState) :
    Option CheckerState :=
  match (List.range st.visitedCalls.length).foldlM (checkForRedundantCall c) st with
  | none => none
  | some st =>
    -- unmark calls
    some { st with visitedCalls := st.visitedCalls.map fun mpiCall =>
      { mpiCall with isMarked_ := false } }

/-- A call record with its mark cleared. -/
def MPICall.unmarked (mpiCall : MPICall) : MPICall :=
  { mpiCall with isMarked_ := false }

/-- The verdict of the redundancy scan of `callToCheck` on `comparedCall` when
`comparedCall` is not marked: `some true` when the two calls are judged redundant,
`some false` when they are not, `none` when the comparison is undefined. -/
def judgedRedundant (c : MPIFunctionClassifier) (callToCheck comparedCall : MPICall) :
    Option Bool :=
  checkForRedundantCall.isRedundantWith c callToCheck comparedCall.unmarked
    (checkForRedundantCall.indicesToCheck c callToCheck).1
    (checkForRedundantCall.indicesToCheck c callToCheck).2

/-- The diagnostic `checkForRedundantCall` emits for `callToCheck` matched with
`comparedCall`. -/
def redundancyReport (c : MPIFunctionClassifier) (callToCheck comparedCall : MPICall) :
    Diagnostic :=
  Diagnostic.redundantCall callToCheck.callExpr_ comparedCall.callExpr_
    ((checkForRedundantCall.indicesToCheck c callToCheck).1 ++
      (checkForRedundantCall.indicesToCheck c callToCheck).2)

/-- The name of the first variable that argument `idx` of `call` references, which is what
`areDatatypesEqual` reads (`arguments_[idx].vars_.front()->getName()`); `none` when the call
has no argument `idx` or the argument references no variable. -/
def firstVarName (call : MPICall) (idx : Nat) : Option String :=
  match call.arguments_[idx]? with
  | some arg => arg.vars_.head?.map (·.name)
  | none => none

/-- The source text of argument `idx` of `call`, `none` when the call has no argument
`idx`. -/
def argumentSourceText (call : MPICall) (idx : Nat) : Option String :=
  match call.arguments_[idx]? with
  | some arg => some (util.sourceRangeAsStringRef arg.expr_)
  | none => none

/-! ## Pair matching (`src/_MPI_Checker/MPICheckerImpl.cpp`) -/

namespace isSendRecvPair

/-- The end of the rank comparison (MPICheckerImpl.cpp:90-112): the literals must match when
the send rank uses a variable and the recv rank a literal, and the functions must match.
The test on the operators (lines 101-110) is commented out in the source. -/
def dynamicRank (rankArgSend rankArgRecv : SingleArgVisitor) : Bool :=
  -- if rank is dynamic and uses literal
  if (rankArgSend.vars_.length != 0 && rankArgRecv.intValues_.length != 0) &&
      -- literals must match
      !util.isPermutation rankArgSend.integerLiterals_ rankArgRecv.integerLiterals_ then
    false
  else if !util.isPermutation rankArgSend.functions_ rankArgRecv.functions_ then false
  else true

/-- The rank comparison (MPICheckerImpl.cpp:67-112) on the two rank arguments. -/
def compareRank (rankArgSend rankArgRecv : SingleArgVisitor) : Bool :=
  let operatorsRecv := rankArgRecv.binaryOperators_
  -- if send is single rank literal
  if rankArgSend.intValues_.length == 1 && rankArgSend.binaryOperators_.length == 0 then
    if rankArgRecv.intValues_.length != 1 then false
    else if operatorsRecv.length == 1 &&
        (rankArgRecv.intValues_.length == 1 &&
          !(some BinaryOperatorKind.BO_Sub == operatorsRecv.head?)) then false
    -- send rank must be != recv rank
    else if rankArgSend.intValues_.head? == rankArgRecv.intValues_.head? then false
    else dynamicRank rankArgSend rankArgRecv
  else dynamicRank rankArgSend rankArgRecv

end isSendRecvPair

/-- Embedding of `MPICheckerImpl::isSendRecvPair` (MPICheckerImpl.cpp:44-113). `none` when an
argument that is read (datatype, count, tag, rank) is missing in one of the calls. -/
def isSendRecvPair (c : MPIFunctionClassifier) (sendCall recvCall : MPICall) : Option Bool :=
  if !c.isSendType sendCall.identInfo_ then some false
  else if !c.isRecvType recvCall.identInfo_ then some false
  else
    -- compare mpi datatype
    match sendCall.arguments_[MPIPointToPoint.kDatatype]?,
        recvCall.arguments_[MPIPointToPoint.kDatatype]? with
    | some sendDatatype, some recvDatatype =>
      let sendType := util.sourceRangeAsStringRef sendDatatype.expr_
      let recvType := util.sourceRangeAsStringRef recvDatatype.expr_
      if sendType != recvType then some false
      else
        -- compare count, tag
        match areComponentsOfArgumentEqual sendCall recvCall MPIPointToPoint.kCount with
        | none => none
        | some false => some false
        | some true =>
          match areComponentsOfArgumentEqual sendCall recvCall MPIPointToPoint.kTag with
          | none => none
          | some false => some false
          | some true =>
            -- compare rank
            match sendCall.arguments_[MPIPointToPoint.kRank]?,
                recvCall.arguments_[MPIPointToPoint.kRank]? with
            | some rankArgSend, some rankArgRecv =>
              some (isSendRecvPair.compareRank rankArgSend rankArgRecv)
            | _, _ => none
    | _, _ => none

/-! ## Unmatched calls (`src/_MPI_Checker/MPICheckerImpl.cpp`) -/

/-- Modelled from the spec: a rank case (`MPIrankCase`, declared in a header that is not
part of the sources), as far as `checkUnmatchedCalls` reads it: the ordered list of MPI
calls lexically inside the arm, which is what iterating the rank case yields. -/
structure MPIrankCase where
  mpiCalls_ : List MPICall := []
  deriving DecidableEq, Repr

/-- The body of the inner loop of `checkUnmatchedCalls` (MPICheckerImpl.cpp:24-31) for the
call `b`. -/
def checkUnmatchedCalls.visitCall (c : MPIFunctionClassifier) (reports : List Diagnostic)
    (b : MPICall) : List Diagnostic :=
  if c.isPointToPointType b.identInfo_ then
    if c.isSendType b.identInfo_ then
      reports ++ [Diagnostic.unmatchedCall b.callExpr_ "receive"]
    else if c.isRecvType b.identInfo_ then
      reports ++ [Diagnostic.unmatchedCall b.callExpr_ "send"]
    else reports
  else reports

/-- Embedding of `MPICheckerImpl::checkUnmatchedCalls` (MPICheckerImpl.cpp:20-34): the
diagnostics after the call, given the diagnostics emitted before it. -/
def checkUnmatchedCalls (c : MPIFunctionClassifier) (rankCases : List MPIrankCase)
    (reports : List Diagnostic) : List Diagnostic :=
  rankCases.foldl
    (fun reports rankCase => rankCase.mpiCalls_.foldl (checkUnmatchedCalls.visitCall c) reports)
    reports

/-! ## Request usage (`src/_MPI_Checker/MPICheckerImpl.cpp`) -/

/-- Modelled from the spec: the record of an outstanding request (`MPIRequest`, declared in
`MPITypes.hpp`, which is not part of the sources): the request variable and the call that
created the binding. -/
structure MPIRequest where
  requestVariable_ : VarDecl
  callUsingTheRequest_ : CallExpr
  deriving DecidableEq, Repr

/-- The process-wide state touched by `checkRequestUsage`: the outstanding requests
(`MPIRequest::visitedRequests`, MPITypes.cpp:8) and the diagnostics emitted so far. -/
structure RequestState where
  visitedRequests : List MPIRequest := []
  reports : List Diagnostic := []
  deriving DecidableEq, Repr

/-- Modelled from the spec: the helper `cont::findPred(container, pred)` (`Container.hpp`,
not part of the sources), the predicate find of the request set: the first element that
satisfies `pred`, `none` for the end iterator. -/
def cont.findPred {α : Type} (container : List α) (pred : α → Bool) : Option α :=
  container.find? pred

/-- Modelled from the spec: the helper `cont::erasePred(container, pred)` (`Container.hpp`,
not part of the sources), which removes a request from the set: the elements that
satisfy `pred` are erased, the others keep their order. -/
def cont.erasePred {α : Type} (container : List α) (pred : α → Bool) : List α :=
  container.filter (fun x => !pred x)

/-- The number of arguments of the call expression, `callExpr_->getNumArgs()`: the record
holds one fingerprint per argument of the call expression. -/
def MPICall.getNumArgs (mpiCall : MPICall) : Nat := mpiCall.arguments_.length

namespace checkRequestUsage

/-- The first part of `checkRequestUsage` (MPICheckerImpl.cpp:600-617), taken when the call
is of non-blocking type. The index `getNumArgs() - 1` of a call without arguments is out
of range, as is every index of its empty argument list. -/
def nonBlocking (st : RequestState) (mpiCall : MPICall) : Option RequestState :=
  -- last argument is always the request
  match mpiCall.arguments_[mpiCall.getNumArgs - 1]? with
  | none => none
  | some arg =>
    match arg.vars_.head? with
    | none => none
    | some requestVar =>
      match cont.findPred st.visitedRequests
          (fun r => r.requestVariable_ == requestVar) with
      | none =>
        some { st with visitedRequests :=
          st.visitedRequests ++
            [{ requestVariable_ := requestVar, callUsingTheRequest_ := mpiCall.callExpr_ }] }
      | some iterator =>
        some { st with reports :=
          st.reports ++ [Diagnostic.doubleRequestUse mpiCall.callExpr_ requestVar
            iterator.callUsingTheRequest_] }

/-- The request vector built for a call of wait type (MPICheckerImpl.cpp:620-631).
`TraverseVarDecl` gives, for a variable declaration, the variables of the declaration
references that the traversal of `ArrayVisitor` (ArrayVisitor.hpp:37-47) visits, in
visiting order; the vector collected for `MPI_Waitall` is cut to half its size. -/
def requestVector (c : MPIFunctionClassifier) (TraverseVarDecl : VarDecl → List VarDecl)
    (mpiCall : MPICall) : Option (List VarDecl) :=
  if c.isMPI_Wait mpiCall.identInfo_ then
    match mpiCall.arguments_[0]? with
    | none => none
    | some arg =>
      match arg.vars_.head? with
      | none => none
      | some requestVar => some [requestVar]
  else if c.isMPI_Waitall mpiCall.identInfo_ then
    match mpiCall.arguments_[1]? with
    | none => none
    | some arg =>
      match arg.vars_.head? with
      | none => none
      | some arrayVarDecl =>
        let vars_ := TraverseVarDecl arrayVarDecl
        some (vars_.take (vars_.length / 2))  -- hack
  else some []

/-- The body of the loop over the request vector (MPICheckerImpl.cpp:633-649). -/
def waitOn (mpiCall : MPICall) (st : RequestState) (requestVar : VarDecl) : RequestState :=
  match cont.findPred st.visitedRequests (fun r => r.requestVariable_ == requestVar) with
  -- if not found -> endless wait
  | none =>
    { st with reports := st.reports ++ [Diagnostic.unmatchedWait mpiCall.callExpr_ requestVar] }
  -- request var used, remove from container
  | some _ =>
    { st with visitedRequests :=
        cont.erasePred st.visitedRequests (fun r => r.requestVariable_ == requestVar) }

end checkRequestUsage

/-- Embedding of `MPICheckerImpl::checkRequestUsage` (MPICheckerImpl.cpp:599-651). `none`
when an argument that is read is missing or references no variable. -/
def checkRequestUsage (c : MPIFunctionClassifier) (TraverseVarDecl : VarDecl → List VarDecl)
    (st : RequestState) (mpiCall : MPICall) : Option RequestState :=
  match (if c.isNonBlockingType mpiCall.identInfo_ then
      checkRequestUsage.nonBlocking st mpiCall else some st) with
  | none => none
  | some st =>
    if c.isWaitType mpiCall.identInfo_ then
      match checkRequestUsage.requestVector c TraverseVarDecl mpiCall with
      | none => none
      | some requestVector =>
        some (requestVector.foldl (checkRequestUsage.waitOn mpiCall) st)
    else some st

/-! ## Sample calls

The recorded calls of the program
`MPI_Send(a, n, MPI_INT, 1, 0, MPI_COMM_WORLD); MPI_Send(a, n, MPI_INT, 1, 0, MPI_COMM_WORLD);
MPI_Barrier(MPI_COMM_WORLD);`. -/

/-- The argument fingerprints of `MPI_Send(a, n, MPI_INT, 1, 0, MPI_COMM_WORLD)`. -/
def sampleSendArguments : List SingleArgVisitor :=
  [{ vars_ := [{ decl := 1, name := "a" }] },
   { vars_ := [{ decl := 2, name := "n" }] },
   { vars_ := [{ decl := 3, name := "MPI_INT" }] },
   { intValues_ := [1] },
   { intValues_ := [0] },
   { vars_ := [{ decl := 4, name := "MPI_COMM_WORLD" }] }]

/-- The first `MPI_Send`. -/
def sampleSendOne : MPICall :=
  { callExpr_ := { node := 100 }, identInfo_ := Idents.get "MPI_Send",
    arguments_ := sampleSendArguments, id_ := 0 }

/-- The second `MPI_Send`. -/
def sampleSendTwo : MPICall :=
  { callExpr_ := { node := 101 }, identInfo_ := Idents.get "MPI_Send",
    arguments_ := sampleSendArguments, id_ := 1 }

/-- The `MPI_Barrier`. -/
def sampleBarrier : MPICall :=
  { callExpr_ := { node := 102 }, identInfo_ := Idents.get "MPI_Barrier",
    arguments_ := [{ vars_ := [{ decl := 4, name := "MPI_COMM_WORLD" }] }], id_ := 2 }

/-- The recorded call list of the sample program. -/
def sampleCalls : List MPICall := [sampleSendOne, sampleSendTwo, sampleBarrier]

/-- The fingerprint of the expression `x + y + 2 * 1.5`. -/
def sampleExprOne : SingleArgVisitor :=
  { binaryOperators_ := [.BO_Add, .BO_Add, .BO_Mul]
    vars_ := [{ decl := 5, name := "x" }, { decl := 6, name := "y" }]
    intValues_ := [2]
    floatValues_ := [{ bits := 0x3FF8000000000000 }] }

/-- The fingerprint of the expression `y + 2.5 * 2 + x`. -/
def sampleExprTwo : SingleArgVisitor :=
  { binaryOperators_ := [.BO_Add, .BO_Add, .BO_Mul]
    vars_ := [{ decl := 6, name := "y" }, { decl := 5, name := "x" }]
    intValues_ := [2]
    floatValues_ := [{ bits := 0x4004000000000000 }] }

/-- A call whose argument 0 is `x + y + 2 * 1.5`. -/
def sampleCallOne : MPICall :=
  { callExpr_ := { node := 200 }, identInfo_ := Idents.get "MPI_Send",
    arguments_ := [sampleExprOne], id_ := 10 }

/-- A call whose argument 0 is `y + 2.5 * 2 + x`. -/
def sampleCallTwo : MPICall :=
  { callExpr_ := { node := 201 }, identInfo_ := Idents.get "MPI_Send",
    arguments_ := [sampleExprTwo], id_ := 11 }

/-- The argument fingerprints of `MPI_Bcast(a, n, <datatype>, 0, MPI_COMM_WORLD)` where the
datatype argument is the element `types[i]` of an array of datatypes. -/
def sampleTypedBcastArguments (i : Int) (text : String) : List SingleArgVisitor :=
  [{ expr_ := { sourceText := "a" }, vars_ := [{ decl := 1, name := "a" }] },
   { expr_ := { sourceText := "n" }, vars_ := [{ decl := 2, name := "n" }] },
   { expr_ := { sourceText := text }, vars_ := [{ decl := 7, name := "types" }],
     integerLiterals_ := [{ node := 350 + i.toNat }], intValues_ := [i] },
   { expr_ := { sourceText := "0" }, integerLiterals_ := [{ node := 360 + i.toNat }], intValues_ := [0] },
   { expr_ := { sourceText := "MPI_COMM_WORLD" },
     vars_ := [{ decl := 4, name := "MPI_COMM_WORLD" }] }]

/-- The request variable `req`. -/
def sampleRequest : VarDecl := { decl := 50, name := "req" }

/-- The argument fingerprints of `(a, n, MPI_INT, 1, 0, MPI_COMM_WORLD, &req)`. -/
def sampleImmediateSendArguments : List SingleArgVisitor :=
  [{ expr_ := { sourceText := "a" }, vars_ := [{ decl := 1, name := "a" }] },
   { expr_ := { sourceText := "n" }, vars_ := [{ decl := 2, name := "n" }] },
   { expr_ := { sourceText := "MPI_INT" }, vars_ := [{ decl := 3, name := "MPI_INT" }] },
   { expr_ := { sourceText := "1" }, integerLiterals_ := [{ node := 420 }], intValues_ := [1] },
   { expr_ := { sourceText := "0" }, integerLiterals_ := [{ node := 421 }], intValues_ := [0] },
   { expr_ := { sourceText := "MPI_COMM_WORLD" },
     vars_ := [{ decl := 4, name := "MPI_COMM_WORLD" }] },
   { expr_ := { sourceText := "&req" }, vars_ := [sampleRequest] }]

/-- The call `MPI_Isend(a, n, MPI_INT, 1, 0, MPI_COMM_WORLD, &req)`. -/
def sampleIsend : MPICall :=
  { callExpr_ := { node := 400 }, identInfo_ := Idents.get "MPI_Isend",
    arguments_ := sampleImmediateSendArguments, id_ := 40 }

/-- The call `MPI_Irsend(a, n, MPI_INT, 1, 0, MPI_COMM_WORLD, &req)`. -/
def sampleIrsend : MPICall :=
  { callExpr_ := { node := 401 }, identInfo_ := Idents.get "MPI_Irsend",
    arguments_ := sampleImmediateSendArguments, id_ := 41 }

/-- The call `MPI_Wait(&req, &status)`. -/
def sampleWait : MPICall :=
  { callExpr_ := { node := 402 }, identInfo_ := Idents.get "MPI_Wait",
    arguments_ :=
      [{ expr_ := { sourceText := "&req" }, vars_ := [sampleRequest] },
       { expr_ := { sourceText := "&status" }, vars_ := [{ decl := 51, name := "status" }] }],
    id_ := 42 }

/-- The array variable `reqs` of the declaration `MPI_Request reqs[N] = {r1, r2, r3}`. -/
def sampleRequestArray : VarDecl := { decl := 60, name := "reqs" }

/-- The variable `N` of the declaration `const int N = 3`, the size of the array `reqs`. -/
def sampleArraySize : VarDecl := { decl := 65, name := "N" }

/-- The request variables `r1`, `r2`, `r3`. -/
def sampleArrayRequests : List VarDecl :=
  [{ decl := 61, name := "r1" }, { decl := 62, name := "r2" }, { decl := 63, name := "r3" }]

/-- A traversal of declarations: in the declaration of `reqs` it visits the reference to
`N` in the array type and then the references `r1`, `r2`, `r3` of the initializer list,
once or (`twice`) a second time; it finds no reference in any other declaration. -/
def sampleTraverseVarDecl (twice : Bool) (varDecl : VarDecl) : List VarDecl :=
  if varDecl = sampleRequestArray then
    if twice then sampleArraySize :: (sampleArrayRequests ++ sampleArrayRequests)
    else sampleArraySize :: sampleArrayRequests
  else []

/-- The call `MPI_Waitall(N, reqs, statuses)`. -/
def sampleWaitall : MPICall :=
  { callExpr_ := { node := 403 }, identInfo_ := Idents.get "MPI_Waitall",
    arguments_ :=
      [{ expr_ := { sourceText := "N" }, vars_ := [sampleArraySize] },
       { expr_ := { sourceText := "reqs" }, vars_ := [sampleRequestArray] },
       { expr_ := { sourceText := "statuses" },
         vars_ := [{ decl := 64, name := "statuses" }] }],
    id_ := 43 }

/-- The outstanding requests after three non-blocking calls (at the call sites 410, 411,
412) bound `r1`, `r2` and `r3`. -/
def sampleOutstandingRequests : List MPIRequest :=
  [{ requestVariable_ := { decl := 61, name := "r1" }, callUsingTheRequest_ := { node := 410 } },
   { requestVariable_ := { decl := 62, name := "r2" }, callUsingTheRequest_ := { node := 411 } },
   { requestVariable_ := { decl := 63, name := "r3" }, callUsingTheRequest_ := { node := 412 } }]

/-- The fingerprint of a rank argument that is the integer literal `value`. -/
def sampleRankLiteral (value : Int) (text : String) : SingleArgVisitor :=
  { expr_ := { sourceText := text }, integerLiterals_ := [{ node := 520 + value.toNat }], intValues_ := [value] }

/-- The fingerprint of the rank argument `rank + 1` (operator `BO_Add`) or `rank - 1`
(operator `BO_Sub`), whose literal `1` is the node `literal`. -/
def sampleRankOffset (op : BinaryOperatorKind) (text : String) (literal : Nat) :
    SingleArgVisitor :=
  { expr_ := { sourceText := text }, binaryOperators_ := [op],
    vars_ := [{ decl := 70, name := "rank" }], integerLiterals_ := [{ node := literal }],
    intValues_ := [1] }

/-- The call `MPI_Send(a, n, MPI_INT, <rank>, 0, MPI_COMM_WORLD)`. -/
def samplePairSend (rank : SingleArgVisitor) : MPICall :=
  { callExpr_ := { node := 500 }, identInfo_ := Idents.get "MPI_Send",
    arguments_ :=
      [{ expr_ := { sourceText := "a" }, vars_ := [{ decl := 1, name := "a" }] },
       { expr_ := { sourceText := "n" }, vars_ := [{ decl := 2, name := "n" }] },
       { expr_ := { sourceText := "MPI_INT" }, vars_ := [{ decl := 3, name := "MPI_INT" }] },
       rank,
       { expr_ := { sourceText := "0" }, integerLiterals_ := [{ node := 510 }], intValues_ := [0] },
       { expr_ := { sourceText := "MPI_COMM_WORLD" },
         vars_ := [{ decl := 4, name := "MPI_COMM_WORLD" }] }],
    id_ := 50 }

/-- The call `MPI_Recv(b, n, MPI_INT, <rank>, 0, MPI_COMM_WORLD, &status)`. -/
def samplePairRecv (rank : SingleArgVisitor) : MPICall :=
  { callExpr_ := { node := 501 }, identInfo_ := Idents.get "MPI_Recv",
    arguments_ :=
      [{ expr_ := { sourceText := "b" }, vars_ := [{ decl := 8, name := "b" }] },
       { expr_ := { sourceText := "n" }, vars_ := [{ decl := 2, name := "n" }] },
       { expr_ := { sourceText := "MPI_INT" }, vars_ := [{ decl := 3, name := "MPI_INT" }] },
       rank,
       { expr_ := { sourceText := "0" }, integerLiterals_ := [{ node := 511 }], intValues_ := [0] },
       { expr_ := { sourceText := "MPI_COMM_WORLD" },
         vars_ := [{ decl := 4, name := "MPI_COMM_WORLD" }] },
       { expr_ := { sourceText := "&status" }, vars_ := [{ decl := 51, name := "status" }] }],
    id_ := 51 }

/-! ## Collective calls in rank branches (`src/_MPI_Checker/MPICheckerImpl.cpp`) -/

/-- Embedding of `MPICheckerImpl::checkForCollectiveCall` (MPICheckerImpl.cpp:8-12): the
diagnostics after the call, given the diagnostics emitted before it. -/
def checkForCollectiveCall (c : MPIFunctionClassifier) (reports : List Diagnostic)
    (mpiCall : MPICall) : List Diagnostic :=
  if c.isCollectiveType mpiCall.identInfo_ then
    reports ++ [Diagnostic.collCallInBranch mpiCall.callExpr_]
  else reports

/-! ## Buffer type matching (`src/_MPI_Checker/MPICheckerImpl.cpp`) -/

/-- The kinds of clang's `BuiltinType` (`clang/AST/BuiltinTypes.def`), in the order of
their declaration: `Void`, the unsigned kinds `Bool` to `UInt128`, the signed kinds
`Char_S` to `Int128`, the floating kinds `Half` to `LongDouble`, and the remaining
placeholder kinds (those of the OpenCL types are left out). `Char_U` and `Char_S` are the
plain `char` of a target whose `char` is unsigned and signed; `UChar` and `SChar` are
`unsigned char` and `signed char`. -/
inductive BuiltinType.Kind where
  | Void
  | Bool | Char_U | UChar | WChar_U | Char16 | Char32
  | UShort | UInt | ULong | ULongLong | UInt128
  | Char_S | SChar | WChar_S | Short | Int | Long | LongLong | Int128
  | Half | Float | Double | LongDouble
  | NullPtr | ObjCId | ObjCClass | ObjCSel
  | Dependent | Overload | BoundMember | PseudoObject | UnknownAny | BuiltinFn
  | ARCUnbridgedCast
  deriving DecidableEq, Repr

/-- A builtin type of clang (`clang::BuiltinType`), determined by its kind, `getKind()`. -/
structure BuiltinType where
  getKind : BuiltinType.Kind
  deriving DecidableEq, Repr

namespace BuiltinType

/-- The test `isBooleanType()` of clang on a builtin type: the kind is `Bool`. -/
def isBooleanType (t : BuiltinType) : Bool :=
  t.getKind == .Bool

/-- The test `isAnyCharacterType()` of clang on a builtin type: one of the character
kinds. -/
def isAnyCharacterType (t : BuiltinType) : Bool :=
  match t.getKind with
  | .Char_U | .UChar | .WChar_U | .Char16 | .Char32 | .Char_S | .SChar | .WChar_S => true
  | _ => false

/-- The test `isSignedInteger()` of clang's `BuiltinType`: the kinds `Char_S` to
`Int128`. -/
def isSignedInteger (t : BuiltinType) : Bool :=
  match t.getKind with
  | .Char_S | .SChar | .WChar_S | .Short | .Int | .Long | .LongLong | .Int128 => true
  | _ => false

/-- The test `isUnsignedIntegerType()` of clang on a builtin type: the kinds `Bool` to
`UInt128`. -/
def isUnsignedIntegerType (t : BuiltinType) : Bool :=
  match t.getKind with
  | .Bool | .Char_U | .UChar | .WChar_U | .Char16 | .Char32
  | .UShort | .UInt | .ULong | .ULongLong | .UInt128 => true
  | _ => false

/-- The test `isFloatingType()` of clang on a builtin type: the kinds `Half` to
`LongDouble`. -/
def isFloatingType (t : BuiltinType) : Bool :=
  match t.getKind with
  | .Half | .Float | .Double | .LongDouble => true
  | _ => false

/-- The test `isIntegerType()` of clang on a builtin type: the kinds `Bool` to `Int128`. -/
def isIntegerType (t : BuiltinType) : Bool :=
  match t.getKind with
  | .Bool | .Char_U | .UChar | .WChar_U | .Char16 | .Char32
  | .UShort | .UInt | .ULong | .ULongLong | .UInt128
  | .Char_S | .SChar | .WChar_S | .Short | .Int | .Long | .LongLong | .Int128 => true
  | _ => false

end BuiltinType

/-- A complex type node of clang (`clang::ComplexType *`), identified by `node`. -/
structure ComplexType where
  node : Nat
  deriving DecidableEq, Repr

/-- Modelled from the spec: the type information of a buffer (`mpi::TypeVisitor`, declared
in a header that is not part of the sources), with the members that `MPICheckerImpl.cpp`
reads: the builtin type the buffer type resolves to (`builtinType_`, null when there is
none; for a complex type the functions read the kind of its element from it), the complex
type (`complexType_`, null when the type is not complex), whether the type is a typedef
(`isTypedefType_`) and the spelling of the typedef (`typedefTypeName_`). -/
structure TypeVisitor where
  builtinType_ : Option BuiltinType := none
  complexType_ : Option ComplexType := none
  isTypedefType_ : Bool := false
  typedefTypeName_ : String := ""
  deriving DecidableEq, Repr

/-- Embedding of `MPICheckerImpl::matchBoolType` (MPICheckerImpl.cpp:207-210). -/
def matchBoolType (_visitor : TypeVisitor) (mpiDatatype : String) : Bool :=
  mpiDatatype == "MPI_C_BOOL"

/-- Embedding of `MPICheckerImpl::matchCharType` (MPICheckerImpl.cpp:212-242). `none` when
`builtinType_` is null. -/
def matchCharType (visitor : TypeVisitor) (mpiDatatype : String) : Option Bool :=
  match visitor.builtinType_ with
  | none => none
  | some builtinType_ =>
    some
      (match builtinType_.getKind with
      | .SChar => mpiDatatype == "MPI_CHAR" || mpiDatatype == "MPI_SIGNED_CHAR"
      | .Char_S => mpiDatatype == "MPI_CHAR" || mpiDatatype == "MPI_SIGNED_CHAR"
      | .UChar => mpiDatatype == "MPI_UNSIGNED_CHAR"
      | .Char_U => mpiDatatype == "MPI_UNSIGNED_CHAR"
      | .WChar_S => mpiDatatype == "MPI_WCHAR"
      | .WChar_U => mpiDatatype == "MPI_WCHAR"
      | _ => true)

/-- Embedding of `MPICheckerImpl::matchSignedType` (MPICheckerImpl.cpp:244-267). `none`
when `builtinType_` is null. -/
def matchSignedType (visitor : TypeVisitor) (mpiDatatype : String) : Option Bool :=
  match visitor.builtinType_ with
  | none => none
  | some builtinType_ =>
    some
      (match builtinType_.getKind with
      | .Int => mpiDatatype == "MPI_INT"
      | .Long => mpiDatatype == "MPI_LONG"
      | .Short => mpiDatatype == "MPI_SHORT"
      | .LongLong => mpiDatatype == "MPI_LONG_LONG" || mpiDatatype == "MPI_LONG_LONG_INT"
      | _ => true)

/-- Embedding of `MPICheckerImpl::matchUnsignedType` (MPICheckerImpl.cpp:269-291). `none`
when `builtinType_` is null. -/
def matchUnsignedType (visitor : TypeVisitor) (mpiDatatype : String) : Option Bool :=
  match visitor.builtinType_ with
  | none => none
  | some builtinType_ =>
    some
      (match builtinType_.getKind with
      | .UInt => mpiDatatype == "MPI_UNSIGNED"
      | .UShort => mpiDatatype == "MPI_UNSIGNED_SHORT"
      | .ULong => mpiDatatype == "MPI_UNSIGNED_LONG"
      | .ULongLong => mpiDatatype == "MPI_UNSIGNED_LONG_LONG"
      | _ => true)

/-- Embedding of `MPICheckerImpl::matchFloatType` (MPICheckerImpl.cpp:293-311). `none` when
`builtinType_` is null. -/
def matchFloatType (visitor : TypeVisitor) (mpiDatatype : String) : Option Bool :=
  match visitor.builtinType_ with
  | none => none
  | some builtinType_ =>
    some
      (match builtinType_.getKind with
      | .Float => mpiDatatype == "MPI_FLOAT"
      | .Double => mpiDatatype == "MPI_DOUBLE"
      | .LongDouble => mpiDatatype == "MPI_LONG_DOUBLE"
      | _ => true)

/-- Embedding of `MPICheckerImpl::matchComplexType` (MPICheckerImpl.cpp:313-333). `none`
when `builtinType_` is null. -/
def matchComplexType (visitor : TypeVisitor) (mpiDatatype : String) : Option Bool :=
  match visitor.builtinType_ with
  | none => none
  | some builtinType_ =>
    some
      (match builtinType_.getKind with
      | .Float => mpiDatatype == "MPI_C_COMPLEX" || mpiDatatype == "MPI_C_FLOAT_COMPLEX"
      | .Double => mpiDatatype == "MPI_C_DOUBLE_COMPLEX"
      | .LongDouble => mpiDatatype == "MPI_C_LONG_DOUBLE_COMPLEX"
      | _ => true)

/-- Embedding of `MPICheckerImpl::matchExactWidthType` (MPICheckerImpl.cpp:335-353): the
`llvm::StringSwitch` takes the value of the first case whose string equals the typedef
name, and the default when there is none. -/
def matchExactWidthType (visitor : TypeVisitor) (mpiDatatype : String) : Bool :=
  if visitor.typedefTypeName_ == "int8_t" then mpiDatatype == "MPI_INT8_T"
  else if visitor.typedefTypeName_ == "int16_t" then mpiDatatype == "MPI_INT16_T"
  else if visitor.typedefTypeName_ == "int32_t" then mpiDatatype == "MPI_INT32_T"
  else if visitor.typedefTypeName_ == "int64_t" then mpiDatatype == "MPI_INT64_T"
  else if visitor.typedefTypeName_ == "uint8_t" then mpiDatatype == "MPI_UINT8_T"
  else if visitor.typedefTypeName_ == "uint16_t" then mpiDatatype == "MPI_UINT16_T"
  else if visitor.typedefTypeName_ == "uint32_t" then mpiDatatype == "MPI_UINT32_T"
  else if visitor.typedefTypeName_ == "uint64_t" then mpiDatatype == "MPI_UINT64_T"
  -- unknown typedefs are rated as correct
  else true

/-- The end of `selectTypeMatcher` (MPICheckerImpl.cpp:203-204): the mismatch is reported
when `isTypeMatching` is false. -/
def selectTypeMatcher.report (mpiCall : MPICall) (idxPair : Nat × Nat)
    (reports : List Diagnostic) (isTypeMatching : Bool) : List Diagnostic :=
  if !isTypeMatching then reports ++ [Diagnostic.typeMismatch mpiCall.callExpr_ idxPair]
  else reports

/-- Embedding of `MPICheckerImpl::selectTypeMatcher` (MPICheckerImpl.cpp:173-205): the
diagnostics after the call, given the diagnostics emitted before it. `none` when a
matcher reads the kind of a null `builtinType_`. -/
def selectTypeMatcher (typeVisitor : TypeVisitor) (mpiCall : MPICall)
    (mpiDatatypeString : String) (idxPair : Nat × Nat) (reports : List Diagnostic) :
    Option (List Diagnostic) :=
  -- check for exact width types (e.g. int16_t, uint32_t)
  if typeVisitor.isTypedefType_ then
    some (selectTypeMatcher.report mpiCall idxPair reports
      (matchExactWidthType typeVisitor mpiDatatypeString))
  -- check for complex-floating types (e.g. float _Complex)
  else if typeVisitor.complexType_.isSome then
    (matchComplexType typeVisitor mpiDatatypeString).map
      (selectTypeMatcher.report mpiCall idxPair reports)
  else
    -- check for basic builtin types (e.g. int, char)
    match typeVisitor.builtinType_ with
    | none => some reports  -- if no builtin type cancel checking
    | some builtinTypeBuffer =>
      if builtinTypeBuffer.isBooleanType then
        some (selectTypeMatcher.report mpiCall idxPair reports
          (matchBoolType typeVisitor mpiDatatypeString))
      else if builtinTypeBuffer.isAnyCharacterType then
        (matchCharType typeVisitor mpiDatatypeString).map
          (selectTypeMatcher.report mpiCall idxPair reports)
      else if builtinTypeBuffer.isSignedInteger then
        (matchSignedType typeVisitor mpiDatatypeString).map
          (selectTypeMatcher.report mpiCall idxPair reports)
      else if builtinTypeBuffer.isUnsignedIntegerType then
        (matchUnsignedType typeVisitor mpiDatatypeString).map
          (selectTypeMatcher.report mpiCall idxPair reports)
      else if builtinTypeBuffer.isFloatingType then
        (matchFloatType typeVisitor mpiDatatypeString).map
          (selectTypeMatcher.report mpiCall idxPair reports)
      else some (selectTypeMatcher.report mpiCall idxPair reports true)

/-- Modelled from the spec: the positional constant `MPIPointToPoint::kBuf`. -/
def MPIPointToPoint.kBuf : Nat := 0

namespace checkBufferTypeMatch

/-- The index pairs chosen at the head of `checkBufferTypeMatch` (MPICheckerImpl.cpp:121-144);
one pair consists of (`bufferIdx`, `mpiDatatypeIdx`). The expression
`mpiCall.callExpr_->getArg(0)` is the expression of the first argument fingerprint; the
result is `none` when a reduce call has no argument. -/
def indexPairs (c : MPIFunctionClassifier) (mpiCall : MPICall) : Option (List (Nat × Nat)) :=
  if c.isPointToPointType mpiCall.identInfo_ then
    some [(MPIPointToPoint.kBuf, MPIPointToPoint.kDatatype)]
  else if c.isCollectiveType mpiCall.identInfo_ then
    if c.isReduceType mpiCall.identInfo_ then
      match mpiCall.arguments_[0]? with
      | none => none
      | some arg =>
        -- only check buffer type if not inplace
        if util.sourceRangeAsStringRef arg.expr_ != "MPI_IN_PLACE" then some [(0, 3), (1, 3)]
        else some [(1, 3)]
    else if c.isScatterType mpiCall.identInfo_ ||
        c.isGatherType mpiCall.identInfo_ ||
        c.isAlltoallType mpiCall.identInfo_ then
      some [(0, 2), (3, 5)]
    else if c.isBcastType mpiCall.identInfo_ then
      some [(0, 2)]
    else some []
  else some []

/-- The body of the loop over the index pairs (MPICheckerImpl.cpp:148-161). `getType` gives,
for a variable declaration, the type information `mpi::TypeVisitor{bufferArg->getType()}`.
The result is `none` when the call has no argument at one of the two indices or the buffer
argument references no variable (`vars_.front()` on an empty vector). -/
def visitPair (getType : VarDecl → TypeVisitor) (mpiCall : MPICall)
    (reports : List Diagnostic) (idxPair : Nat × Nat) : Option (List Diagnostic) :=
  match mpiCall.arguments_[idxPair.1]? with
  | none => none
  | some bufferArgument =>
    match bufferArgument.vars_.head? with
    | none => none
    | some bufferArg =>
      -- collect buffer type information
      let typeVisitor := getType bufferArg
      -- get mpi datatype as string
      match mpiCall.arguments_[idxPair.2]? with
      | none => none
      | some mpiDatatype =>
        let mpiDatatypeString := util.sourceRangeAsStringRef mpiDatatype.expr_
        selectTypeMatcher typeVisitor mpiCall mpiDatatypeString idxPair reports

end checkBufferTypeMatch

/-- Embedding of `MPICheckerImpl::checkBufferTypeMatch` (MPICheckerImpl.cpp:120-162): the
diagnostics after the call, given the diagnostics emitted before it. -/
def checkBufferTypeMatch (c : MPIFunctionClassifier) (getType : VarDecl → TypeVisitor)
    (mpiCall : MPICall) (reports : List Diagnostic) : Option (List Diagnostic) :=
  match checkBufferTypeMatch.indexPairs c mpiCall with
  | none => none
  | some indexPairs =>
    -- for every buffer mpi-data pair in function check if their types match
    indexPairs.foldlM (checkBufferTypeMatch.visitPair getType mpiCall) reports

/-- The matching table of the specification for a buffer that is not a typedef: the
accepted datatype spellings for the element kinds it lists, `none` for a kind it does not
list. `complex` tells whether the element is a complex type, whose kind is then the kind
of its real part. -/
def Spec.acceptedSpellings (complex : Bool) (kind : BuiltinType.Kind) : Option (List String) :=
  match complex, kind with
  | false, .Bool => some ["MPI_C_BOOL"]
  | false, .Int => some ["MPI_INT"]
  | false, .Short => some ["MPI_SHORT"]
  | false, .Long => some ["MPI_LONG"]
  | false, .LongLong => some ["MPI_LONG_LONG", "MPI_LONG_LONG_INT"]
  | false, .UInt => some ["MPI_UNSIGNED"]
  | false, .UShort => some ["MPI_UNSIGNED_SHORT"]
  | false, .ULong => some ["MPI_UNSIGNED_LONG"]
  | false, .ULongLong => some ["MPI_UNSIGNED_LONG_LONG"]
  | false, .Float => some ["MPI_FLOAT"]
  | false, .Double => some ["MPI_DOUBLE"]
  | false, .LongDouble => some ["MPI_LONG_DOUBLE"]
  | true, .Float => some ["MPI_C_COMPLEX", "MPI_C_FLOAT_COMPLEX"]
  | true, .Double => some ["MPI_C_DOUBLE_COMPLEX"]
  | true, .LongDouble => some ["MPI_C_LONG_DOUBLE_COMPLEX"]
  | _, _ => none

/-- The spellings that `matchCharType` accepts for the character kinds it lists. -/
def matchCharType.accepted (kind : BuiltinType.Kind) : Option (List String) :=
  match kind with
  | .SChar => some ["MPI_CHAR", "MPI_SIGNED_CHAR"]
  | .Char_S => some ["MPI_CHAR", "MPI_SIGNED_CHAR"]
  | .UChar => some ["MPI_UNSIGNED_CHAR"]
  | .Char_U => some ["MPI_UNSIGNED_CHAR"]
  | .WChar_S => some ["MPI_WCHAR"]
  | .WChar_U => some ["MPI_WCHAR"]
  | _ => none

/-- The datatype spelling the specification pairs with an exact-width typedef name,
`none` for every other typedef name. -/
def Spec.exactWidthSpelling (typedefTypeName : String) : Option String :=
  if typedefTypeName = "int8_t" then some "MPI_INT8_T"
  else if typedefTypeName = "int16_t" then some "MPI_INT16_T"
  else if typedefTypeName = "int32_t" then some "MPI_INT32_T"
  else if typedefTypeName = "int64_t" then some "MPI_INT64_T"
  else if typedefTypeName = "uint8_t" then some "MPI_UINT8_T"
  else if typedefTypeName = "uint16_t" then some "MPI_UINT16_T"
  else if typedefTypeName = "uint32_t" then some "MPI_UINT32_T"
  else if typedefTypeName = "uint64_t" then some "MPI_UINT64_T"
  else none

/-! ## Invalid argument types (`src/_MPI_Checker/MPICheckerImpl.cpp`) -/

namespace checkForInvalidArgs

/-- The test `!typeVisitor.builtinType_ || !typeVisitor.builtinType_->isIntegerType()`
(MPICheckerImpl.cpp:375-376, 394-395). -/
def isInvalid (typeVisitor : TypeVisitor) : Bool :=
  match typeVisitor.builtinType_ with
  | none => true
  | some builtinType_ => !builtinType_.isIntegerType

/-- The loop over the variables of the argument (MPICheckerImpl.cpp:373-381). -/
def visitVar (getType : VarDecl → TypeVisitor) (mpiCall : MPICall) (idx : Nat)
    (reports : List Diagnostic) (var : VarDecl) : List Diagnostic :=
  if isInvalid (getType var) then
    reports ++ [Diagnostic.invalidArgumentType mpiCall.callExpr_ idx
      (SourceRange.ofVarDecl var) "Variable"]
  else reports

/-- The loop over the functions of the argument (MPICheckerImpl.cpp:392-400). -/
def visitFunction (getReturnType : FunctionDecl → TypeVisitor) (mpiCall : MPICall) (idx : Nat)
    (reports : List Diagnostic) (function : FunctionDecl) : List Diagnostic :=
  if isInvalid (getReturnType function) then
    reports ++ [Diagnostic.invalidArgumentType mpiCall.callExpr_ idx
      (SourceRange.ofFunctionDecl function) "Return value from function"]
  else reports

/-- The body of the loop over the indices (MPICheckerImpl.cpp:369-401). `getType` and
`getReturnType` give the type information `mpi::TypeVisitor{var->getType()}` of a variable
and `mpi::TypeVisitor{function->getReturnType()}` of a function. `none` when the call has
no argument `idx`. -/
def visitIndex (getType : VarDecl → TypeVisitor) (getReturnType : FunctionDecl → TypeVisitor)
    (mpiCall : MPICall) (reports : List Diagnostic) (idx : Nat) : Option (List Diagnostic) :=
  match mpiCall.arguments_[idx]? with
  | none => none
  | some arg =>
    -- check for invalid variable types
    let reports := arg.vars_.foldl (visitVar getType mpiCall idx) reports
    -- check for float literals
    let reports :=
      match arg.floatingLiterals_.head? with
      | some front =>
        reports ++ [Diagnostic.invalidArgumentType mpiCall.callExpr_ idx
          (SourceRange.ofFloatingLiteral front) "Literal"]
      | none => reports
    -- check for invalid return types from functions
    some (arg.functions_.foldl (visitFunction getReturnType mpiCall idx) reports)

end checkForInvalidArgs

/-- The diagnostics for the argument `arg` at index `idx` of a call: one "Variable"
diagnostic per referenced variable of invalid type, one "Literal" diagnostic, for the
first floating literal, if the argument has a floating literal, and one "Return value from
function" diagnostic per referenced function of invalid return type, in this order. -/
def Spec.diagnosticsAt (getType : VarDecl → TypeVisitor) (getReturnType : FunctionDecl → TypeVisitor)
    (mpiCall : MPICall) (idx : Nat) (arg : SingleArgVisitor) : List Diagnostic :=
  (arg.vars_.filter (fun var => checkForInvalidArgs.isInvalid (getType var))).map
      (fun var => Diagnostic.invalidArgumentType mpiCall.callExpr_ idx
        (SourceRange.ofVarDecl var) "Variable") ++
    (arg.floatingLiterals_.head?.toList.map
      (fun front => Diagnostic.invalidArgumentType mpiCall.callExpr_ idx
        (SourceRange.ofFloatingLiteral front) "Literal")) ++
    (arg.functions_.filter
      (fun function => checkForInvalidArgs.isInvalid (getReturnType function))).map
      (fun function => Diagnostic.invalidArgumentType mpiCall.callExpr_ idx
        (SourceRange.ofFunctionDecl function) "Return value from function")

/-- Embedding of `MPICheckerImpl::checkForInvalidArgs` (MPICheckerImpl.cpp:362-403): the
diagnostics after the call, given the diagnostics emitted before it. -/
def checkForInvalidArgs (c : MPIFunctionClassifier) (getType : VarDecl → TypeVisitor)
    (getReturnType : FunctionDecl → TypeVisitor) (mpiCall : MPICall)
    (reports : List Diagnostic) : Option (List Diagnostic) :=
  if c.isPointToPointType mpiCall.identInfo_ then
    -- iterate indices which should not have float arguments
    [MPIPointToPoint.kCount, MPIPointToPoint.kRank, MPIPointToPoint.kTag].foldlM
      (checkForInvalidArgs.visitIndex getType getReturnType mpiCall) reports
  else some reports

/-! ## Rank cases (`src/src/TranslationUnitVisitor.cpp`) -/

/-- Modelled from the spec: the traversal of a condition expression (`ConditionVisitor`,
declared in a header that is not part of the sources): the condition expression and the
variables it references, `vars()`. A condition of an if statement is given by the
`ConditionVisitor` built from it. -/
structure ConditionVisitor where
  expr_ : Expr
  vars_ : List VarDecl := []
  deriving DecidableEq, Repr

/-- A statement pointer (`Stmt *`): the null pointer, an if statement (`IfStmt`) with its
condition `getCond()`, its then-statement `getThen()` and its else-statement `getElse()`
(null when there is no else), or another statement. Statements are identified by `node`. -/
inductive Stmt where
  | null
  | IfStmt (node : Nat) (getCond : ConditionVisitor) (getThen getElse : Stmt)
  | other (node : Nat)
  deriving DecidableEq, Repr

/-- Modelled from the spec: a rank case (`MPIRankCase`, declared in a header that is not
part of the sources), one arm of a rank-dependent chain, as its constructor receives it:
the MPI calls lexically inside the statement of the arm, the condition of the arm (null
for the final else) and the conditions of the earlier arms of the chain. -/
structure MPIRankCase where
  mpiCalls_ : List MPICall := []
  matchedCondition_ : Option ConditionVisitor := none
  unmatchedConditions_ : List ConditionVisitor := []
  deriving DecidableEq, Repr

/-- Modelled from the spec: `MPICheckerAST::checkForCollectiveCalls` (not part of the
sources): every call inside the rank case is handed to `checkForCollectiveCall`. -/
def checkForCollectiveCalls (c : MPIFunctionClassifier) (reports : List Diagnostic)
    (rankCase : MPIRankCase) : List Diagnostic :=
  rankCase.mpiCalls_.foldl (checkForCollectiveCall c) reports

/-- The state that the callbacks of `TranslationUnitVisitor` touch: the if statements
already expanded (`visitedIfStmts_`, TranslationUnitVisitor.hpp:66), the rank cases
(`MPIRankCase::visitedRankCases`) and the diagnostics emitted so far. -/
structure TranslationUnitVisitor where
  visitedIfStmts_ : List Stmt := []
  visitedRankCases : List MPIRankCase := []
  reports : List Diagnostic := []
  deriving DecidableEq, Repr

namespace TranslationUnitVisitor

/-- Embedding of `TranslationUnitVisitor::isRankBranch` (TranslationUnitVisitor.cpp:114-124)
on the condition of the if statement; `visitedRankVariables` is the rank-variable set
`MPIRank::visitedRankVariables` (MPITypes.cpp:11). -/
def isRankBranch (visitedRankVariables : List VarDecl) (getCond : ConditionVisitor) : Bool :=
  getCond.vars_.any (fun varDecl => cont.isContained visitedRankVariables varDecl)

/-- The loop `while (IfStmt *ifStmt = dyn_cast_or_null<IfStmt>(stmt))` of `VisitIfStmt`
(TranslationUnitVisitor.cpp:63-74): the values of `stmt` and `unmatchedConditions` and the
state when the loop ends. `mpiCallsIn` gives the MPI calls lexically inside a statement,
which the constructor of `MPIRankCase` collects. -/
def VisitIfStmt.loop (c : MPIFunctionClassifier) (mpiCallsIn : Stmt → List MPICall) :
    Stmt → List ConditionVisitor → TranslationUnitVisitor →
      Stmt × List ConditionVisitor × TranslationUnitVisitor
  | .IfStmt node getCond getThen getElse, unmatchedConditions, self =>
    let rankCase : MPIRankCase :=
      { mpiCalls_ := mpiCallsIn getThen, matchedCondition_ := some getCond,
        unmatchedConditions_ := unmatchedConditions }
    VisitIfStmt.loop c mpiCallsIn getElse (unmatchedConditions ++ [getCond])
      { visitedIfStmts_ := self.visitedIfStmts_ ++ [.IfStmt node getCond getThen getElse]
        visitedRankCases := self.visitedRankCases ++ [rankCase]
        reports := checkForCollectiveCalls c self.reports rankCase }
  | stmt, unmatchedConditions, self => (stmt, unmatchedConditions, self)

/-- Embedding of `TranslationUnitVisitor::VisitIfStmt` (TranslationUnitVisitor.cpp:57-85) as
a transformer of the visitor state; the callback always returns `true` (continue
visiting). It is invoked on if statements only; on another statement the state is left
as it is. -/
def VisitIfStmt (c : MPIFunctionClassifier) (visitedRankVariables : List VarDecl)
    (mpiCallsIn : Stmt → List MPICall) (ifStmt : Stmt) (self : TranslationUnitVisitor) :
    TranslationUnitVisitor :=
  match ifStmt with
  | .IfStmt _ getCond _ _ =>
    if !isRankBranch visitedRankVariables getCond then self  -- only inspect rank branches
    else if cont.isContained self.visitedIfStmts_ ifStmt then self
    else
      -- collect mpi calls in if / else if
      match VisitIfStmt.loop c mpiCallsIn ifStmt [] self with
      | (.null, _, self) => self
      -- collect mpi calls in else
      | (stmt, unmatchedConditions, self) =>
        let rankCase : MPIRankCase :=
          { mpiCalls_ := mpiCallsIn stmt, matchedCondition_ := none,
            unmatchedConditions_ := unmatchedConditions }
        { self with
          visitedRankCases := self.visitedRankCases ++ [rankCase]
          reports := checkForCollectiveCalls c self.reports rankCase }
  | _ => self

end TranslationUnitVisitor

/-- An arm of an if / else-if chain: the node of its if statement, its condition and its
then-statement. -/
structure IfArm where
  node : Nat
  getCond : ConditionVisitor
  getThen : Stmt
  deriving DecidableEq, Repr

/-- The if statement at the head of the chain with the arms `arms`, in source order, that
ends in the statement `last` (the final else, or null when there is none); with no arm it
is `last` itself. -/
def ifChain (arms : List IfArm) (last : Stmt) : Stmt :=
  match arms with
  | [] => last
  | arm :: rest => Stmt.IfStmt arm.node arm.getCond arm.getThen (ifChain rest last)

/-- The rank cases of the arms `arms` of a chain, given the conditions `unmatched` of the
arms before them: the i-th has the condition of the i-th arm as its own and the conditions
of the arms before it as unmatched conditions. -/
def armCases (mpiCallsIn : Stmt → List MPICall) (unmatched : List ConditionVisitor) :
    List IfArm → List MPIRankCase
  | [] => []
  | arm :: rest =>
    { mpiCalls_ := mpiCallsIn arm.getThen, matchedCondition_ := some arm.getCond,
      unmatchedConditions_ := unmatched } ::
      armCases mpiCallsIn (unmatched ++ [arm.getCond]) rest

/-- The rank case of the final else `last` of a chain with the arms `arms`: none when
there is no else. -/
def elseCase (mpiCallsIn : Stmt → List MPICall) (arms : List IfArm) (last : Stmt) :
    List MPIRankCase :=
  match last with
  | .null => []
  | stmt =>
    [{ mpiCalls_ := mpiCallsIn stmt, matchedCondition_ := none,
       unmatchedConditions_ := arms.map (·.getCond) }]

/-- Whether a statement is an if statement. -/
def Stmt.isIfStmt : Stmt → Bool
  | .IfStmt _ _ _ _ => true
  | _ => false

/-! ## Sample calls of the per-call checks -/

/-- The buffer variable `buf` of the declaration `double buf`. -/
def sampleDoubleBuffer : VarDecl := { decl := 80, name := "buf" }

/-- The buffer variable `text` of the declaration `char text[8]`. -/
def sampleCharBuffer : VarDecl := { decl := 81, name := "text" }

/-- The buffer variable `words` of the declaration `int32_t words[4]`. -/
def sampleWordBuffer : VarDecl := { decl := 82, name := "words" }

/-- The variable `ratio` of the declaration `double ratio`. -/
def sampleFloatingVariable : VarDecl := { decl := 83, name := "ratio" }

/-- The function `scale` of the declaration `double scale(void)`. -/
def sampleFloatingFunction : FunctionDecl := { decl := 84, name := "scale" }

/-- The type information of the sample variables: `buf` and `ratio` are `double`, `text`
is plain `char` on a target whose `char` is unsigned (`unsignedChar`) or signed, `words` is
the typedef `int32_t` of `int`, every other variable is `int`. -/
def sampleGetType (unsignedChar : Bool) (var : VarDecl) : TypeVisitor :=
  if var = sampleDoubleBuffer ∨ var = sampleFloatingVariable then
    { builtinType_ := some { getKind := .Double } }
  else if var = sampleCharBuffer then
    { builtinType_ := some { getKind := if unsignedChar then .Char_U else .Char_S } }
  else if var = sampleWordBuffer then
    { builtinType_ := some { getKind := .Int }, isTypedefType_ := true,
      typedefTypeName_ := "int32_t" }
  else { builtinType_ := some { getKind := .Int } }

/-- The type information of the return types of the sample functions: `scale` returns
`double`, every other function returns `int`. -/
def sampleGetReturnType (function : FunctionDecl) : TypeVisitor :=
  if function = sampleFloatingFunction then { builtinType_ := some { getKind := .Double } }
  else { builtinType_ := some { getKind := .Int } }

/-- The call `MPI_Send(<buffer>, 1, <datatype>, 0, <tag>, MPI_COMM_WORLD)`. -/
def sampleCheckedSend (node : Nat) (buffer : SingleArgVisitor) (datatype : String)
    (tag : SingleArgVisitor) : MPICall :=
  { callExpr_ := { node := node }, identInfo_ := Idents.get "MPI_Send",
    arguments_ :=
      [buffer,
       { expr_ := { sourceText := "1" }, integerLiterals_ := [{ node := 10 * node + 1 }], intValues_ := [1] },
       { expr_ := { sourceText := datatype }, vars_ := [{ decl := 3, name := datatype }] },
       { expr_ := { sourceText := "0" }, integerLiterals_ := [{ node := 10 * node + 3 }], intValues_ := [0] },
       tag,
       { expr_ := { sourceText := "MPI_COMM_WORLD" },
         vars_ := [{ decl := 4, name := "MPI_COMM_WORLD" }] }],
    id_ := node }

/-- The fingerprint of the tag `0`. -/
def sampleZeroTag : SingleArgVisitor :=
  { expr_ := { sourceText := "0" }, integerLiterals_ := [{ node := 699 }], intValues_ := [0] }

/-- The call `MPI_Send(&buf, 1, MPI_INT, 0, 0, MPI_COMM_WORLD)` with `double buf`. -/
def sampleMismatchSend : MPICall :=
  sampleCheckedSend 600 { expr_ := { sourceText := "&buf" }, vars_ := [sampleDoubleBuffer] }
    "MPI_INT" sampleZeroTag

/-- The call `MPI_Send(text, 1, MPI_CHAR, 0, 0, MPI_COMM_WORLD)` with `char text[8]`. -/
def sampleCharSend : MPICall :=
  sampleCheckedSend 601 { expr_ := { sourceText := "text" }, vars_ := [sampleCharBuffer] }
    "MPI_CHAR" sampleZeroTag

/-- The call `MPI_Send(words, 1, MPI_INT, 0, 0, MPI_COMM_WORLD)` with `int32_t words[4]`. -/
def sampleWordSend : MPICall :=
  sampleCheckedSend 602 { expr_ := { sourceText := "words" }, vars_ := [sampleWordBuffer] }
    "MPI_INT" sampleZeroTag

/-- The call `MPI_Send("hello", 1, MPI_CHAR, 0, 0, MPI_COMM_WORLD)`, whose buffer argument
is a string literal and references no variable. -/
def sampleLiteralSend : MPICall :=
  sampleCheckedSend 603 { expr_ := { sourceText := "\"hello\"" } } "MPI_CHAR" sampleZeroTag

/-- The call `MPI_Send(a, 1, MPI_INT, 0, 3.14, MPI_COMM_WORLD)` with `int a[4]`; the
floating literal of the tag is the node 700. -/
def sampleFloatTagSend : MPICall :=
  sampleCheckedSend 604 { expr_ := { sourceText := "a" }, vars_ := [{ decl := 1, name := "a" }] }
    "MPI_INT"
    { expr_ := { sourceText := "3.14" }, floatValues_ := [{ bits := 0x40091EB851EB851F }],
      floatingLiterals_ := [{ node := 700 }] }

/-- The call `MPI_Send(a, 1, MPI_INT, 0, 1.5 + 2.5, MPI_COMM_WORLD)`; the floating literals
of the tag are the nodes 701 and 702. -/
def sampleTwoFloatTagSend : MPICall :=
  sampleCheckedSend 605 { expr_ := { sourceText := "a" }, vars_ := [{ decl := 1, name := "a" }] }
    "MPI_INT"
    { expr_ := { sourceText := "1.5 + 2.5" }, binaryOperators_ := [.BO_Add],
      floatValues_ := [{ bits := 0x3FF8000000000000 }, { bits := 0x4004000000000000 }],
      floatingLiterals_ := [{ node := 701 }, { node := 702 }] }

/-- The call `MPI_Send(a, 1, MPI_INT, 0, ratio * scale() + n, MPI_COMM_WORLD)` with
`double ratio`, `double scale(void)` and `int n`. -/
def sampleMixedTagSend : MPICall :=
  sampleCheckedSend 606 { expr_ := { sourceText := "a" }, vars_ := [{ decl := 1, name := "a" }] }
    "MPI_INT"
    { expr_ := { sourceText := "ratio * scale() + n" }, binaryOperators_ := [.BO_Add, .BO_Mul],
      vars_ := [sampleFloatingVariable, { decl := 2, name := "n" }],
      functions_ := [sampleFloatingFunction] }

/-- The call `MPI_Bcast(a, 1, MPI_INT, 0, MPI_COMM_WORLD)`. -/
def sampleBcast : MPICall :=
  { callExpr_ := { node := 610 }, identInfo_ := Idents.get "MPI_Bcast",
    arguments_ := sampleTypedBcastArguments 0 "MPI_INT", id_ := 610 }

/-- The call `MPI_Reduce(<sendbuf>, total, 1, MPI_DOUBLE, MPI_SUM, 0, MPI_COMM_WORLD)`. -/
def sampleReduce (sendbuf : SingleArgVisitor) : MPICall :=
  { callExpr_ := { node := 611 }, identInfo_ := Idents.get "MPI_Reduce",
    arguments_ :=
      [sendbuf,
       { expr_ := { sourceText := "total" }, vars_ := [{ decl := 85, name := "total" }] },
       { expr_ := { sourceText := "1" }, integerLiterals_ := [{ node := 6112 }], intValues_ := [1] },
       { expr_ := { sourceText := "MPI_DOUBLE" }, vars_ := [{ decl := 86, name := "MPI_DOUBLE" }] },
       { expr_ := { sourceText := "MPI_SUM" }, vars_ := [{ decl := 87, name := "MPI_SUM" }] },
       { expr_ := { sourceText := "0" }, integerLiterals_ := [{ node := 6115 }], intValues_ := [0] },
       { expr_ := { sourceText := "MPI_COMM_WORLD" },
         vars_ := [{ decl := 4, name := "MPI_COMM_WORLD" }] }],
    id_ := 611 }

/-- The call `MPI_Reduce(MPI_IN_PLACE, total, 1, MPI_DOUBLE, MPI_SUM, 0, MPI_COMM_WORLD)`. -/
def sampleReduceInPlace : MPICall :=
  sampleReduce { expr_ := { sourceText := "MPI_IN_PLACE" } }

/-- The call `MPI_Reduce(&part, total, 1, MPI_DOUBLE, MPI_SUM, 0, MPI_COMM_WORLD)`. -/
def sampleReducePart : MPICall :=
  sampleReduce { expr_ := { sourceText := "&part" }, vars_ := [{ decl := 88, name := "part" }] }

/-- The rank variable `r` of `MPI_Comm_rank(MPI_COMM_WORLD, &r)`. -/
def sampleRankVariable : VarDecl := { decl := 90, name := "r" }

/-- The condition `r == <value>`. -/
def sampleRankCondition (text : String) : ConditionVisitor :=
  { expr_ := { sourceText := text }, vars_ := [sampleRankVariable] }

/-- The arms of the chain `if (r == 0) S1 else if (r == 1) S2`, whose then-statements are
the nodes 801 and 803. -/
def sampleArms : List IfArm :=
  [{ node := 800, getCond := sampleRankCondition "r == 0", getThen := Stmt.other 801 },
   { node := 802, getCond := sampleRankCondition "r == 1", getThen := Stmt.other 803 }]

/-- The MPI calls inside the sample statements: the statement 801 holds the sample
`MPI_Bcast`, the other statements hold no MPI call. -/
def sampleMpiCallsIn (stmt : Stmt) : List MPICall :=
  if stmt = Stmt.other 801 then [sampleBcast] else []

/-! ## Call ids (`src/_MPI_Checker/MPISchemaChecker.cpp`, `src/_MPI_Checker/MPITypes.cpp`) -/

/-- Embedding of the creation of a call record (constructor of `MPICall`,
MPISchemaChecker.cpp:19-35): the member initialiser `unsigned long id_{id++}` gives the
record the value of the static counter `MPICall::id` (initially 0, MPITypes.cpp:6) and
increments the counter, which is an `unsigned long` of `w` bits. The result is the record
and the counter after the creation. -/
def MPICall.create (w : Nat) (id : Nat) (callExpr : CallExpr) (identInfo : IdentPtr)
    (arguments : List SingleArgVisitor) : MPICall × Nat :=
  ({ callExpr_ := callExpr, identInfo_ := identInfo, arguments_ := arguments, id_ := id },
    (id + 1) % 2 ^ w)

/-- The records created one after the other for the calls `calls` (call expression,
identifier, argument fingerprints), starting with the counter value `id`, and the counter
after the last creation. -/
def MPICall.createAll (w : Nat) :
    Nat → List (CallExpr × IdentPtr × List SingleArgVisitor) → List MPICall × Nat
  | id, [] => ([], id)
  | id, (callExpr, identInfo, arguments) :: rest =>
    let created := MPICall.create w id callExpr identInfo arguments
    let others := MPICall.createAll w created.2 rest
    (created.1 :: others.1, others.2)

/-! ## Legacy argument comparison (`src/_MPI_Checker/MPISchemaCheckerAST.cpp`,
`src/_MPI_Checker/MPISchemaChecker.cpp`) -/

namespace MPISchemaCheckerAST

/-- Embedding of the legacy class `SingleArgVisitor` (MPISchemaCheckerAST.cpp:17-65): the
argument expression, the extracted components (integer and floating literals by value)
and the two flags, which the visitor clears at a variable or function reference
(`isArgumentStatic_`) and at a binary operator (`isSimpleExpression_`). -/
structure SingleArgVisitor where
  expr_ : Expr := { sourceText := "" }
  binaryOperators_ : List BinaryOperatorKind := []
  vars_ : List VarDecl := []
  functions_ : List FunctionDecl := []
  integerLiterals_ : List Int := []
  floatingLiterals_ : List APFloat := []
  isArgumentStatic_ : Bool := true
  isSimpleExpression_ : Bool := true
  deriving DecidableEq, Repr

/-- Embedding of the legacy struct `MPICall` (MPISchemaCheckerAST.cpp:67-73). -/
structure MPICall where
  callExpr_ : CallExpr
  arguments_ : List SingleArgVisitor := []
  deriving DecidableEq, Repr

/-- Modelled from the spec: the helper `lx::cont::isContained(container, element)`
(`Container.hpp`, not part of the sources): a linear search with `==`. -/
def lx.cont.isContained {α : Type} [DecidableEq α] (container : List α) (element : α) : Bool :=
  container.contains element

/-- Modelled from the spec: the helper `lx::cont::erase(container, element)`
(`Container.hpp`, not part of the sources), the erasure of the erase-and-search
comparison: the matched element is erased from the copy once ("to omit double
matching"). -/
def lx.cont.erase {α : Type} [DecidableEq α] (container : List α) (element : α) : List α :=
  container.erase element

/-- One of the loops of the legacy `fullArgumentComparison` (MPISchemaCheckerAST.cpp:356-364,
368-375, 378-385, 395-402): every component of the second argument must be contained in
the copy `componentsOne` of the components of the first, and is erased from it. The loop
ends with `false` at the first component that is not found, and with `true` otherwise;
what is left in the copy is not looked at. -/
def fullArgumentComparison.search {α : Type} [DecidableEq α] :
    List α → List α → Bool
  | _, [] => true
  | componentsOne, componentFromTwo :: rest =>
    if !lx.cont.isContained componentsOne componentFromTwo then false
    else
      -- to omit double matching
      fullArgumentComparison.search (lx.cont.erase componentsOne componentFromTwo) rest

/-- Embedding of the legacy `MPI_ASTVisitor::fullArgumentComparison`
(MPISchemaCheckerAST.cpp:343-404). `none` when `idx` is not an argument index of both
calls. -/
def fullArgumentComparison (callOne callTwo : MPICall) (idx : Nat) : Option Bool :=
  match callOne.arguments_[idx]?, callTwo.arguments_[idx]? with
  | some argOne, some argTwo =>
    -- general attributes
    if argOne.isArgumentStatic_ != argTwo.isArgumentStatic_ ||
        argOne.isSimpleExpression_ != argTwo.isSimpleExpression_ then some false
    -- operators
    else if !fullArgumentComparison.search argOne.binaryOperators_ argTwo.binaryOperators_ then
      some false
    -- variables
    else if !fullArgumentComparison.search argOne.vars_ argTwo.vars_ then some false
    -- int literals
    else if !fullArgumentComparison.search argOne.integerLiterals_ argTwo.integerLiterals_ then
      some false
    -- float literals: just compare count
    else if argOne.floatingLiterals_.length != argTwo.floatingLiterals_.length then some false
    -- functions
    else if !fullArgumentComparison.search argOne.functions_ argTwo.functions_ then some false
    else some true
  | _, _ => none

end MPISchemaCheckerAST

/-- Embedding of `MPI_ASTVisitor::fullArgumentComparison` of the second legacy checker
(MPISchemaChecker.cpp:287-316), the comparison with `util::isPermutation`, on the legacy
argument fingerprints. `none` when `idx` is not an argument index of both calls. -/
def MPISchemaChecker.fullArgumentComparison (callOne callTwo : MPISchemaCheckerAST.MPICall)
    (idx : Nat) : Option Bool :=
  match callOne.arguments_[idx]?, callTwo.arguments_[idx]? with
  | some argOne, some argTwo =>
    -- operators
    if !util.isPermutation argOne.binaryOperators_ argTwo.binaryOperators_ then some false
    -- variables
    else if !util.isPermutation argOne.vars_ argTwo.vars_ then some false
    -- int literals
    else if !util.isPermutation argOne.integerLiterals_ argTwo.integerLiterals_ then some false
    -- float literals: just compare count
    else if argOne.floatingLiterals_.length != argTwo.floatingLiterals_.length then some false
    -- functions
    else if !util.isPermutation argOne.functions_ argTwo.functions_ then some false
    else some true
  | _, _ => none

/-! ## Description of the redundancy diagnostics -/

/-- The first of the calls `later` that `x` is judged redundant with. -/
def successor (c : MPIFunctionClassifier) (x : MPICall) (later : List MPICall) :
    Option MPICall :=
  later.find? (fun y => judgedRedundant c x y == some true)

/-- For every call of the list, in order, the diagnostic that pairs it with the first later
call it is judged redundant with, if there is one. -/
def successorReports (c : MPIFunctionClassifier) : List MPICall → List Diagnostic
  | [] => []
  | x :: later =>
    (match successor c x later with
      | some y => [redundancyReport c x y]
      | none => []) ++ successorReports c later

/-- The diagnostic of the call at position `p` of the list `cs`: it pairs the call with the
first call after position `p` that it is judged redundant with, if there is one. -/
def successorReportAt (c : MPIFunctionClassifier) (cs : List MPICall) (p : Nat) :
    List Diagnostic :=
  match cs[p]? with
  | some x =>
    (match successor c x (cs.drop (p + 1)) with
      | some y => [redundancyReport c x y]
      | none => [])
  | none => []

/-- The if statements of the chain with the arms `arms` that ends in `last`: the head of
the chain and the if statements of its else-if arms, in source order. -/
def chainStmts (arms : List IfArm) (last : Stmt) : List Stmt :=
  match arms with
  | [] => []
  | arm :: rest => ifChain (arm :: rest) last :: chainStmts rest last

/-! ## Sample calls of the global checks -/

/-- A third `MPI_Send(a, n, MPI_INT, 1, 0, MPI_COMM_WORLD)`, recorded after the sample
calls. -/
def sampleSendThree : MPICall :=
  { callExpr_ := { node := 103 }, identInfo_ := Idents.get "MPI_Send",
    arguments_ := sampleSendArguments, id_ := 3 }

/-- The recorded call list `MPI_Send; MPI_Send; MPI_Barrier; MPI_Send`. -/
def sampleGroupCalls : List MPICall :=
  [sampleSendOne, sampleSendTwo, sampleBarrier, sampleSendThree]

/-- A second `MPI_Barrier(MPI_COMM_WORLD)`. -/
def sampleBarrierTwo : MPICall :=
  { callExpr_ := { node := 104 }, identInfo_ := Idents.get "MPI_Barrier",
    arguments_ := [{ vars_ := [{ decl := 4, name := "MPI_COMM_WORLD" }] }], id_ := 4 }

/-- The call `MPI_Issend(b, n, MPI_INT, 1, 0, MPI_COMM_SELF, &other)`: the record of the
sample `MPI_Isend` with another send spelling, another buffer, another communicator and
another request. -/
def sampleIssendOther : MPICall :=
  { callExpr_ := { node := 400 }, identInfo_ := Idents.get "MPI_Issend",
    arguments_ :=
      [{ expr_ := { sourceText := "b" }, vars_ := [{ decl := 8, name := "b" }] },
       { expr_ := { sourceText := "n" }, vars_ := [{ decl := 2, name := "n" }] },
       { expr_ := { sourceText := "MPI_INT" }, vars_ := [{ decl := 3, name := "MPI_INT" }] },
       { expr_ := { sourceText := "1" }, integerLiterals_ := [{ node := 420 }], intValues_ := [1] },
       { expr_ := { sourceText := "0" }, integerLiterals_ := [{ node := 421 }], intValues_ := [0] },
       { expr_ := { sourceText := "MPI_COMM_SELF" },
         vars_ := [{ decl := 9, name := "MPI_COMM_SELF" }] },
       { expr_ := { sourceText := "&other" }, vars_ := [{ decl := 52, name := "other" }] }],
    id_ := 40 }

/-- The legacy fingerprint of the expression `x + y + 1`. -/
def sampleLegacySum : MPISchemaCheckerAST.SingleArgVisitor :=
  { expr_ := { sourceText := "x + y + 1" }, binaryOperators_ := [.BO_Add, .BO_Add],
    vars_ := [{ decl := 5, name := "x" }, { decl := 6, name := "y" }],
    integerLiterals_ := [1], isArgumentStatic_ := false, isSimpleExpression_ := false }

/-- The legacy fingerprint of the expression `x + y`. -/
def sampleLegacyPart : MPISchemaCheckerAST.SingleArgVisitor :=
  { expr_ := { sourceText := "x + y" }, binaryOperators_ := [.BO_Add],
    vars_ := [{ decl := 5, name := "x" }, { decl := 6, name := "y" }],
    isArgumentStatic_ := false, isSimpleExpression_ := false }

/-- A legacy call whose argument 0 is `x + y + 1`. -/
def sampleLegacyCallOne : MPISchemaCheckerAST.MPICall :=
  { callExpr_ := { node := 900 }, arguments_ := [sampleLegacySum] }

/-- A legacy call whose argument 0 is `x + y`. -/
def sampleLegacyCallTwo : MPISchemaCheckerAST.MPICall :=
  { callExpr_ := { node := 901 }, arguments_ := [sampleLegacyPart] }

/-- The call `MPI_Recv(b, n, elemType(), 0, 0, MPI_COMM_WORLD, &status)` at the call site
`node`: its datatype argument is a call of the function `elemType` and references no
variable. -/
def sampleRecvNoVariable (node : Nat) : MPICall :=
  { callExpr_ := { node := node }, identInfo_ := Idents.get "MPI_Recv",
    arguments_ :=
      [{ expr_ := { sourceText := "b" }, vars_ := [{ decl := 8, name := "b" }] },
       { expr_ := { sourceText := "n" }, vars_ := [{ decl := 2, name := "n" }] },
       { expr_ := { sourceText := "elemType()" },
         functions_ := [{ decl := 90, name := "elemType" }] },
       { expr_ := { sourceText := "0" }, integerLiterals_ := [{ node := 10 * node + 3 }],
         intValues_ := [0] },
       { expr_ := { sourceText := "0" }, integerLiterals_ := [{ node := 10 * node + 4 }],
         intValues_ := [0] },
       { expr_ := { sourceText := "MPI_COMM_WORLD" },
         vars_ := [{ decl := 4, name := "MPI_COMM_WORLD" }] },
       { expr_ := { sourceText := "&status" }, vars_ := [{ decl := 51, name := "status" }] }],
    id_ := node }

/-- The recorded call list `MPI_Send; MPI_Send; MPI_Recv; MPI_Recv` whose two `MPI_Recv`
calls have the datatype argument `elemType()`. -/
def samplePairBesideRecvs : List MPICall :=
  [sampleSendOne, sampleSendTwo, sampleRecvNoVariable 105, sampleRecvNoVariable 106]

/-- The recorded call list `MPI_Send; MPI_Send; MPI_Send; MPI_Recv; MPI_Recv` whose two
`MPI_Recv` calls have the datatype argument `elemType()`. -/
def sampleGroupBesideRecvs : List MPICall :=
  [sampleSendOne, sampleSendTwo, sampleSendThree, sampleRecvNoVariable 107,
    sampleRecvNoVariable 108]

/-- The set of outstanding requests after `MPI_Isend(..., &req)`. -/
def sampleRequestOutstanding : RequestState :=
  { visitedRequests :=
      [{ requestVariable_ := sampleRequest, callUsingTheRequest_ := sampleIsend.callExpr_ }],
    reports := [] }

/-! ## Properties of the classifier -/

section Classifier
open MPIFunctionClassifier

/-- An identifier found in two containers lies in their intersection. -/
theorem not_contained_both {l₁ l₂ : List IdentPtr} (hdisj : l₁ ∩ l₂ = []) (i : IdentPtr) :
    ¬ (cont.isContained l₁ i = true ∧ cont.isContained l₂ i = true) := by
  rintro ⟨h₁, h₂⟩
  have hmem : i ∈ l₁ ∩ l₂ := by
    rw [List.mem_inter_iff]
    exact ⟨by simpa [cont.isContained] using h₁, by simpa [cont.isContained] using h₂⟩
  rw [hdisj] at hmem
  cases hmem

/-- A property that holds for every element of a container holds for every identifier
found in it. -/
theorem of_contained {p : IdentPtr → Prop} {l : List IdentPtr} (hall : ∀ x ∈ l, p x)
    {i : IdentPtr} (h : cont.isContained l i = true) : p i :=
  hall i (by simpa [cont.isContained] using h)

/-- C3. Classification partition: after `identifierInit`, no identifier (null included)
is both send and recv, none is both blocking and non-blocking, and none is both
point-to-point and collective. -/
theorem classification_partition (i : IdentPtr) :
    ¬ (funcClassifier_.isSendType i = true ∧ funcClassifier_.isRecvType i = true) ∧
    ¬ (funcClassifier_.isBlockingType i = true ∧ funcClassifier_.isNonBlockingType i = true) ∧
    ¬ (funcClassifier_.isPointToPointType i = true ∧
        funcClassifier_.isCollectiveType i = true) :=
  ⟨not_contained_both (by decide) i, not_contained_both (by decide) i,
    not_contained_both (by decide) i⟩

/-- C4. After `identifierInit`, an identifier for which any family predicate of the
classifier holds is in the global MPI-type bucket. -/
theorem isMPIType_of_family (i : IdentPtr)
    (h : funcClassifier_.isSendType i = true ∨ funcClassifier_.isRecvType i = true ∨
      funcClassifier_.isPointToPointType i = true ∨ funcClassifier_.isCollectiveType i = true ∨
      funcClassifier_.isCollToColl i = true ∨ funcClassifier_.isBlockingType i = true ∨
      funcClassifier_.isNonBlockingType i = true ∨ funcClassifier_.isScatterType i = true ∨
      funcClassifier_.isGatherType i = true ∨ funcClassifier_.isAllgatherType i = true ∨
      funcClassifier_.isAlltoallType i = true ∨ funcClassifier_.isBcastType i = true ∨
      funcClassifier_.isReduceType i = true ∨ funcClassifier_.isWaitType i = true ∨
      funcClassifier_.isMPI_Wait i = true ∨ funcClassifier_.isMPI_Waitall i = true ∨
      funcClassifier_.isMPI_Comm_rank i = true) :
    funcClassifier_.isMPIType i = true := by
  have key : ∀ l : List IdentPtr, (∀ x ∈ l, funcClassifier_.isMPIType x = true) →
      cont.isContained l i = true → funcClassifier_.isMPIType i = true :=
    fun l hall hmem => of_contained (p := fun x => funcClassifier_.isMPIType x = true) hall hmem
  rcases h with h | h | h | h | h | h | h | h | h | h | h | h | h | h | h | h | h
  · exact key _ (by decide) h
  · exact key _ (by decide) h
  · exact key _ (by decide) h
  · exact key _ (by decide) h
  · exact key _ (by decide) h
  · exact key _ (by decide) h
  · exact key _ (by decide) h
  · simp only [isScatterType, Bool.or_eq_true, beq_iff_eq] at h
    rcases h with rfl | rfl <;> decide
  · simp only [isGatherType, Bool.or_eq_true, beq_iff_eq] at h
    rcases h with ((rfl | rfl) | rfl) | rfl <;> decide
  · simp only [isAllgatherType, Bool.or_eq_true, beq_iff_eq] at h
    rcases h with rfl | rfl <;> decide
  · simp only [isAlltoallType, Bool.or_eq_true, beq_iff_eq] at h
    rcases h with rfl | rfl <;> decide
  · simp only [isBcastType, Bool.or_eq_true, beq_iff_eq] at h
    rcases h with rfl | rfl <;> decide
  · simp only [isReduceType, Bool.or_eq_true, beq_iff_eq] at h
    rcases h with ((rfl | rfl) | rfl) | rfl <;> decide
  · simp only [isWaitType, Bool.or_eq_true, beq_iff_eq] at h
    rcases h with rfl | rfl <;> decide
  · simp only [isMPI_Wait, beq_iff_eq] at h
    subst h; decide
  · simp only [isMPI_Waitall, beq_iff_eq] at h
    subst h; decide
  · simp only [isMPI_Comm_rank, beq_iff_eq] at h
    subst h; decide

/-- Witness for C4 at `MPI_Waitall`, which satisfies `isWaitType`. -/
theorem isMPIType_of_family_witness :
    funcClassifier_.isWaitType (Idents.get "MPI_Waitall") = true ∧
    funcClassifier_.isMPIType (Idents.get "MPI_Waitall") = true :=
  ⟨by decide,
    isMPIType_of_family (Idents.get "MPI_Waitall") (by
      repeat (first | exact Or.inl (by decide) | apply Or.inr))⟩

/-- C5 (evaluation of the code). For `MPI_Isend`, `MPI_Issend`, `MPI_Ibsend`, `MPI_Irsend`
the values of (`isSendType`, `isPointToPointType`, `isNonBlockingType`, `isBlockingType`):
the first three are send, point-to-point, non-blocking and not blocking, while
`MPI_Irsend` is in the blocking bucket and not in the non-blocking one. -/
theorem MPI_Irsend_in_blocking_bucket :
    [Idents.get "MPI_Isend", Idents.get "MPI_Issend", Idents.get "MPI_Ibsend",
      Idents.get "MPI_Irsend"].map (fun i =>
        (funcClassifier_.isSendType i, funcClassifier_.isPointToPointType i,
          funcClassifier_.isNonBlockingType i, funcClassifier_.isBlockingType i)) =
    [(true, true, true, false), (true, true, true, false), (true, true, true, false),
      (true, true, false, true)] := by
  decide

/-- C6 (as stated, refuted). It is not the case that each of the eight names, `MPI_Barrier`
included, is both collective and blocking. -/
theorem MPI_Barrier_not_blocking :
    ¬ ([Idents.get "MPI_Scatter", Idents.get "MPI_Gather", Idents.get "MPI_Allgather",
        Idents.get "MPI_Bcast", Idents.get "MPI_Reduce", Idents.get "MPI_Allreduce",
        Idents.get "MPI_Alltoall", Idents.get "MPI_Barrier"].all (fun i =>
          funcClassifier_.isCollectiveType i && funcClassifier_.isBlockingType i) = true) := by
  decide

/-- C6 (amended). Each of `MPI_Scatter`, `MPI_Gather`, `MPI_Allgather`, `MPI_Bcast`,
`MPI_Reduce`, `MPI_Allreduce`, `MPI_Alltoall` is collective and blocking; `MPI_Barrier` is
collective (and an MPI type) and is in neither the blocking nor the non-blocking bucket. -/
theorem blocking_collectives_classified :
    [Idents.get "MPI_Scatter", Idents.get "MPI_Gather", Idents.get "MPI_Allgather",
      Idents.get "MPI_Bcast", Idents.get "MPI_Reduce", Idents.get "MPI_Allreduce",
      Idents.get "MPI_Alltoall"].all (fun i =>
        funcClassifier_.isCollectiveType i && funcClassifier_.isBlockingType i) = true ∧
    funcClassifier_.isCollectiveType (Idents.get "MPI_Barrier") = true ∧
    funcClassifier_.isMPIType (Idents.get "MPI_Barrier") = true ∧
    funcClassifier_.isBlockingType (Idents.get "MPI_Barrier") = false ∧
    funcClassifier_.isNonBlockingType (Idents.get "MPI_Barrier") = false := by
  decide

/-- C7. Each of `MPI_Iscatter`, `MPI_Igather`, `MPI_Iallgather`, `MPI_Ibcast`, `MPI_Ireduce`,
`MPI_Iallreduce`, `MPI_Ialltoall` is collective and non-blocking, and is neither blocking
nor point-to-point. -/
theorem nonblocking_collectives_classified :
    [Idents.get "MPI_Iscatter", Idents.get "MPI_Igather", Idents.get "MPI_Iallgather",
      Idents.get "MPI_Ibcast", Idents.get "MPI_Ireduce", Idents.get "MPI_Iallreduce",
      Idents.get "MPI_Ialltoall"].all (fun i =>
        funcClassifier_.isCollectiveType i && funcClassifier_.isNonBlockingType i &&
        !funcClassifier_.isBlockingType i && !funcClassifier_.isPointToPointType i) = true := by
  decide

/-- C8. The remaining table rows, as the values of (`isSendType`, `isRecvType`,
`isPointToPointType`, `isCollectiveType`, `isBlockingType`, `isNonBlockingType`):
the four blocking sends are exactly send, point-to-point, blocking; `MPI_Recv` is exactly
recv, point-to-point, blocking; `MPI_Irecv` is exactly recv, point-to-point, non-blocking;
`MPI_Wait`, `MPI_Waitall` and `MPI_Comm_rank` are in none of the six families, the first
two satisfy `isWaitType` and the last satisfies `isMPI_Comm_rank`. -/
theorem remaining_rows_classified :
    [Idents.get "MPI_Send", Idents.get "MPI_Ssend", Idents.get "MPI_Bsend",
      Idents.get "MPI_Rsend", Idents.get "MPI_Recv", Idents.get "MPI_Irecv",
      Idents.get "MPI_Wait", Idents.get "MPI_Waitall", Idents.get "MPI_Comm_rank"].map
      (fun i =>
        (funcClassifier_.isSendType i, funcClassifier_.isRecvType i,
          funcClassifier_.isPointToPointType i, funcClassifier_.isCollectiveType i,
          funcClassifier_.isBlockingType i, funcClassifier_.isNonBlockingType i)) =
    [(true, false, true, false, true, false), (true, false, true, false, true, false),
      (true, false, true, false, true, false), (true, false, true, false, true, false),
      (false, true, true, false, true, false), (false, true, true, false, false, true),
      (false, false, false, false, false, false), (false, false, false, false, false, false),
      (false, false, false, false, false, false)] ∧
    funcClassifier_.isWaitType (Idents.get "MPI_Wait") = true ∧
    funcClassifier_.isWaitType (Idents.get "MPI_Waitall") = true ∧
    funcClassifier_.isMPI_Comm_rank (Idents.get "MPI_Comm_rank") = true := by
  decide

/-- C9. Every operation sub-predicate gives the same answer for the blocking and the
non-blocking spelling of each of the seven operations, and an identifier for which one of
the sub-predicates holds is classified collective. -/
theorem sub_predicates_group_spellings (i : IdentPtr) :
    [(Idents.get "MPI_Scatter", Idents.get "MPI_Iscatter"),
      (Idents.get "MPI_Gather", Idents.get "MPI_Igather"),
      (Idents.get "MPI_Allgather", Idents.get "MPI_Iallgather"),
      (Idents.get "MPI_Alltoall", Idents.get "MPI_Ialltoall"),
      (Idents.get "MPI_Bcast", Idents.get "MPI_Ibcast"),
      (Idents.get "MPI_Reduce", Idents.get "MPI_Ireduce"),
      (Idents.get "MPI_Allreduce", Idents.get "MPI_Iallreduce")].all (fun xy =>
        [isScatterType, isGatherType, isAllgatherType, isAlltoallType, isBcastType,
          isReduceType].all (fun p =>
            p funcClassifier_ xy.1 == p funcClassifier_ xy.2)) = true ∧
    ((funcClassifier_.isScatterType i || funcClassifier_.isGatherType i ||
        funcClassifier_.isAllgatherType i || funcClassifier_.isAlltoallType i ||
        funcClassifier_.isBcastType i || funcClassifier_.isReduceType i) = true →
      funcClassifier_.isCollectiveType i = true) := by
  refine ⟨by decide, fun h => ?_⟩
  simp only [isScatterType, isGatherType, isAllgatherType, isAlltoallType, isBcastType,
    isReduceType, Bool.or_eq_true, beq_iff_eq] at h
  rcases h with
    ((((((rfl | rfl) | (((rfl | rfl) | rfl) | rfl)) | (rfl | rfl)) | (rfl | rfl)) |
      (rfl | rfl))) | (((rfl | rfl) | rfl) | rfl) <;> decide

/-- Witness for C9 at `MPI_Iallreduce`, for which `isReduceType` holds. -/
theorem sub_predicates_group_spellings_witness :
    funcClassifier_.isReduceType (Idents.get "MPI_Iallreduce") = true ∧
    funcClassifier_.isCollectiveType (Idents.get "MPI_Iallreduce") = true :=
  ⟨by decide, (sub_predicates_group_spellings (Idents.get "MPI_Iallreduce")).2 (by decide)⟩

end Classifier

/-! ## Properties of component equality -/

section ComponentEquality

/-- The erase-and-search comparison decides the permutation relation. -/
theorem isPermutation_iff_perm {α : Type} [DecidableEq α] (first second : List α) :
    util.isPermutation first second = true ↔ first.Perm second := by
  induction second generalizing first with
  | nil =>
    cases first with
    | nil => simp [util.isPermutation]
    | cons a l => simp [util.isPermutation]
  | cons x second ih =>
    rw [util.isPermutation, Bool.and_eq_true, ih, List.contains, List.elem_iff]
    constructor
    · rintro ⟨hx, hp⟩
      exact (List.cons_perm_iff_perm_erase.2 ⟨hx, hp.symm⟩).symm
    · intro hp
      have h := List.cons_perm_iff_perm_erase.1 hp.symm
      exact ⟨h.1, h.2.symm⟩

theorem isPermutation_eq_decide {α : Type} [DecidableEq α] (first second : List α) :
    util.isPermutation first second = decide (first.Perm second) := by
  rw [Bool.eq_iff_iff]
  simp [isPermutation_iff_perm]

/-- The value of `areComponentsOfArgumentEqual` on two calls that both have an argument
at `idx`. -/
theorem areComponentsOfArgumentEqual_eq_decide (callOne callTwo : MPICall) (idx : Nat)
    (argOne argTwo : SingleArgVisitor)
    (hOne : callOne.arguments_[idx]? = some argOne)
    (hTwo : callTwo.arguments_[idx]? = some argTwo) :
    areComponentsOfArgumentEqual callOne callTwo idx =
      some (decide (argOne.binaryOperators_.Perm argTwo.binaryOperators_ ∧
        argOne.vars_.Perm argTwo.vars_ ∧
        argOne.intValues_.Perm argTwo.intValues_ ∧
        argOne.functions_.Perm argTwo.functions_ ∧
        argOne.floatValues_.length = argTwo.floatValues_.length)) := by
  simp only [areComponentsOfArgumentEqual, hOne, hTwo, isPermutation_eq_decide]
  by_cases hb : argOne.binaryOperators_.Perm argTwo.binaryOperators_ <;>
  by_cases hv : argOne.vars_.Perm argTwo.vars_ <;>
  by_cases hi : argOne.intValues_.Perm argTwo.intValues_ <;>
  by_cases hf : argOne.functions_.Perm argTwo.functions_ <;>
  by_cases hl : argOne.floatValues_.length = argTwo.floatValues_.length <;>
  simp [hb, hv, hi, hf, hl]

/-- C1. For two calls that both have an argument at `idx`, `areComponentsOfArgumentEqual`
returns, and it returns true exactly when the operator, variable, integer-literal and
function lists of the two arguments are permutations of each other and the float-literal
lists have the same length; replacing the float literals of either argument by any others
of the same number leaves the result unchanged. -/
theorem areComponentsOfArgumentEqual_iff (callOne callTwo : MPICall) (idx : Nat)
    (argOne argTwo : SingleArgVisitor)
    (hOne : callOne.arguments_[idx]? = some argOne)
    (hTwo : callTwo.arguments_[idx]? = some argTwo) :
    areComponentsOfArgumentEqual callOne callTwo idx =
      some (decide (argOne.binaryOperators_.Perm argTwo.binaryOperators_ ∧
        argOne.vars_.Perm argTwo.vars_ ∧
        argOne.intValues_.Perm argTwo.intValues_ ∧
        argOne.functions_.Perm argTwo.functions_ ∧
        argOne.floatValues_.length = argTwo.floatValues_.length)) ∧
    ∀ floatsOne floatsTwo : List APFloat,
      floatsOne.length = argOne.floatValues_.length →
      floatsTwo.length = argTwo.floatValues_.length →
      areComponentsOfArgumentEqual
        { callOne with arguments_ :=
            callOne.arguments_.set idx { argOne with floatValues_ := floatsOne } }
        { callTwo with arguments_ :=
            callTwo.arguments_.set idx { argTwo with floatValues_ := floatsTwo } } idx =
      areComponentsOfArgumentEqual callOne callTwo idx := by
  refine ⟨areComponentsOfArgumentEqual_eq_decide _ _ _ _ _ hOne hTwo,
    fun floatsOne floatsTwo h₁ h₂ => ?_⟩
  have hlt₁ : idx < callOne.arguments_.length := (List.getElem?_eq_some.1 hOne).1
  have hlt₂ : idx < callTwo.arguments_.length := (List.getElem?_eq_some.1 hTwo).1
  rw [areComponentsOfArgumentEqual_eq_decide _ _ idx
      { argOne with floatValues_ := floatsOne } { argTwo with floatValues_ := floatsTwo }
      (by simp [hlt₁]) (by simp [hlt₂]),
    areComponentsOfArgumentEqual_eq_decide _ _ _ _ _ hOne hTwo]
  simp [h₁, h₂]

/-- C2. Component equality is reflexive (on every argument index of the call) and
commutative (also where it is undefined). -/
theorem areComponentsOfArgumentEqual_refl_comm (callOne callTwo : MPICall) (idx : Nat) :
    (idx < callOne.arguments_.length →
      areComponentsOfArgumentEqual callOne callOne idx = some true) ∧
    areComponentsOfArgumentEqual callOne callTwo idx =
      areComponentsOfArgumentEqual callTwo callOne idx := by
  constructor
  · intro hlt
    have h : callOne.arguments_[idx]? = some callOne.arguments_[idx] :=
      List.getElem?_eq_getElem hlt
    rw [areComponentsOfArgumentEqual_eq_decide callOne callOne idx _ _ h h]
    simp
  · cases hOne : callOne.arguments_[idx]? with
    | none =>
      cases hTwo : callTwo.arguments_[idx]? <;>
        simp [areComponentsOfArgumentEqual, hOne, hTwo]
    | some argOne =>
      cases hTwo : callTwo.arguments_[idx]? with
      | none => simp [areComponentsOfArgumentEqual, hOne, hTwo]
      | some argTwo =>
        rw [areComponentsOfArgumentEqual_eq_decide callOne callTwo idx _ _ hOne hTwo,
          areComponentsOfArgumentEqual_eq_decide callTwo callOne idx _ _ hTwo hOne]
        congr 1
        rw [Bool.eq_iff_iff]
        simp only [decide_eq_true_eq]
        constructor
        · rintro ⟨h₁, h₂, h₃, h₄, h₅⟩
          exact ⟨h₁.symm, h₂.symm, h₃.symm, h₄.symm, h₅.symm⟩
        · rintro ⟨h₁, h₂, h₃, h₄, h₅⟩
          exact ⟨h₁.symm, h₂.symm, h₃.symm, h₄.symm, h₅.symm⟩

/-- Witness for C1: `x + y + 2 * 1.5` and `y + 2.5 * 2 + x` are component-equal although
their float literals differ. -/
theorem areComponentsOfArgumentEqual_iff_witness :
    sampleCallOne.arguments_[0]? = some sampleExprOne ∧
    sampleCallTwo.arguments_[0]? = some sampleExprTwo ∧
    sampleExprOne.floatValues_ ≠ sampleExprTwo.floatValues_ ∧
    areComponentsOfArgumentEqual sampleCallOne sampleCallTwo 0 = some true :=
  ⟨rfl, rfl, by decide,
    (areComponentsOfArgumentEqual_iff sampleCallOne sampleCallTwo 0 sampleExprOne sampleExprTwo
      rfl rfl).1.trans (by decide)⟩

/-- Witness for C2: the sample call is component-equal to itself at index 0. -/
theorem areComponentsOfArgumentEqual_refl_comm_witness :
    0 < sampleCallOne.arguments_.length ∧
    areComponentsOfArgumentEqual sampleCallOne sampleCallOne 0 = some true :=
  ⟨by decide, (areComponentsOfArgumentEqual_refl_comm sampleCallOne sampleCallTwo 0).1 (by decide)⟩

end ComponentEquality

/-! ## Properties of the redundancy scan -/

section Redundancy
open checkForRedundantCall

theorem unmarked_eq_self {x : MPICall} (h : x.isMarked_ = false) : x.unmarked = x := by
  cases x
  simp only [MPICall.unmarked] at *
  simp [h]

theorem unmarked_isMarked (x : MPICall) : x.unmarked.isMarked_ = false := rfl

theorem unmarked_callExpr (x : MPICall) : x.unmarked.callExpr_ = x.callExpr_ := rfl

/-- The component loop reads only the argument lists of the two calls. -/
theorem componentsLoop_congr {x x' y y' : MPICall} (hx : x'.arguments_ = x.arguments_)
    (hy : y'.arguments_ = y.arguments_) (l : List Nat) :
    componentsLoop x' y' l = componentsLoop x y l := by
  induction l with
  | nil => rfl
  | cons idx rest ih =>
    simp only [componentsLoop, areComponentsOfArgumentEqual, hx, hy, ih]

/-- The datatype loop reads only the argument lists of the two calls. -/
theorem datatypesLoop_congr {x x' y y' : MPICall} (hx : x'.arguments_ = x.arguments_)
    (hy : y'.arguments_ = y.arguments_) (b : Bool) (l : List Nat) :
    datatypesLoop x' y' b l = datatypesLoop x y b l := by
  induction l with
  | nil => rfl
  | cons idx rest ih =>
    simp only [datatypesLoop, areDatatypesEqual, hx, hy, ih]

/-- One iteration of the scan does not read the mark of `callToCheck`. -/
theorem isRedundantWith_unmarked_left (c : MPIFunctionClassifier) (x y : MPICall)
    (comps strs : List Nat) :
    isRedundantWith c x.unmarked y comps strs = isRedundantWith c x y comps strs := by
  have hq : qualifyRedundancyCheck c x.unmarked y = qualifyRedundancyCheck c x y := rfl
  simp only [isRedundantWith, hq,
    @componentsLoop_congr x x.unmarked y y rfl rfl,
    @datatypesLoop_congr x x.unmarked y y rfl rfl]

/-- A marked call is skipped by the scan. -/
theorem isRedundantWith_marked (c : MPIFunctionClassifier) (x y : MPICall)
    (comps strs : List Nat) (h : y.isMarked_ = true) :
    isRedundantWith c x y comps strs = some false := by
  simp [isRedundantWith, qualifyRedundancyCheck, h]

/-- On an unmarked call the iteration of the scan is the verdict `judgedRedundant`. -/
theorem isRedundantWith_of_unmarked (c : MPIFunctionClassifier) (x y : MPICall)
    (h : y.isMarked_ = false) :
    isRedundantWith c x y (indicesToCheck c x).1 (indicesToCheck c x).2 =
      judgedRedundant c x y := by
  rw [judgedRedundant, unmarked_eq_self h]

/-- The verdict depends on the two calls only up to their marks. -/
theorem judgedRedundant_congr (c : MPIFunctionClassifier) {x x' y y' : MPICall}
    (hx : x'.unmarked = x.unmarked) (hy : y'.unmarked = y.unmarked) :
    judgedRedundant c x' y' = judgedRedundant c x y := by
  have h₁ : ∀ z : MPICall, indicesToCheck c z.unmarked = indicesToCheck c z := fun _ => rfl
  have h₂ : ∀ z w : MPICall, judgedRedundant c z w = judgedRedundant c z.unmarked w := by
    intro z w
    rw [judgedRedundant, judgedRedundant, h₁, isRedundantWith_unmarked_left]
  rw [h₂ x' y', h₂ x y, hx]
  simp only [judgedRedundant, hy]

/-- A call is never judged redundant with itself: the scan skips the call's own id. -/
theorem judgedRedundant_self (c : MPIFunctionClassifier) (x : MPICall) :
    judgedRedundant c x x = some false := by
  simp [judgedRedundant, isRedundantWith, qualifyRedundancyCheck, MPICall.unmarked]

/-- The scan, when every iteration is defined: either no iteration reaches the report, or
the scan stops at a call whose iteration does. -/
theorem scan_spec (c : MPIFunctionClassifier) (X : MPICall) (comps strs : List Nat)
    (L : List MPICall) (hdef : ∀ y ∈ L, isRedundantWith c X y comps strs ≠ none) :
    (scan c X comps strs L = some none ∧
      ∀ y ∈ L, isRedundantWith c X y comps strs = some false) ∨
    ∃ Y ∈ L, isRedundantWith c X Y comps strs = some true ∧
      scan c X comps strs L = some (some Y) := by
  induction L with
  | nil => exact Or.inl ⟨rfl, by simp⟩
  | cons y rest ih =>
    have hy := hdef y (List.mem_cons_self _ _)
    cases hv : isRedundantWith c X y comps strs with
    | none => exact absurd hv hy
    | some b =>
      cases b with
      | true =>
        refine Or.inr ⟨y, List.mem_cons_self _ _, hv, ?_⟩
        simp [scan, hv]
      | false =>
        rcases ih (fun z hz => hdef z (List.mem_cons_of_mem _ hz)) with ⟨hs, hall⟩ | ⟨Y, hY, hYv, hs⟩
        · refine Or.inl ⟨by simp [scan, hv, hs], ?_⟩
          intro z hz
          rcases List.mem_cons.1 hz with rfl | hz
          · exact hv
          · exact hall z hz
        · exact Or.inr ⟨Y, List.mem_cons_of_mem _ hY, hYv, by simp [scan, hv, hs]⟩

/-- One call of `checkForRedundantCall` on the call `X` at position `k`, when the verdict
of `X` on every recorded call is defined: either the state is unchanged and `X` is judged
redundant with no unmarked call, or `X` is marked and one diagnostic is appended that
pairs `X` with an unmarked recorded call it is judged redundant with. -/
theorem checkForRedundantCall_spec (c : MPIFunctionClassifier) (L : List MPICall)
    (R : List Diagnostic) (k : Nat) (X : MPICall) (hX : L[k]? = some X)
    (hdef : ∀ y ∈ L, judgedRedundant c X y ≠ none) :
    (checkForRedundantCall c ⟨L, R⟩ k = some ⟨L, R⟩ ∧
      ∀ y ∈ L, y.isMarked_ = false → judgedRedundant c X y = some false) ∨
    ∃ Y ∈ L, Y.isMarked_ = false ∧ judgedRedundant c X Y = some true ∧
      checkForRedundantCall c ⟨L, R⟩ k =
        some ⟨L.set k { X with isMarked_ := true }, R ++ [redundancyReport c X Y]⟩ := by
  have hdef' : ∀ y ∈ L,
      isRedundantWith c X y (indicesToCheck c X).1 (indicesToCheck c X).2 ≠ none := by
    intro y hy
    cases hm : y.isMarked_ with
    | true => rw [isRedundantWith_marked c X y _ _ hm]; simp
    | false => rw [isRedundantWith_of_unmarked c X y hm]; exact hdef y hy
  rcases scan_spec c X _ _ L hdef' with ⟨hs, hall⟩ | ⟨Y, hY, hYv, hs⟩
  · refine Or.inl ⟨by simp [checkForRedundantCall, hX, hs], ?_⟩
    intro y hy hm
    rw [← isRedundantWith_of_unmarked c X y hm]
    exact hall y hy
  · have hm : Y.isMarked_ = false := by
      cases hm : Y.isMarked_ with
      | false => rfl
      | true =>
        rw [isRedundantWith_marked c X Y _ _ hm] at hYv
        simp at hYv
    refine Or.inr ⟨Y, hY, hm, ?_, ?_⟩
    · rw [← isRedundantWith_of_unmarked c X Y hm]; exact hYv
    · simp [checkForRedundantCall, hX, hs, redundancyReport]

/-- Marking a recorded call changes nothing but its mark. -/
theorem map_unmarked_set (L : List MPICall) (k : Nat) (X : MPICall) (hX : L[k]? = some X)
    (b : Bool) :
    (L.set k { X with isMarked_ := b }).map MPICall.unmarked = L.map MPICall.unmarked := by
  apply List.ext_getElem?
  intro l
  rw [List.getElem?_map, List.getElem?_map, List.getElem?_set]
  by_cases hkl : k = l
  · subst hkl
    have hlt : k < L.length := (List.getElem?_eq_some.1 hX).1
    simp [hlt, hX, MPICall.unmarked]
  · simp [hkl]

/-- Two recorded lists that agree up to marks have the same elements up to marks. -/
theorem exists_unmarked_eq_of_map {L cs : List MPICall}
    (hmap : L.map MPICall.unmarked = cs.map MPICall.unmarked) {x : MPICall} (hx : x ∈ L) :
    ∃ x₀ ∈ cs, x.unmarked = x₀.unmarked := by
  have h : x.unmarked ∈ cs.map MPICall.unmarked := by
    rw [← hmap]; exact List.mem_map_of_mem _ hx
  rcases List.mem_map.1 h with ⟨x₀, hx₀, he⟩
  exact ⟨x₀, hx₀, he.symm⟩

/-- Definedness of the verdicts is a property of the recorded calls up to marks. -/
theorem judgedRedundant_defined_of_map (c : MPIFunctionClassifier) {L cs : List MPICall}
    (hmap : L.map MPICall.unmarked = cs.map MPICall.unmarked)
    (hdef : ∀ x ∈ cs, ∀ y ∈ cs, judgedRedundant c x y ≠ none) :
    ∀ x ∈ L, ∀ y ∈ L, judgedRedundant c x y ≠ none := by
  intro x hx y hy
  rcases exists_unmarked_eq_of_map hmap hx with ⟨x₀, hx₀, hex⟩
  rcases exists_unmarked_eq_of_map hmap hy with ⟨y₀, hy₀, hey⟩
  rw [judgedRedundant_congr c hex hey]
  exact hdef x₀ hx₀ y₀ hy₀

/-- The checking loop of `checkForRedundantCalls` runs through, and changes the recorded
calls in their marks only, whenever all verdicts are defined. -/
theorem foldlM_checkForRedundantCall_total (c : MPIFunctionClassifier) (cs : List MPICall)
    (R₀ : List Diagnostic) (hdef : ∀ x ∈ cs, ∀ y ∈ cs, judgedRedundant c x y ≠ none)
    (k : Nat) (hk : k ≤ cs.length) :
    ∃ st, (List.range k).foldlM (checkForRedundantCall c) ⟨cs, R₀⟩ = some st ∧
      st.visitedCalls.map MPICall.unmarked = cs.map MPICall.unmarked := by
  induction k with
  | zero => exact ⟨⟨cs, R₀⟩, rfl, rfl⟩
  | succ k ih =>
    rcases ih (by omega) with ⟨⟨L, R⟩, hrun, hmap⟩
    simp only at hmap
    have hlen : L.length = cs.length := by
      have := congrArg List.length hmap
      simpa using this
    have hX : L[k]? = some L[k] := List.getElem?_eq_getElem (by omega)
    have hdefL := judgedRedundant_defined_of_map c hmap hdef
    rw [List.range_succ, List.foldlM_append, hrun]
    rcases checkForRedundantCall_spec c L R k _ hX
        (hdefL _ (List.getElem?_mem hX)) with ⟨hstep, _⟩ | ⟨Y, _, _, _, hstep⟩
    · exact ⟨⟨L, R⟩, by simp [hstep], hmap⟩
    · refine ⟨⟨L.set k { L[k] with isMarked_ := true }, R ++ [redundancyReport c L[k] Y]⟩,
        by simp [hstep], ?_⟩
      show (L.set k { L[k] with isMarked_ := true }).map MPICall.unmarked = _
      rw [map_unmarked_set L k _ hX, hmap]

/-- An unmarked call of the current list is the call recorded at the same position. -/
theorem getElem?_of_unmarked {L cs : List MPICall}
    (hmap : L.map MPICall.unmarked = cs.map MPICall.unmarked)
    (hmarks : ∀ x ∈ cs, x.isMarked_ = false) {l : Nat} {y : MPICall}
    (hy : L[l]? = some y) (hm : y.isMarked_ = false) : cs[l]? = some y := by
  have h := congrArg (fun M : List MPICall => M[l]?) hmap
  simp only [List.getElem?_map, hy, Option.map_some'] at h
  cases hc : cs[l]? with
  | none => rw [hc] at h; simp at h
  | some y₀ =>
    rw [hc] at h
    simp only [Option.map_some', Option.some.injEq] at h
    rw [unmarked_eq_self hm, unmarked_eq_self (hmarks y₀ (List.getElem?_mem hc))] at h
    rw [h]

/-- Calls recorded at different positions have different call sites. -/
theorem callExpr_ne_of_ne {cs : List MPICall} (hsites : (cs.map (·.callExpr_)).Nodup)
    {k i : Nat} {X A : MPICall} (hX : cs[k]? = some X) (hA : cs[i]? = some A) (hne : k ≠ i) :
    X.callExpr_ ≠ A.callExpr_ := by
  intro he
  apply hne
  have hk : k < (cs.map (·.callExpr_)).length := by
    simpa using (List.getElem?_eq_some.1 hX).1
  apply List.getElem?_inj hk hsites
  simp [List.getElem?_map, hX, hA, he]

/-- The state of the checking loop after the first `k` recorded calls, for a list in which
`A` (position `i`) and `B` (position `j`, later) are judged redundant with each other and
with no other call. -/
theorem foldlM_checkForRedundantCall_pair (c : MPIFunctionClassifier) (cs : List MPICall)
    (i j : Nat) (A B : MPICall)
    (hmarks : ∀ x ∈ cs, x.isMarked_ = false)
    (hsites : (cs.map (·.callExpr_)).Nodup)
    (hdef : ∀ x ∈ cs, ∀ y ∈ cs, judgedRedundant c x y ≠ none)
    (hij : i < j) (hA : cs[i]? = some A) (hB : cs[j]? = some B)
    (hAB : judgedRedundant c A B = some true)
    (hother : ∀ l C, cs[l]? = some C → l ≠ i → l ≠ j →
      judgedRedundant c A C ≠ some true ∧ judgedRedundant c B C ≠ some true ∧
      judgedRedundant c C A ≠ some true ∧ judgedRedundant c C B ≠ some true)
    (k : Nat) (hk : k ≤ cs.length) :
    ∃ st, (List.range k).foldlM (checkForRedundantCall c) ⟨cs, []⟩ = some st ∧
      st.visitedCalls.map MPICall.unmarked = cs.map MPICall.unmarked ∧
      (∀ l y, st.visitedCalls[l]? = some y → k ≤ l → y.isMarked_ = false) ∧
      (i < k → ∀ y, st.visitedCalls[i]? = some y → y.isMarked_ = true) ∧
      st.reports.filter (fun d => d.names A.callExpr_ || d.names B.callExpr_) =
        (if i < k then [redundancyReport c A B] else []) ∧
      (∀ r ∈ st.reports, ∃ x ∈ cs, ∃ y ∈ cs,
        judgedRedundant c x y = some true ∧ r = redundancyReport c x y) := by
  induction k with
  | zero =>
    refine ⟨⟨cs, []⟩, rfl, rfl, ?_, ?_, ?_, ?_⟩
    · intro l y hy _; exact hmarks y (List.getElem?_mem hy)
    · intro h; omega
    · simp
    · simp
  | succ k ih =>
    rcases ih (by omega) with ⟨⟨L, R⟩, hrun, hmap, hunm, hmk, hfil, hjust⟩
    simp only at hmap hunm hmk hfil hjust
    have hlen : L.length = cs.length := by
      have := congrArg List.length hmap
      simpa using this
    have hX : L[k]? = some L[k] := List.getElem?_eq_getElem (by omega)
    have hXm : L[k].isMarked_ = false := hunm k _ hX (le_refl _)
    have hXc : cs[k]? = some L[k] := getElem?_of_unmarked hmap hmarks hX hXm
    have hdefL := judgedRedundant_defined_of_map c hmap hdef
    rw [List.range_succ, List.foldlM_append, hrun]
    rcases checkForRedundantCall_spec c L R k _ hX
        (hdefL _ (List.getElem?_mem hX)) with ⟨hstep, hnone⟩ | ⟨Y, hYL, hYm, hYv, hstep⟩
    · -- no match for the call at position `k`
      have hki : k ≠ i := by
        rintro rfl
        have hXA : L[k] = A := by rw [hXc] at hA; exact Option.some.inj hA
        have hjlt : j < L.length := by
          rw [hlen]; exact (List.getElem?_eq_some.1 hB).1
        have hBj : L[j]? = some L[j] := List.getElem?_eq_getElem hjlt
        have hBm : L[j].isMarked_ = false := hunm j _ hBj (by omega)
        have hBc := getElem?_of_unmarked hmap hmarks hBj hBm
        have hBB : L[j] = B := by rw [hBc] at hB; exact Option.some.inj hB
        have := hnone _ (List.getElem?_mem hBj) hBm
        rw [hXA, hBB, hAB] at this
        simp at this
      refine ⟨⟨L, R⟩, by simp [hstep], hmap, ?_, ?_, ?_, hjust⟩
      · intro l y hy hl; exact hunm l y hy (by omega)
      · intro h y hy; exact hmk (by omega) y hy
      · rw [hfil]
        have : (i < k + 1) = (i < k) := by
          apply propext; constructor <;> intro h <;> omega
        simp only [this]
    · -- the call at position `k` is matched with `Y`
      rcases List.getElem?_of_mem hYL with ⟨l, hYl⟩
      have hYc : cs[l]? = some Y := getElem?_of_unmarked hmap hmarks hYl hYm
      have hlk : l ≠ k := by
        rintro rfl
        have : Y = L[l] := by rw [hX] at hYl; exact (Option.some.inj hYl).symm
        rw [this, judgedRedundant_self] at hYv
        simp at hYv
      have hinv₁ : (L.set k { L[k] with isMarked_ := true }).map MPICall.unmarked =
          cs.map MPICall.unmarked := by
        rw [map_unmarked_set L k _ hX, hmap]
      have hinv₂ : ∀ l' y, (L.set k { L[k] with isMarked_ := true })[l']? = some y →
          k + 1 ≤ l' → y.isMarked_ = false := by
        intro l' y hy hl'
        rw [List.getElem?_set_ne (by omega)] at hy
        exact hunm l' y hy (by omega)
      have hjust' : ∀ r ∈ R ++ [redundancyReport c L[k] Y], ∃ x ∈ cs, ∃ y ∈ cs,
          judgedRedundant c x y = some true ∧ r = redundancyReport c x y := by
        intro r hr
        rcases List.mem_append.1 hr with hr | hr
        · exact hjust r hr
        · rw [List.mem_singleton] at hr
          exact ⟨_, List.getElem?_mem hXc, _, List.getElem?_mem hYc, hYv, hr⟩
      refine ⟨⟨L.set k { L[k] with isMarked_ := true }, R ++ [redundancyReport c L[k] Y]⟩,
        by simp [hstep], hinv₁, hinv₂, ?_, ?_, hjust'⟩
      · -- the mark of `A`
        intro h y hy
        by_cases hki : k = i
        · subst hki
          have hlt : k < L.length := by omega
          rw [List.getElem?_set_self hlt] at hy
          rw [← Option.some.inj hy]
        · rw [List.getElem?_set_ne hki] at hy
          exact hmk (by omega) y hy
      · -- the diagnostics naming `A` or `B`
        show List.filter _ (R ++ [redundancyReport c L[k] Y]) = _
        rw [List.filter_append, hfil]
        by_cases hki : k = i
        · subst hki
          have hXA : L[k] = A := by rw [hXc] at hA; exact Option.some.inj hA
          have hlj : l = j := by
            by_contra hlj
            have := (hother l Y hYc hlk hlj).1
            rw [hXA] at hYv
            exact this hYv
          have hYB : Y = B := by rw [hlj, hB] at hYc; exact (Option.some.inj hYc).symm
          rw [hXA, hYB]
          simp [redundancyReport, Diagnostic.names]
        · by_cases hkj : k = j
          · exfalso
            subst hkj
            have hXB : L[k] = B := by rw [hXc] at hB; exact Option.some.inj hB
            have hli : l = i := by
              by_contra hli
              have := (hother l Y hYc hli hlk).2.1
              rw [hXB] at hYv
              exact this hYv
            have := hmk hij Y (hli ▸ hYl)
            rw [hYm] at this
            simp at this
          · have hC := hother k _ hXc hki hkj
            have hli : l ≠ i := by
              rintro rfl
              have hYA : Y = A := by rw [hA] at hYc; exact (Option.some.inj hYc).symm
              rw [hYA] at hYv
              exact hC.2.2.1 hYv
            have hlj : l ≠ j := by
              rintro rfl
              have hYB : Y = B := by rw [hB] at hYc; exact (Option.some.inj hYc).symm
              rw [hYB] at hYv
              exact hC.2.2.2 hYv
            have h₁ := callExpr_ne_of_ne hsites hXc hA hki
            have h₂ := callExpr_ne_of_ne hsites hXc hB hkj
            have h₃ := callExpr_ne_of_ne hsites hYc hA hli
            have h₄ := callExpr_ne_of_ne hsites hYc hB hlj
            have hik : (i < k + 1) = (i < k) := by
              apply propext; constructor <;> intro h <;> omega
            simp [redundancyReport, Diagnostic.names, h₁, h₂, h₃, h₄, hik]

/-- The report of a pair where every verdict is defined. Let the recorded calls be unmarked,
have pairwise different call sites and defined verdicts, and let `A` be recorded before `B`, with `A` judged redundant with `B` and neither
of them judged redundant with (or by) any other recorded call. Then `checkForRedundantCalls`
returns; among the diagnostics it emits exactly one names the call site of `A` or of `B`,
and it names both; every emitted diagnostic pairs two recorded calls judged redundant; and
the recorded calls, marks included, are as before. Moreover, for every state whose verdicts
are defined, `checkForRedundantCalls` returns with every mark false and the recorded calls
otherwise unchanged. -/
theorem checkForRedundantCalls_pair (c : MPIFunctionClassifier) (cs : List MPICall)
    (i j : Nat) (A B : MPICall)
    (hmarks : ∀ x ∈ cs, x.isMarked_ = false)
    (hsites : (cs.map (·.callExpr_)).Nodup)
    (hdef : ∀ x ∈ cs, ∀ y ∈ cs, judgedRedundant c x y ≠ none)
    (hij : i < j) (hA : cs[i]? = some A) (hB : cs[j]? = some B)
    (hAB : judgedRedundant c A B = some true)
    (hother : ∀ C ∈ cs, C ≠ A → C ≠ B →
      judgedRedundant c A C ≠ some true ∧ judgedRedundant c B C ≠ some true ∧
      judgedRedundant c C A ≠ some true ∧ judgedRedundant c C B ≠ some true) :
    (∃ st, checkForRedundantCalls c { visitedCalls := cs, reports := [] } = some st ∧
      st.reports.filter (fun d => d.names A.callExpr_ || d.names B.callExpr_) =
        [Diagnostic.redundantCall A.callExpr_ B.callExpr_
          ((checkForRedundantCall.indicesToCheck c A).1 ++
            (checkForRedundantCall.indicesToCheck c A).2)] ∧
      (∀ r ∈ st.reports, ∃ x ∈ cs, ∃ y ∈ cs,
        judgedRedundant c x y = some true ∧ r = redundancyReport c x y) ∧
      st.visitedCalls = cs) ∧
    ∀ st : CheckerState,
      (∀ x ∈ st.visitedCalls, ∀ y ∈ st.visitedCalls, judgedRedundant c x y ≠ none) →
      ∃ st', checkForRedundantCalls c st = some st' ∧
        (∀ x ∈ st'.visitedCalls, x.isMarked_ = false) ∧
        st'.visitedCalls = st.visitedCalls.map MPICall.unmarked := by
  constructor
  · have hother' : ∀ l C, cs[l]? = some C → l ≠ i → l ≠ j →
        judgedRedundant c A C ≠ some true ∧ judgedRedundant c B C ≠ some true ∧
        judgedRedundant c C A ≠ some true ∧ judgedRedundant c C B ≠ some true := by
      intro l C hC hli hlj
      refine hother C (List.getElem?_mem hC) ?_ ?_
      · intro he
        exact callExpr_ne_of_ne hsites hC hA hli (by rw [he])
      · intro he
        exact callExpr_ne_of_ne hsites hC hB hlj (by rw [he])
    rcases foldlM_checkForRedundantCall_pair c cs i j A B hmarks hsites hdef hij hA hB hAB
        hother' cs.length (le_refl _) with ⟨⟨L, R⟩, hrun, hmap, _, _, hfil, hjust⟩
    simp only at hmap hfil hjust
    have hilt : i < cs.length := (List.getElem?_eq_some.1 hA).1
    have hcs : cs.map MPICall.unmarked = cs := by
      conv => rhs; rw [← List.map_id cs]
      apply List.map_congr_left
      intro x hx
      simpa using unmarked_eq_self (hmarks x hx)
    refine ⟨⟨L.map MPICall.unmarked, R⟩, ?_, ?_, hjust, ?_⟩
    · simp only [checkForRedundantCalls, hrun]
      rfl
    · show List.filter _ R = _
      rw [hfil, if_pos hilt]
      rfl
    · show L.map MPICall.unmarked = cs
      rw [hmap, hcs]
  · intro st hdefst
    rcases st with ⟨L₀, R₀⟩
    rcases foldlM_checkForRedundantCall_total c L₀ R₀ hdefst L₀.length (le_refl _) with
      ⟨⟨L, R⟩, hrun, hmap⟩
    simp only at hmap
    refine ⟨⟨L.map MPICall.unmarked, R⟩, ?_, ?_, ?_⟩
    · simp only [checkForRedundantCalls, hrun]
      rfl
    · intro x hx
      rcases List.mem_map.1 hx with ⟨y, _, rfl⟩
      rfl
    · exact hmap

/-- The report of a pair on the sample program, whose two `MPI_Send` calls are redundant
with each other and with no other call. -/
theorem checkForRedundantCalls_pair_witness :
    judgedRedundant funcClassifier_ sampleSendOne sampleSendTwo = some true ∧
    (∃ st, checkForRedundantCalls funcClassifier_
        { visitedCalls := sampleCalls, reports := [] } = some st ∧
      st.reports.filter (fun d => d.names sampleSendOne.callExpr_ ||
          d.names sampleSendTwo.callExpr_) =
        [Diagnostic.redundantCall sampleSendOne.callExpr_ sampleSendTwo.callExpr_
          ((checkForRedundantCall.indicesToCheck funcClassifier_ sampleSendOne).1 ++
            (checkForRedundantCall.indicesToCheck funcClassifier_ sampleSendOne).2)] ∧
      (∀ r ∈ st.reports, ∃ x ∈ sampleCalls, ∃ y ∈ sampleCalls,
        judgedRedundant funcClassifier_ x y = some true ∧
          r = redundancyReport funcClassifier_ x y) ∧
      st.visitedCalls = sampleCalls) :=
  ⟨by decide,
    (checkForRedundantCalls_pair funcClassifier_ sampleCalls 0 1 sampleSendOne sampleSendTwo
      (by decide) (by decide) (by decide) (by decide) rfl rfl (by decide) (by decide)).1⟩

/-- C10 (evaluation of the code). In the recorded list `MPI_Send(a, n, MPI_INT, 1, 0,
MPI_COMM_WORLD)`, the same `MPI_Send` again, and two calls `MPI_Recv(b, n, elemType(), 0, 0,
MPI_COMM_WORLD, &status)`, the two sends are judged redundant with each other, and neither
of them is judged redundant with a recv or by a recv. The comparison of the two recvs reads
`vars_.front()` of the datatype argument `elemType()`, which references no variable
(`areDatatypesEqual`, MPICheckerImpl.cpp:450-451): it is undefined, and so is
`checkForRedundantCalls` on this list, after the scan of the first send has emitted the
diagnostic of the pair. -/
theorem redundancy_scan_undefined_beside_pair :
    judgedRedundant funcClassifier_ sampleSendOne sampleSendTwo = some true ∧
    judgedRedundant funcClassifier_ sampleSendTwo sampleSendOne = some true ∧
    (∀ x ∈ [sampleSendOne, sampleSendTwo],
      ∀ y ∈ [sampleRecvNoVariable 105, sampleRecvNoVariable 106],
        judgedRedundant funcClassifier_ x y = some false ∧
        judgedRedundant funcClassifier_ y x = some false) ∧
    (∀ x ∈ samplePairBesideRecvs, x.isMarked_ = false) ∧
    (samplePairBesideRecvs.map (·.callExpr_)).Nodup ∧
    areDatatypesEqual (sampleRecvNoVariable 105) (sampleRecvNoVariable 106) 2 = none ∧
    judgedRedundant funcClassifier_ (sampleRecvNoVariable 105) (sampleRecvNoVariable 106) =
      none ∧
    checkForRedundantCall funcClassifier_
        { visitedCalls := samplePairBesideRecvs, reports := [] } 0 =
      some { visitedCalls := samplePairBesideRecvs.set 0 { sampleSendOne with isMarked_ := true },
             reports := [Diagnostic.redundantCall sampleSendOne.callExpr_
               sampleSendTwo.callExpr_ [1, 3, 4, 2]] } ∧
    checkForRedundantCalls funcClassifier_
        { visitedCalls := samplePairBesideRecvs, reports := [] } = none := by
  decide

end Redundancy

/-! ## Properties of the redundancy verdict -/

section Verdict
open checkForRedundantCall MPIFunctionClassifier

/-- The component loop ends with `identical` true exactly when every argument compares
component-equal. -/
theorem componentsLoop_eq_true_iff (x y : MPICall) (l : List Nat) :
    componentsLoop x y l = some true ↔
      ∀ idx ∈ l, areComponentsOfArgumentEqual x y idx = some true := by
  induction l with
  | nil => simp [componentsLoop]
  | cons idx rest ih =>
    rw [componentsLoop]
    cases h : areComponentsOfArgumentEqual x y idx with
    | none => simp [h]
    | some b => cases b <;> simp [h, ih]

/-- The datatype loop ends with `identical` true exactly when `identical` was true before
it and every datatype compares equal. -/
theorem datatypesLoop_eq_true_iff (x y : MPICall) (b : Bool) (l : List Nat) :
    datatypesLoop x y b l = some true ↔
      b = true ∧ ∀ idx ∈ l, areDatatypesEqual x y idx = some true := by
  induction l with
  | nil => simp [datatypesLoop]
  | cons idx rest ih =>
    rw [datatypesLoop]
    cases h : areDatatypesEqual x y idx with
    | none => simp [h]
    | some d => cases d <;> simp [h, ih]

/-- `areDatatypesEqual` compares the names of the first variables of the two arguments. -/
theorem areDatatypesEqual_eq_true_iff (x y : MPICall) (idx : Nat) :
    areDatatypesEqual x y idx = some true ↔
      ∃ n, firstVarName x idx = some n ∧ firstVarName y idx = some n := by
  rcases hx : x.arguments_[idx]? with _ | a
  · simp [areDatatypesEqual, firstVarName, hx]
  rcases hy : y.arguments_[idx]? with _ | b
  · simp [areDatatypesEqual, firstVarName, hx, hy]
  rcases ha : a.vars_.head? with _ | u
  · simp [areDatatypesEqual, firstVarName, hx, hy, ha]
  rcases hb : b.vars_.head? with _ | v
  · simp [areDatatypesEqual, firstVarName, hx, hy, ha, hb]
  simp [areDatatypesEqual, firstVarName, hx, hy, ha, hb]
  exact eq_comm

/-- The verdict of the scan is "redundant" exactly when the pair qualifies and every compared
argument agrees. -/
theorem judgedRedundant_eq_true_iff (c : MPIFunctionClassifier) (x y : MPICall) :
    judgedRedundant c x y = some true ↔
      qualifyRedundancyCheck c x y.unmarked = true ∧
      (∀ idx ∈ (indicesToCheck c x).1, areComponentsOfArgumentEqual x y idx = some true) ∧
      (∀ idx ∈ (indicesToCheck c x).2,
        ∃ n, firstVarName x idx = some n ∧ firstVarName y idx = some n) := by
  have hcomp : ∀ idx, areComponentsOfArgumentEqual x y.unmarked idx =
      areComponentsOfArgumentEqual x y idx := fun _ => rfl
  have hname : ∀ idx, firstVarName y.unmarked idx = firstVarName y idx := fun _ => rfl
  rw [judgedRedundant, isRedundantWith]
  cases hq : qualifyRedundancyCheck c x y.unmarked with
  | false => simp
  | true =>
    simp only [Bool.not_true, Bool.false_eq_true, if_false, true_and]
    cases hl : componentsLoop x y.unmarked (indicesToCheck c x).1 with
    | none =>
      have := (componentsLoop_eq_true_iff x y.unmarked (indicesToCheck c x).1).not.1
        (by rw [hl]; simp)
      simp only [hcomp] at this
      simp [this]
    | some b =>
      simp only [datatypesLoop_eq_true_iff, areDatatypesEqual_eq_true_iff, hname]
      have hb : b = true ↔
          ∀ idx ∈ (indicesToCheck c x).1, areComponentsOfArgumentEqual x y idx = some true := by
        rw [← (funext hcomp : (fun idx => areComponentsOfArgumentEqual x y.unmarked idx) = _),
          ← componentsLoop_eq_true_iff, hl]
        simp
      rw [hb]

/-- The index vectors of a point-to-point call: count, rank, tag by components and the
datatype by name. -/
theorem indicesToCheck_pointToPoint (c : MPIFunctionClassifier) (x : MPICall)
    (hx : c.isPointToPointType x.identInfo_ = true) :
    indicesToCheck c x = ([1, 3, 4], [2]) := by
  simp [indicesToCheck, hx, MPIPointToPoint.kCount, MPIPointToPoint.kRank,
    MPIPointToPoint.kTag, MPIPointToPoint.kDatatype]

/-- For two point-to-point calls with different ids, the compared one unmarked, the scan
qualifies the pair exactly when both are send-type or both are recv-type. -/
theorem qualifyRedundancyCheck_pointToPoint (c : MPIFunctionClassifier) (x y : MPICall)
    (hx : c.isPointToPointType x.identInfo_ = true)
    (hy : c.isPointToPointType y.identInfo_ = true) (hid : x.id_ ≠ y.id_) :
    qualifyRedundancyCheck c x y.unmarked =
      ((c.isSendType x.identInfo_ && c.isSendType y.identInfo_) ||
        (c.isRecvType x.identInfo_ && c.isRecvType y.identInfo_)) := by
  simp [qualifyRedundancyCheck, areCommunicationTypesEqual, MPICall.unmarked, hx, hy, hid]

/-- After `identifierInit` no identifier is both send-type and recv-type. -/
theorem not_isSendType_and_isRecvType (i : IdentPtr) :
    ¬ (funcClassifier_.isSendType i = true ∧ funcClassifier_.isRecvType i = true) :=
  not_contained_both (by decide) i

/-- For two collective calls with different ids, the compared one unmarked, the scan
qualifies the pair exactly when both are in the same sub-family. -/
theorem qualifyRedundancyCheck_collective (x y : MPICall)
    (hx : funcClassifier_.isCollectiveType x.identInfo_ = true)
    (hy : funcClassifier_.isCollectiveType y.identInfo_ = true) (hid : x.id_ ≠ y.id_) :
    qualifyRedundancyCheck funcClassifier_ x y.unmarked =
      ((funcClassifier_.isScatterType x.identInfo_ &&
          funcClassifier_.isScatterType y.identInfo_) ||
        (funcClassifier_.isGatherType x.identInfo_ &&
          funcClassifier_.isGatherType y.identInfo_) ||
        (funcClassifier_.isAlltoallType x.identInfo_ &&
          funcClassifier_.isAlltoallType y.identInfo_) ||
        (funcClassifier_.isBcastType x.identInfo_ &&
          funcClassifier_.isBcastType y.identInfo_) ||
        (funcClassifier_.isReduceType x.identInfo_ &&
          funcClassifier_.isReduceType y.identInfo_)) := by
  have hp : funcClassifier_.isPointToPointType x.identInfo_ = false := by
    cases h : funcClassifier_.isPointToPointType x.identInfo_ with
    | false => rfl
    | true => exact absurd ⟨h, hx⟩ (not_contained_both (by decide) x.identInfo_)
  simp [qualifyRedundancyCheck, areCommunicationTypesEqual, MPICall.unmarked, hx, hy, hid, hp]

end Verdict

/-! ## Properties of request usage -/

section Requests
open MPIFunctionClassifier

/-- After `identifierInit` no identifier of non-blocking type is of wait type. -/
theorem isWaitType_of_isNonBlockingType {i : IdentPtr}
    (h : funcClassifier_.isNonBlockingType i = true) : funcClassifier_.isWaitType i = false :=
  of_contained (p := fun x => funcClassifier_.isWaitType x = false) (by decide) h

/-- The part of `checkRequestUsage` taken by a call that is of non-blocking type and not of
wait type. -/
theorem checkRequestUsage_of_nonBlocking (c : MPIFunctionClassifier)
    (T : VarDecl → List VarDecl) (st : RequestState) (mpiCall : MPICall)
    (hnb : c.isNonBlockingType mpiCall.identInfo_ = true)
    (hw : c.isWaitType mpiCall.identInfo_ = false) :
    checkRequestUsage c T st mpiCall = checkRequestUsage.nonBlocking st mpiCall := by
  simp only [checkRequestUsage, hnb, hw, if_true]
  cases checkRequestUsage.nonBlocking st mpiCall <;> simp

/-- The part of `checkRequestUsage` taken by a call that is of wait type and not of
non-blocking type. -/
theorem checkRequestUsage_of_wait (c : MPIFunctionClassifier)
    (T : VarDecl → List VarDecl) (st : RequestState) (mpiCall : MPICall)
    (hnb : c.isNonBlockingType mpiCall.identInfo_ = false)
    (hw : c.isWaitType mpiCall.identInfo_ = true) :
    checkRequestUsage c T st mpiCall =
      (checkRequestUsage.requestVector c T mpiCall).map
        (fun requestVector => requestVector.foldl (checkRequestUsage.waitOn mpiCall) st) := by
  simp only [checkRequestUsage, hnb, hw, if_true]
  cases checkRequestUsage.requestVector c T mpiCall <;> simp

/-- The non-blocking part for the calls that the classifier rates non-blocking.
`checkRequestUsage` on such a call whose last argument references the request variable `r`
first: when no outstanding request has variable `r`, the entry
(`r`, this call) is appended and nothing else changes; when one has, the state is unchanged
but for one double-request-use diagnostic naming this call, `r` and the call stored in the
first entry for `r`. -/
theorem checkRequestUsage_nonBlocking (T : VarDecl → List VarDecl) (st : RequestState)
    (mpiCall : MPICall) (arg : SingleArgVisitor) (r : VarDecl)
    (hnb : funcClassifier_.isNonBlockingType mpiCall.identInfo_ = true)
    (harg : mpiCall.arguments_[mpiCall.arguments_.length - 1]? = some arg)
    (hr : arg.vars_.head? = some r) :
    ((∀ e ∈ st.visitedRequests, e.requestVariable_ ≠ r) →
      checkRequestUsage funcClassifier_ T st mpiCall =
        some { visitedRequests := st.visitedRequests ++
                 [{ requestVariable_ := r, callUsingTheRequest_ := mpiCall.callExpr_ }]
               reports := st.reports }) ∧
    ((∃ e ∈ st.visitedRequests, e.requestVariable_ = r) →
      ∃ e, st.visitedRequests.find? (fun e => e.requestVariable_ == r) = some e ∧
        e ∈ st.visitedRequests ∧ e.requestVariable_ = r ∧
        checkRequestUsage funcClassifier_ T st mpiCall =
          some { visitedRequests := st.visitedRequests
                 reports := st.reports ++
                   [Diagnostic.doubleRequestUse mpiCall.callExpr_ r
                     e.callUsingTheRequest_] }) := by
  rw [checkRequestUsage_of_nonBlocking funcClassifier_ T st mpiCall hnb
    (isWaitType_of_isNonBlockingType hnb)]
  constructor
  · intro hnone
    have hfind : st.visitedRequests.find? (fun e => e.requestVariable_ == r) = none := by
      rw [List.find?_eq_none]
      intro e he
      simpa using hnone e he
    simp [checkRequestUsage.nonBlocking, MPICall.getNumArgs, harg, hr, cont.findPred, hfind]
  · rintro ⟨e₀, he₀, hre₀⟩
    cases hfind : st.visitedRequests.find? (fun e => e.requestVariable_ == r) with
    | none =>
      rw [List.find?_eq_none] at hfind
      exact absurd (by simpa using hre₀) (hfind e₀ he₀)
    | some e =>
      refine ⟨e, rfl, List.mem_of_find?_eq_some hfind, ?_, ?_⟩
      · simpa using List.find?_some hfind
      · simp [checkRequestUsage.nonBlocking, MPICall.getNumArgs, harg, hr, cont.findPred,
          hfind]

/-- The non-blocking part on `MPI_Isend(..., &req)` and the empty set of outstanding
requests. -/
theorem checkRequestUsage_nonBlocking_witness :
    funcClassifier_.isNonBlockingType sampleIsend.identInfo_ = true ∧
    checkRequestUsage funcClassifier_ (sampleTraverseVarDecl false) {} sampleIsend =
      some { visitedRequests :=
               [{ requestVariable_ := sampleRequest,
                  callUsingTheRequest_ := sampleIsend.callExpr_ }]
             reports := [] } :=
  ⟨by decide,
    (checkRequestUsage_nonBlocking (sampleTraverseVarDecl false) {} sampleIsend
      { expr_ := { sourceText := "&req" }, vars_ := [sampleRequest] } sampleRequest
      (by decide) (by decide) (by decide)).1 (by decide)⟩

/-- C13 (evaluation of the code). `MPI_Irsend` is a non-blocking call, but the classifier
does not rate it non-blocking (MPIFunctionClassifier.cpp:107), so `checkRequestUsage` leaves
the state as it is on every `MPI_Irsend` call. On `MPI_Irsend(a, n, MPI_INT, 1, 0,
MPI_COMM_WORLD, &req)`, whose last argument references `req`, no entry is appended to the
empty set, and no double-request-use diagnostic is emitted when `req` is outstanding; the
same call spelled `MPI_Isend` appends the entry in the first case and emits the diagnostic
in the second. -/
theorem checkRequestUsage_MPI_Irsend_ignored :
    (∀ (T : VarDecl → List VarDecl) (st : RequestState) (mpiCall : MPICall),
      mpiCall.identInfo_ = Idents.get "MPI_Irsend" →
      checkRequestUsage funcClassifier_ T st mpiCall = some st) ∧
    (sampleIrsend.arguments_[sampleIrsend.arguments_.length - 1]?).bind (·.vars_.head?) =
      some sampleRequest ∧
    checkRequestUsage funcClassifier_ (sampleTraverseVarDecl false) {} sampleIrsend =
      some {} ∧
    checkRequestUsage funcClassifier_ (sampleTraverseVarDecl false) sampleRequestOutstanding
        sampleIrsend = some sampleRequestOutstanding ∧
    checkRequestUsage funcClassifier_ (sampleTraverseVarDecl false) {} sampleIsend =
      some sampleRequestOutstanding ∧
    checkRequestUsage funcClassifier_ (sampleTraverseVarDecl false) sampleRequestOutstanding
        sampleIsend =
      some { sampleRequestOutstanding with
             reports := [Diagnostic.doubleRequestUse sampleIsend.callExpr_ sampleRequest
               sampleIsend.callExpr_] } := by
  refine ⟨?_, by decide, by decide, by decide, by decide, by decide⟩
  intro T st mpiCall h
  have hnb : funcClassifier_.isNonBlockingType (Idents.get "MPI_Irsend") = false := by decide
  have hw : funcClassifier_.isWaitType (Idents.get "MPI_Irsend") = false := by decide
  simp [checkRequestUsage, h, hnb, hw]

/-- C14. `checkRequestUsage` on `MPI_Wait` whose first argument references the request
variable `r` first: when an outstanding request has variable `r`, the entries for `r` are
removed, the other entries are kept in order and no diagnostic is emitted; when none has,
the set is unchanged and one unmatched-wait diagnostic naming this call and `r` is
emitted. -/
theorem checkRequestUsage_MPI_Wait (T : VarDecl → List VarDecl) (st : RequestState)
    (mpiCall : MPICall) (arg : SingleArgVisitor) (r : VarDecl)
    (hw : funcClassifier_.isMPI_Wait mpiCall.identInfo_ = true)
    (harg : mpiCall.arguments_[0]? = some arg)
    (hr : arg.vars_.head? = some r) :
    ((∃ e ∈ st.visitedRequests, e.requestVariable_ = r) →
      checkRequestUsage funcClassifier_ T st mpiCall =
        some { visitedRequests :=
                 st.visitedRequests.filter (fun e => decide (e.requestVariable_ ≠ r))
               reports := st.reports }) ∧
    ((∀ e ∈ st.visitedRequests, e.requestVariable_ ≠ r) →
      checkRequestUsage funcClassifier_ T st mpiCall =
        some { visitedRequests := st.visitedRequests
               reports := st.reports ++ [Diagnostic.unmatchedWait mpiCall.callExpr_ r] }) := by
  have hid : mpiCall.identInfo_ = funcClassifier_.identInfo_MPI_Wait_ := by
    simpa [isMPI_Wait] using hw
  have hnb : funcClassifier_.isNonBlockingType mpiCall.identInfo_ = false := by
    rw [hid]; decide
  have hwt : funcClassifier_.isWaitType mpiCall.identInfo_ = true := by
    rw [hid]; decide
  have hvec : checkRequestUsage.requestVector funcClassifier_ T mpiCall = some [r] := by
    simp [checkRequestUsage.requestVector, hw, harg, hr]
  rw [checkRequestUsage_of_wait funcClassifier_ T st mpiCall hnb hwt, hvec]
  simp only [Option.map_some', List.foldl_cons, List.foldl_nil, checkRequestUsage.waitOn,
    cont.findPred, cont.erasePred]
  constructor
  · rintro ⟨e₀, he₀, hre₀⟩
    cases hfind : st.visitedRequests.find? (fun e => e.requestVariable_ == r) with
    | none =>
      rw [List.find?_eq_none] at hfind
      exact absurd (by simpa using hre₀) (hfind e₀ he₀)
    | some e =>
      simp only [Option.some.injEq, RequestState.mk.injEq, and_true]
      apply List.filter_congr
      intro x _
      rw [Bool.eq_iff_iff]
      simp
  · intro hnone
    have hfind : st.visitedRequests.find? (fun e => e.requestVariable_ == r) = none := by
      rw [List.find?_eq_none]
      intro e he
      simpa using hnone e he
    simp [hfind]

/-- Witness for C14: `MPI_Wait(&req, &status)` when `req` was bound by the call at site
400. -/
theorem checkRequestUsage_MPI_Wait_witness :
    funcClassifier_.isMPI_Wait sampleWait.identInfo_ = true ∧
    checkRequestUsage funcClassifier_ (sampleTraverseVarDecl false)
        { visitedRequests :=
            [{ requestVariable_ := sampleRequest, callUsingTheRequest_ := { node := 400 } }] }
        sampleWait =
      some { visitedRequests := [], reports := [] } :=
  ⟨by decide,
    ((checkRequestUsage_MPI_Wait (sampleTraverseVarDecl false)
        { visitedRequests :=
            [{ requestVariable_ := sampleRequest, callUsingTheRequest_ := { node := 400 } }] }
        sampleWait { expr_ := { sourceText := "&req" }, vars_ := [sampleRequest] }
        sampleRequest (by decide) (by decide) (by decide)).1 (by decide)).trans (by decide)⟩

/-- The request vector of `MPI_Waitall`: the first half of the variables that the traversal
of the array declaration collects. -/
theorem requestVector_waitall (T : VarDecl → List VarDecl) (mpiCall : MPICall)
    (arg : SingleArgVisitor) (arrayVarDecl : VarDecl)
    (hw : funcClassifier_.isMPI_Waitall mpiCall.identInfo_ = true)
    (harg : mpiCall.arguments_[1]? = some arg)
    (hv : arg.vars_.head? = some arrayVarDecl) :
    checkRequestUsage.requestVector funcClassifier_ T mpiCall =
      some ((T arrayVarDecl).take ((T arrayVarDecl).length / 2)) := by
  have hid : mpiCall.identInfo_ = funcClassifier_.identInfo_MPI_Waitall_ := by
    simpa [isMPI_Waitall] using hw
  have hnw : funcClassifier_.isMPI_Wait mpiCall.identInfo_ = false := by
    rw [hid]; decide
  simp [checkRequestUsage.requestVector, hw, hnw, harg, hv]

/-- C15 (evaluation of the code). `MPI_Waitall(N, reqs, statuses)` for the declaration
`MPI_Request reqs[N] = {r1, r2, r3}` with `r1`, `r2`, `r3` outstanding. When the traversal
visits the references once it collects `N, r1, r2, r3` and the vector is cut to `N, r1`;
when it visits the initializer list twice it collects seven references and the vector is
cut to `N, r1, r2`. In both cases `r3` stays outstanding without a diagnostic, and an
unmatched wait is reported for `N`, which is not a request. -/
theorem waitall_request_vector_halved :
    sampleOutstandingRequests.map (·.requestVariable_) = sampleArrayRequests ∧
    checkRequestUsage funcClassifier_ (sampleTraverseVarDecl false)
        { visitedRequests := sampleOutstandingRequests, reports := [] } sampleWaitall =
      some { visitedRequests := sampleOutstandingRequests.drop 1
             reports := [Diagnostic.unmatchedWait sampleWaitall.callExpr_ sampleArraySize] } ∧
    checkRequestUsage funcClassifier_ (sampleTraverseVarDecl true)
        { visitedRequests := sampleOutstandingRequests, reports := [] } sampleWaitall =
      some { visitedRequests := sampleOutstandingRequests.drop 2
             reports := [Diagnostic.unmatchedWait sampleWaitall.callExpr_ sampleArraySize] } := by
  decide

/-- C16 (evaluation of the code). Processing the one-call sequence
`MPI_Irsend(a, n, MPI_INT, 1, 0, MPI_COMM_WORLD, &req)` from the empty set leaves the set
empty, because `MPI_Irsend` is not of non-blocking type for the classifier; the same
sequence with `MPI_Isend` leaves `req` outstanding. -/
theorem checkRequestUsage_MPI_Irsend_not_tracked :
    funcClassifier_.isNonBlockingType sampleIrsend.identInfo_ = false ∧
    [sampleIrsend].foldlM (checkRequestUsage funcClassifier_ (sampleTraverseVarDecl false)) {} =
      some { visitedRequests := [], reports := [] } ∧
    [sampleIsend].foldlM (checkRequestUsage funcClassifier_ (sampleTraverseVarDecl false)) {} =
      some { visitedRequests :=
               [{ requestVariable_ := sampleRequest,
                  callUsingTheRequest_ := sampleIsend.callExpr_ }]
             reports := [] } := by
  decide

end Requests

/-! ## Properties of pair matching -/

section PairMatching
open MPIFunctionClassifier

/-- The value of `isSendRecvPair` past the tests on the call types, the datatype text, the
count and the tag: the rank comparison. -/
theorem isSendRecvPair_eq_compareRank (c : MPIFunctionClassifier) (s r : MPICall)
    (sendDatatype recvDatatype rankArgSend rankArgRecv : SingleArgVisitor)
    (hs : c.isSendType s.identInfo_ = true) (hr : c.isRecvType r.identInfo_ = true)
    (hds : s.arguments_[2]? = some sendDatatype) (hdr : r.arguments_[2]? = some recvDatatype)
    (htext : sendDatatype.expr_.sourceText = recvDatatype.expr_.sourceText)
    (hcount : areComponentsOfArgumentEqual s r 1 = some true)
    (htag : areComponentsOfArgumentEqual s r 4 = some true)
    (hrs : s.arguments_[3]? = some rankArgSend) (hrr : r.arguments_[3]? = some rankArgRecv) :
    isSendRecvPair c s r = some (isSendRecvPair.compareRank rankArgSend rankArgRecv) := by
  simp [isSendRecvPair, hs, hr, MPIPointToPoint.kDatatype, MPIPointToPoint.kCount,
    MPIPointToPoint.kTag, MPIPointToPoint.kRank, hds, hdr, util.sourceRangeAsStringRef, htext,
    hcount, htag, hrs, hrr]

/-- C17. `isSendRecvPair(s, r)` returns true only if `s` is send-type, `r` is recv-type, the
datatype arguments (2) have the same source text, the count (1) and tag (4) arguments are
component-equal, and the function lists of the rank arguments (3) are permutations of each
other. -/
theorem isSendRecvPair_only_if (c : MPIFunctionClassifier) (s r : MPICall)
    (h : isSendRecvPair c s r = some true) :
    c.isSendType s.identInfo_ = true ∧ c.isRecvType r.identInfo_ = true ∧
    (∃ text, argumentSourceText s 2 = some text ∧ argumentSourceText r 2 = some text) ∧
    areComponentsOfArgumentEqual s r 1 = some true ∧
    areComponentsOfArgumentEqual s r 4 = some true ∧
    ∃ rankArgSend rankArgRecv, s.arguments_[3]? = some rankArgSend ∧
      r.arguments_[3]? = some rankArgRecv ∧
      rankArgSend.functions_.Perm rankArgRecv.functions_ := by
  simp only [isSendRecvPair, MPIPointToPoint.kDatatype, MPIPointToPoint.kCount,
    MPIPointToPoint.kTag, MPIPointToPoint.kRank] at h
  cases hs : c.isSendType s.identInfo_ with
  | false => simp [hs] at h
  | true =>
  cases hr : c.isRecvType r.identInfo_ with
  | false => simp [hs, hr] at h
  | true =>
  rcases hds : s.arguments_[2]? with _ | sendDatatype
  · simp [hs, hr, hds] at h
  rcases hdr : r.arguments_[2]? with _ | recvDatatype
  · simp [hs, hr, hds, hdr] at h
  by_cases htext : util.sourceRangeAsStringRef sendDatatype.expr_ =
      util.sourceRangeAsStringRef recvDatatype.expr_
  swap
  · simp [hs, hr, hds, hdr, htext] at h
  rcases hcount : areComponentsOfArgumentEqual s r 1 with _ | _ | _
  · simp [hs, hr, hds, hdr, htext, hcount] at h
  · simp [hs, hr, hds, hdr, htext, hcount] at h
  rcases htag : areComponentsOfArgumentEqual s r 4 with _ | _ | _
  · simp [hs, hr, hds, hdr, htext, hcount, htag] at h
  · simp [hs, hr, hds, hdr, htext, hcount, htag] at h
  rcases hrs : s.arguments_[3]? with _ | rankArgSend
  · simp [hs, hr, hds, hdr, htext, hcount, htag, hrs] at h
  rcases hrr : r.arguments_[3]? with _ | rankArgRecv
  · simp [hs, hr, hds, hdr, htext, hcount, htag, hrs, hrr] at h
  simp only [hs, hr, hds, hdr, htext, hcount, htag, hrs, hrr] at h
  refine ⟨rfl, rfl, ⟨util.sourceRangeAsStringRef recvDatatype.expr_, ?_, ?_⟩, rfl, rfl,
    rankArgSend, rankArgRecv, rfl, rfl, ?_⟩
  · simp [argumentSourceText, hds, htext]
  · simp [argumentSourceText, hdr]
  · have hrank : isSendRecvPair.compareRank rankArgSend rankArgRecv = true := by
      simpa using h
    have hdyn : isSendRecvPair.dynamicRank rankArgSend rankArgRecv = true := by
      cases hd : isSendRecvPair.dynamicRank rankArgSend rankArgRecv with
      | true => rfl
      | false => simp [isSendRecvPair.compareRank, hd] at hrank
    cases hp : util.isPermutation rankArgSend.functions_ rankArgRecv.functions_ with
    | true => exact (isPermutation_iff_perm _ _).1 hp
    | false => simp [isSendRecvPair.dynamicRank, hp] at hdyn

/-- Witness for C17: `MPI_Send(a, n, MPI_INT, 1, 0, MPI_COMM_WORLD)` and
`MPI_Recv(b, n, MPI_INT, 0, 0, MPI_COMM_WORLD, &status)` are a send/recv pair. -/
theorem isSendRecvPair_only_if_witness :
    isSendRecvPair funcClassifier_ (samplePairSend (sampleRankLiteral 1 "1"))
      (samplePairRecv (sampleRankLiteral 0 "0")) = some true ∧
    funcClassifier_.isSendType (samplePairSend (sampleRankLiteral 1 "1")).identInfo_ = true ∧
    funcClassifier_.isRecvType (samplePairRecv (sampleRankLiteral 0 "0")).identInfo_ = true :=
  ⟨by decide,
    (isSendRecvPair_only_if funcClassifier_ (samplePairSend (sampleRankLiteral 1 "1"))
      (samplePairRecv (sampleRankLiteral 0 "0")) (by decide)).1,
    (isSendRecvPair_only_if funcClassifier_ (samplePairSend (sampleRankLiteral 1 "1"))
      (samplePairRecv (sampleRankLiteral 0 "0")) (by decide)).2.1⟩

/-- C18. For a send-type call and a recv-type call with equal datatype text and
component-equal count and tag, whose rank arguments are each a single integer literal (no
variable, function or binary operator), `isSendRecvPair` returns, and it returns true
exactly when the two rank literals differ. -/
theorem isSendRecvPair_literal_ranks (c : MPIFunctionClassifier) (s r : MPICall)
    (sendDatatype recvDatatype rankArgSend rankArgRecv : SingleArgVisitor) (a b : Int)
    (hs : c.isSendType s.identInfo_ = true) (hr : c.isRecvType r.identInfo_ = true)
    (hds : s.arguments_[2]? = some sendDatatype) (hdr : r.arguments_[2]? = some recvDatatype)
    (htext : sendDatatype.expr_.sourceText = recvDatatype.expr_.sourceText)
    (hcount : areComponentsOfArgumentEqual s r 1 = some true)
    (htag : areComponentsOfArgumentEqual s r 4 = some true)
    (hrs : s.arguments_[3]? = some rankArgSend) (hrr : r.arguments_[3]? = some rankArgRecv)
    (hsi : rankArgSend.intValues_ = [a]) (hsv : rankArgSend.vars_ = [])
    (hsf : rankArgSend.functions_ = []) (hso : rankArgSend.binaryOperators_ = [])
    (hri : rankArgRecv.intValues_ = [b]) (_hrv : rankArgRecv.vars_ = [])
    (hrf : rankArgRecv.functions_ = []) (hro : rankArgRecv.binaryOperators_ = []) :
    isSendRecvPair c s r = some (decide (a ≠ b)) := by
  rw [isSendRecvPair_eq_compareRank c s r _ _ _ _ hs hr hds hdr htext hcount htag hrs hrr]
  by_cases hab : a = b
  · simp [isSendRecvPair.compareRank, hsi, hso, hri, hro, hab]
  · simp [isSendRecvPair.compareRank, isSendRecvPair.dynamicRank, util.isPermutation, hsi,
      hsv, hsf, hso, hri, hrf, hro, hab]

/-- Witness for C18: the ranks 1 and 0 differ, so the sample calls are a send/recv pair. -/
theorem isSendRecvPair_literal_ranks_witness :
    funcClassifier_.isSendType (samplePairSend (sampleRankLiteral 1 "1")).identInfo_ = true ∧
    funcClassifier_.isRecvType (samplePairRecv (sampleRankLiteral 0 "0")).identInfo_ = true ∧
    isSendRecvPair funcClassifier_ (samplePairSend (sampleRankLiteral 1 "1"))
      (samplePairRecv (sampleRankLiteral 0 "0")) = some (decide ((1 : Int) ≠ 0)) :=
  ⟨by decide, by decide,
    isSendRecvPair_literal_ranks funcClassifier_ (samplePairSend (sampleRankLiteral 1 "1"))
      (samplePairRecv (sampleRankLiteral 0 "0"))
      { expr_ := { sourceText := "MPI_INT" }, vars_ := [{ decl := 3, name := "MPI_INT" }] }
      { expr_ := { sourceText := "MPI_INT" }, vars_ := [{ decl := 3, name := "MPI_INT" }] }
      (sampleRankLiteral 1 "1") (sampleRankLiteral 0 "0") 1 0
      (by decide) (by decide) rfl rfl rfl (by decide) (by decide) rfl rfl
      rfl rfl rfl rfl rfl rfl rfl rfl⟩

/-- C19 (evaluation of the code). For a send-type call and a recv-type call with equal
datatype text and component-equal count and tag, whose rank arguments each consist of the
same variable `v`, an integer literal of the same value `k` and one binary operator, `+` on
one side and `-` on the other: the test "literals must match" (MPICheckerImpl.cpp:93-94)
compares the members `integerLiterals_`, the literal nodes, where every other test reads the
values `intValues_`. So `isSendRecvPair` returns true exactly when the literal of the send
rank and the literal of the recv rank are one and the same node, and false for
`MPI_Send(..., rank + 1, ...)` against `MPI_Recv(..., rank - 1, ...)`, in which the two
literals `1` are two nodes, although both have the value 1. -/
theorem isSendRecvPair_offset_ranks_literal_nodes :
    (∀ (c : MPIFunctionClassifier) (s r : MPICall)
        (sendDatatype recvDatatype rankArgSend rankArgRecv : SingleArgVisitor)
        (v : VarDecl) (k : Int) (literalSend literalRecv : IntegerLiteral)
        (opSend opRecv : BinaryOperatorKind),
      c.isSendType s.identInfo_ = true → c.isRecvType r.identInfo_ = true →
      s.arguments_[2]? = some sendDatatype → r.arguments_[2]? = some recvDatatype →
      sendDatatype.expr_.sourceText = recvDatatype.expr_.sourceText →
      areComponentsOfArgumentEqual s r 1 = some true →
      areComponentsOfArgumentEqual s r 4 = some true →
      s.arguments_[3]? = some rankArgSend → r.arguments_[3]? = some rankArgRecv →
      rankArgSend.vars_ = [v] → rankArgSend.intValues_ = [k] →
      rankArgSend.integerLiterals_ = [literalSend] → rankArgSend.functions_ = [] →
      rankArgSend.binaryOperators_ = [opSend] →
      rankArgRecv.vars_ = [v] → rankArgRecv.intValues_ = [k] →
      rankArgRecv.integerLiterals_ = [literalRecv] → rankArgRecv.functions_ = [] →
      rankArgRecv.binaryOperators_ = [opRecv] →
      ((opSend = BinaryOperatorKind.BO_Add ∧ opRecv = BinaryOperatorKind.BO_Sub) ∨
        (opSend = BinaryOperatorKind.BO_Sub ∧ opRecv = BinaryOperatorKind.BO_Add)) →
      isSendRecvPair c s r = some (decide (literalSend = literalRecv))) ∧
    funcClassifier_.isSendType
      (samplePairSend (sampleRankOffset .BO_Add "rank + 1" 530)).identInfo_ = true ∧
    funcClassifier_.isRecvType
      (samplePairRecv (sampleRankOffset .BO_Sub "rank - 1" 531)).identInfo_ = true ∧
    argumentSourceText (samplePairSend (sampleRankOffset .BO_Add "rank + 1" 530)) 2 =
      argumentSourceText (samplePairRecv (sampleRankOffset .BO_Sub "rank - 1" 531)) 2 ∧
    areComponentsOfArgumentEqual (samplePairSend (sampleRankOffset .BO_Add "rank + 1" 530))
      (samplePairRecv (sampleRankOffset .BO_Sub "rank - 1" 531)) 1 = some true ∧
    areComponentsOfArgumentEqual (samplePairSend (sampleRankOffset .BO_Add "rank + 1" 530))
      (samplePairRecv (sampleRankOffset .BO_Sub "rank - 1" 531)) 4 = some true ∧
    (sampleRankOffset .BO_Add "rank + 1" 530).intValues_ =
      (sampleRankOffset .BO_Sub "rank - 1" 531).intValues_ ∧
    isSendRecvPair funcClassifier_ (samplePairSend (sampleRankOffset .BO_Add "rank + 1" 530))
      (samplePairRecv (sampleRankOffset .BO_Sub "rank - 1" 531)) = some false ∧
    isSendRecvPair funcClassifier_ (samplePairSend (sampleRankOffset .BO_Sub "rank - 1" 530))
      (samplePairRecv (sampleRankOffset .BO_Add "rank + 1" 531)) = some false := by
  refine ⟨?_, by decide, by decide, by decide, by decide, by decide, by decide, by decide,
    by decide⟩
  intro c s r sendDatatype recvDatatype rankArgSend rankArgRecv v k literalSend literalRecv
    opSend opRecv hs hr hds hdr htext hcount htag hrs hrr hsv hsi hsl hsf hso _ hri hrl hrf
    hro hops
  rw [isSendRecvPair_eq_compareRank c s r _ _ _ _ hs hr hds hdr htext hcount htag hrs hrr]
  by_cases hl : literalSend = literalRecv
  · rcases hops with ⟨rfl, rfl⟩ | ⟨rfl, rfl⟩ <;>
      simp [isSendRecvPair.compareRank, isSendRecvPair.dynamicRank, util.isPermutation, hsv,
        hsi, hsl, hsf, hso, hri, hrl, hrf, hro, hl]
  · have hl2 : ¬ literalRecv = literalSend := fun h => hl h.symm
    rcases hops with ⟨rfl, rfl⟩ | ⟨rfl, rfl⟩ <;>
      simp [isSendRecvPair.compareRank, isSendRecvPair.dynamicRank, util.isPermutation, hsv,
        hsi, hsl, hsf, hso, hri, hrl, hrf, hro, hl, hl2]

end PairMatching

/-! ## Properties of the unmatched-call report -/

section Unmatched
open MPIFunctionClassifier

/-- The diagnostic `checkUnmatchedCalls` emits for a point-to-point call. -/
theorem visitCall_eq (reports : List Diagnostic) (b : MPICall) :
    checkUnmatchedCalls.visitCall funcClassifier_ reports b =
      reports ++ ([b].filter (fun b => funcClassifier_.isPointToPointType b.identInfo_)).map
        (fun b =>
          if funcClassifier_.isSendType b.identInfo_ then
            Diagnostic.unmatchedCall b.callExpr_ "receive"
          else Diagnostic.unmatchedCall b.callExpr_ "send") := by
  cases hp : funcClassifier_.isPointToPointType b.identInfo_ with
  | false => simp [checkUnmatchedCalls.visitCall, hp]
  | true =>
    cases hs : funcClassifier_.isSendType b.identInfo_ with
    | true => simp [checkUnmatchedCalls.visitCall, hp, hs]
    | false =>
      have hr : funcClassifier_.isRecvType b.identInfo_ = true :=
        of_contained
          (p := fun x => funcClassifier_.isSendType x = false →
            funcClassifier_.isRecvType x = true)
          (by decide) hp hs
      simp [checkUnmatchedCalls.visitCall, hp, hs, hr]

/-- The inner loop of `checkUnmatchedCalls` over the calls of one rank case. -/
theorem foldl_visitCall_eq (calls : List MPICall) (reports : List Diagnostic) :
    calls.foldl (checkUnmatchedCalls.visitCall funcClassifier_) reports =
      reports ++ (calls.filter (fun b => funcClassifier_.isPointToPointType b.identInfo_)).map
        (fun b =>
          if funcClassifier_.isSendType b.identInfo_ then
            Diagnostic.unmatchedCall b.callExpr_ "receive"
          else Diagnostic.unmatchedCall b.callExpr_ "send") := by
  induction calls generalizing reports with
  | nil => simp
  | cons b rest ih =>
    rw [List.foldl_cons, ih, visitCall_eq]
    cases hp : funcClassifier_.isPointToPointType b.identInfo_ <;> simp [hp]

/-- C20. For every list of rank cases, `checkUnmatchedCalls` appends exactly one diagnostic
per point-to-point call, in rank-case order and then call order: "receive" is reported
missing for a send-type call and "send" for the other point-to-point calls, which are the
recv-type ones; nothing is emitted for a call that is not point-to-point. -/
theorem checkUnmatchedCalls_eq (rankCases : List MPIrankCase) (reports : List Diagnostic) :
    checkUnmatchedCalls funcClassifier_ rankCases reports =
      reports ++
        ((rankCases.flatMap (·.mpiCalls_)).filter
          (fun b => funcClassifier_.isPointToPointType b.identInfo_)).map
          (fun b =>
            if funcClassifier_.isSendType b.identInfo_ then
              Diagnostic.unmatchedCall b.callExpr_ "receive"
            else Diagnostic.unmatchedCall b.callExpr_ "send") ∧
    ∀ i : IdentPtr, (!funcClassifier_.isPointToPointType i ||
      (funcClassifier_.isSendType i != funcClassifier_.isRecvType i)) = true := by
  constructor
  · unfold checkUnmatchedCalls
    induction rankCases generalizing reports with
    | nil => simp
    | cons rankCase rest ih =>
      rw [List.foldl_cons, ih, foldl_visitCall_eq]
      simp [List.flatMap_cons]
  · intro i
    cases hp : funcClassifier_.isPointToPointType i with
    | false => rfl
    | true =>
      have hsr := of_contained
        (p := fun x => (funcClassifier_.isSendType x != funcClassifier_.isRecvType x) = true)
        (by decide) hp
      simpa using hsr

end Unmatched

/-! ## Properties of the check for collective calls -/

section CollectiveCalls

open MPIFunctionClassifier

/-- After `identifierInit` the collective bucket holds the fourteen collective operations
and `MPI_Barrier`. -/
theorem mpiCollectiveTypes_eq :
    funcClassifier_.mpiCollectiveTypes_ =
      [Idents.get "MPI_Scatter", Idents.get "MPI_Iscatter", Idents.get "MPI_Gather",
        Idents.get "MPI_Igather", Idents.get "MPI_Allgather", Idents.get "MPI_Iallgather",
        Idents.get "MPI_Bcast", Idents.get "MPI_Ibcast", Idents.get "MPI_Reduce",
        Idents.get "MPI_Ireduce", Idents.get "MPI_Allreduce", Idents.get "MPI_Iallreduce",
        Idents.get "MPI_Alltoall", Idents.get "MPI_Ialltoall", Idents.get "MPI_Barrier"] := by
  decide

/-- C21. `checkForCollectiveCall` appends exactly one collective-in-rank-branch diagnostic,
at the call site, when the identifier of the call is one of the fourteen collective
operations (blocking and non-blocking spellings) or `MPI_Barrier`, which are the
identifiers classified collective, and leaves the diagnostics as they are for every other
call; no identifier that is point-to-point, of wait type or `MPI_Comm_rank` is classified
collective. -/
theorem checkForCollectiveCall_eq (reports : List Diagnostic) (mpiCall : MPICall) :
    checkForCollectiveCall funcClassifier_ reports mpiCall =
      (if mpiCall.identInfo_ ∈
          [Idents.get "MPI_Scatter", Idents.get "MPI_Iscatter", Idents.get "MPI_Gather",
            Idents.get "MPI_Igather", Idents.get "MPI_Allgather", Idents.get "MPI_Iallgather",
            Idents.get "MPI_Bcast", Idents.get "MPI_Ibcast", Idents.get "MPI_Reduce",
            Idents.get "MPI_Ireduce", Idents.get "MPI_Allreduce", Idents.get "MPI_Iallreduce",
            Idents.get "MPI_Alltoall", Idents.get "MPI_Ialltoall", Idents.get "MPI_Barrier"]
        then reports ++ [Diagnostic.collCallInBranch mpiCall.callExpr_]
        else reports) ∧
    (∀ i : IdentPtr,
      (funcClassifier_.isCollectiveType i &&
        (funcClassifier_.isPointToPointType i || funcClassifier_.isWaitType i ||
          funcClassifier_.isMPI_Comm_rank i)) = false) ∧
    checkForCollectiveCall funcClassifier_ [] sampleBcast =
      [Diagnostic.collCallInBranch sampleBcast.callExpr_] ∧
    checkForCollectiveCall funcClassifier_ [] sampleBarrier =
      [Diagnostic.collCallInBranch sampleBarrier.callExpr_] ∧
    checkForCollectiveCall funcClassifier_ [] sampleSendOne = [] ∧
    checkForCollectiveCall funcClassifier_ [] sampleWait = [] := by
  refine ⟨?_, ?_, by decide, by decide, by decide, by decide⟩
  · have hcoll : funcClassifier_.isCollectiveType mpiCall.identInfo_ =
        decide (mpiCall.identInfo_ ∈ funcClassifier_.mpiCollectiveTypes_) := by
      simp [isCollectiveType, cont.isContained, List.contains, List.elem_eq_mem]
    rw [checkForCollectiveCall, hcoll, mpiCollectiveTypes_eq]
    simp only [decide_eq_true_eq]
  · intro i
    cases h : funcClassifier_.isCollectiveType i with
    | false => rfl
    | true =>
      have hnone := of_contained
        (p := fun x => (funcClassifier_.isPointToPointType x || funcClassifier_.isWaitType x ||
          funcClassifier_.isMPI_Comm_rank x) = false) (by decide) h
      simpa using hnone

end CollectiveCalls

/-! ## Properties of buffer type matching -/

section TypeMatching

open MPIFunctionClassifier

/-- The report step of `selectTypeMatcher` on the result of a comparison with the
spellings of a list: nothing is added when the spelling is in the list, one mismatch
otherwise. -/
theorem selectTypeMatcher_report_decide (mpiCall : MPICall) (idxPair : Nat × Nat)
    (reports : List Diagnostic) (s : String) (accepted : List String) :
    selectTypeMatcher.report mpiCall idxPair reports (decide (s ∈ accepted)) =
      if s ∈ accepted then reports
      else reports ++ [Diagnostic.typeMismatch mpiCall.callExpr_ idxPair] := by
  by_cases h : s ∈ accepted <;> simp [selectTypeMatcher.report, h]

/-- C22. For a buffer that is not a typedef and whose element kind is listed in the
matching table (`bool`, the signed and unsigned integer widths, the floating kinds and the
three complex kinds), `selectTypeMatcher` leaves the diagnostics as they are when the
datatype spelling is one of the accepted spellings of the kind, and appends exactly one
type mismatch for the call site and the index pair otherwise. -/
theorem selectTypeMatcher_builtin (typeVisitor : TypeVisitor) (mpiCall : MPICall)
    (mpiDatatypeString : String) (idxPair : Nat × Nat) (reports : List Diagnostic)
    (builtinTypeBuffer : BuiltinType) (accepted : List String)
    (htypedef : typeVisitor.isTypedefType_ = false)
    (hbuiltin : typeVisitor.builtinType_ = some builtinTypeBuffer)
    (haccepted : Spec.acceptedSpellings typeVisitor.complexType_.isSome
      builtinTypeBuffer.getKind = some accepted) :
    selectTypeMatcher typeVisitor mpiCall mpiDatatypeString idxPair reports =
      some (if mpiDatatypeString ∈ accepted then reports
        else reports ++ [Diagnostic.typeMismatch mpiCall.callExpr_ idxPair]) := by
  rw [← selectTypeMatcher_report_decide]
  obtain ⟨builtinType_, complexType_, isTypedefType_, typedefTypeName_⟩ := typeVisitor
  obtain ⟨kind⟩ := builtinTypeBuffer
  simp only at htypedef hbuiltin haccepted
  subst htypedef hbuiltin
  cases complexType_ <;> cases kind <;>
    simp [Spec.acceptedSpellings] at haccepted <;> subst haccepted <;>
    simp [selectTypeMatcher, matchBoolType, matchSignedType, matchUnsignedType,
      matchFloatType, matchComplexType, BuiltinType.isBooleanType,
      BuiltinType.isAnyCharacterType, BuiltinType.isSignedInteger,
      BuiltinType.isUnsignedIntegerType, BuiltinType.isFloatingType] <;>
    congr 1

/-- Witness for C22: a `double` buffer with the spelling `MPI_INT` at the index pair (0, 2)
yields exactly one mismatch, and so does the whole check on
`MPI_Send(&buf, 1, MPI_INT, 0, 0, MPI_COMM_WORLD)`. -/
theorem selectTypeMatcher_builtin_witness :
    selectTypeMatcher { builtinType_ := some { getKind := .Double } } sampleMismatchSend
        "MPI_INT" (0, 2) [] =
      some [Diagnostic.typeMismatch sampleMismatchSend.callExpr_ (0, 2)] ∧
    checkBufferTypeMatch funcClassifier_ (sampleGetType false) sampleMismatchSend [] =
      some [Diagnostic.typeMismatch sampleMismatchSend.callExpr_ (0, 2)] :=
  ⟨(selectTypeMatcher_builtin { builtinType_ := some { getKind := .Double } }
      sampleMismatchSend "MPI_INT" (0, 2) [] { getKind := .Double } ["MPI_DOUBLE"]
      rfl rfl rfl).trans (by decide), by decide⟩

/-- C23 (evaluation of the code). For a buffer that is not a typedef and whose kind is
one of the six character kinds that `matchCharType` lists, `selectTypeMatcher` accepts
exactly the listed spellings and reports every other spelling. Plain `char` of a target whose `char` is
unsigned (`Char_U`) is listed with `MPI_UNSIGNED_CHAR` only: the check of
`MPI_Send(text, 1, MPI_CHAR, 0, 0, MPI_COMM_WORLD)` with `char text[8]` reports a mismatch
on such a target and none on a target whose `char` is signed. -/
theorem selectTypeMatcher_plain_char_unsigned :
    (∀ (kind : BuiltinType.Kind) (accepted : List String) (mpiCall : MPICall)
        (mpiDatatypeString : String) (idxPair : Nat × Nat) (reports : List Diagnostic),
      matchCharType.accepted kind = some accepted →
      selectTypeMatcher { builtinType_ := some { getKind := kind } } mpiCall
          mpiDatatypeString idxPair reports =
        some (if mpiDatatypeString ∈ accepted then reports
          else reports ++ [Diagnostic.typeMismatch mpiCall.callExpr_ idxPair])) ∧
    matchCharType.accepted .Char_S = some ["MPI_CHAR", "MPI_SIGNED_CHAR"] ∧
    matchCharType.accepted .Char_U = some ["MPI_UNSIGNED_CHAR"] ∧
    checkBufferTypeMatch funcClassifier_ (sampleGetType true) sampleCharSend [] =
      some [Diagnostic.typeMismatch sampleCharSend.callExpr_ (0, 2)] ∧
    checkBufferTypeMatch funcClassifier_ (sampleGetType false) sampleCharSend [] = some [] := by
  refine ⟨?_, rfl, rfl, by decide, by decide⟩
  intro kind accepted mpiCall mpiDatatypeString idxPair reports haccepted
  rw [← selectTypeMatcher_report_decide]
  cases kind <;> simp [matchCharType.accepted] at haccepted <;> subst haccepted <;>
    simp [selectTypeMatcher, matchCharType, BuiltinType.isBooleanType,
      BuiltinType.isAnyCharacterType] <;>
    congr 1

/-- C24. For a buffer whose type is a typedef, the verdict of `selectTypeMatcher` is
determined by the typedef name and the datatype spelling: for the names `int8_t`, ...,
`uint64_t` nothing is added when the spelling is `MPI_INT8_T`, ..., `MPI_UINT64_T`
respectively and exactly one mismatch is appended otherwise; for every other typedef name
nothing is added. The builtin type and the complex type of the buffer are not read. -/
theorem selectTypeMatcher_typedef (typeVisitor : TypeVisitor) (mpiCall : MPICall)
    (mpiDatatypeString : String) (idxPair : Nat × Nat) (reports : List Diagnostic)
    (htypedef : typeVisitor.isTypedefType_ = true) :
    selectTypeMatcher typeVisitor mpiCall mpiDatatypeString idxPair reports =
      some
        (match Spec.exactWidthSpelling typeVisitor.typedefTypeName_ with
        | some spelling =>
          if mpiDatatypeString = spelling then reports
          else reports ++ [Diagnostic.typeMismatch mpiCall.callExpr_ idxPair]
        | none => reports) := by
  simp only [selectTypeMatcher, htypedef, if_true, matchExactWidthType,
    Spec.exactWidthSpelling, beq_iff_eq]
  congr 1
  split_ifs <;> simp_all [selectTypeMatcher.report]

/-- Witness for C24: an `int32_t` buffer whose underlying kind is `Int` is reported with
the spelling `MPI_INT`, and the whole check on
`MPI_Send(words, 1, MPI_INT, 0, 0, MPI_COMM_WORLD)` with `int32_t words[4]` reports it. -/
theorem selectTypeMatcher_typedef_witness :
    (sampleGetType false sampleWordBuffer).isTypedefType_ = true ∧
    (sampleGetType false sampleWordBuffer).builtinType_ = some { getKind := .Int } ∧
    selectTypeMatcher (sampleGetType false sampleWordBuffer) sampleWordSend "MPI_INT" (0, 2) [] =
      some [Diagnostic.typeMismatch sampleWordSend.callExpr_ (0, 2)] ∧
    checkBufferTypeMatch funcClassifier_ (sampleGetType false) sampleWordSend [] =
      some [Diagnostic.typeMismatch sampleWordSend.callExpr_ (0, 2)] :=
  ⟨by decide, by decide,
    (selectTypeMatcher_typedef (sampleGetType false sampleWordBuffer) sampleWordSend
      "MPI_INT" (0, 2) [] (by decide)).trans (by decide), by decide⟩

/-- After `identifierInit` an identifier of one of the five collective sub-families is
classified collective and not point-to-point. -/
theorem isCollectiveType_of_family (i : IdentPtr)
    (h : (funcClassifier_.isReduceType i || funcClassifier_.isScatterType i ||
      funcClassifier_.isGatherType i || funcClassifier_.isAlltoallType i ||
      funcClassifier_.isBcastType i) = true) :
    funcClassifier_.isCollectiveType i = true ∧
      funcClassifier_.isPointToPointType i = false := by
  simp only [isScatterType, isGatherType, isAlltoallType, isBcastType,
    isReduceType, Bool.or_eq_true, beq_iff_eq] at h
  rcases h with
    (((((((rfl | rfl) | rfl) | rfl)) | (rfl | rfl)) | (((rfl | rfl) | rfl) | rfl)) |
      (rfl | rfl)) | (rfl | rfl) <;> decide

/-- C25. `checkBufferTypeMatch` runs the loop body on the index pairs of the call, in
order, and the index pairs are: (0, 2) for a point-to-point call; for a reduce call (0, 3)
then (1, 3), without (0, 3) when the source text of argument 0 is `MPI_IN_PLACE`; (0, 2)
then (3, 5) for a scatter, gather or alltoall call; (0, 2) for a bcast call; none for
every other call. The MPI functions in none of these families are `MPI_Barrier`,
`MPI_Wait`, `MPI_Waitall` and `MPI_Comm_rank`. -/
theorem checkBufferTypeMatch_indexPairs (getType : VarDecl → TypeVisitor) (mpiCall : MPICall)
    (reports : List Diagnostic) :
    checkBufferTypeMatch funcClassifier_ getType mpiCall reports =
      (checkBufferTypeMatch.indexPairs funcClassifier_ mpiCall).bind
        (fun indexPairs =>
          indexPairs.foldlM (checkBufferTypeMatch.visitPair getType mpiCall) reports) ∧
    checkBufferTypeMatch.indexPairs funcClassifier_ mpiCall =
      (if funcClassifier_.isPointToPointType mpiCall.identInfo_ then some [(0, 2)]
      else if funcClassifier_.isReduceType mpiCall.identInfo_ then
        mpiCall.arguments_[0]?.map
          (fun arg =>
            if arg.expr_.sourceText = "MPI_IN_PLACE" then [(1, 3)] else [(0, 3), (1, 3)])
      else if funcClassifier_.isScatterType mpiCall.identInfo_ ||
          funcClassifier_.isGatherType mpiCall.identInfo_ ||
          funcClassifier_.isAlltoallType mpiCall.identInfo_ then some [(0, 2), (3, 5)]
      else if funcClassifier_.isBcastType mpiCall.identInfo_ then some [(0, 2)]
      else some []) ∧
    (∀ i : IdentPtr,
      (funcClassifier_.isMPIType i &&
        !(funcClassifier_.isPointToPointType i || funcClassifier_.isReduceType i ||
          funcClassifier_.isScatterType i || funcClassifier_.isGatherType i ||
          funcClassifier_.isAlltoallType i || funcClassifier_.isBcastType i)) =
        decide (i ∈ [Idents.get "MPI_Barrier", Idents.get "MPI_Wait",
          Idents.get "MPI_Waitall", Idents.get "MPI_Comm_rank"])) ∧
    checkBufferTypeMatch.indexPairs funcClassifier_ sampleReduceInPlace = some [(1, 3)] ∧
    checkBufferTypeMatch.indexPairs funcClassifier_ sampleReducePart =
      some [(0, 3), (1, 3)] := by
  refine ⟨?_, ?_, ?_, by decide, by decide⟩
  · unfold checkBufferTypeMatch
    cases checkBufferTypeMatch.indexPairs funcClassifier_ mpiCall <;> rfl
  · unfold checkBufferTypeMatch.indexPairs
    cases hp : funcClassifier_.isPointToPointType mpiCall.identInfo_ with
    | true => simp [MPIPointToPoint.kBuf, MPIPointToPoint.kDatatype]
    | false =>
      cases hf : (funcClassifier_.isReduceType mpiCall.identInfo_ ||
          funcClassifier_.isScatterType mpiCall.identInfo_ ||
          funcClassifier_.isGatherType mpiCall.identInfo_ ||
          funcClassifier_.isAlltoallType mpiCall.identInfo_ ||
          funcClassifier_.isBcastType mpiCall.identInfo_) with
      | true =>
        have hc := (isCollectiveType_of_family mpiCall.identInfo_ hf).1
        simp only [hc, if_true, Bool.false_eq_true, if_false]
        cases hr : funcClassifier_.isReduceType mpiCall.identInfo_ with
        | false => simp
        | true =>
          rcases h0 : mpiCall.arguments_[0]? with _ | arg
          · simp
          · by_cases ht : arg.expr_.sourceText = "MPI_IN_PLACE" <;>
              simp [util.sourceRangeAsStringRef, ht]
      | false =>
        simp only [Bool.or_eq_false_iff] at hf
        obtain ⟨⟨⟨⟨hr, hs⟩, hg⟩, ha⟩, hb⟩ := hf
        simp [hr, hs, hg, ha, hb]
  · intro i
    cases hm : funcClassifier_.isMPIType i with
    | false =>
      have hnot : i ∉ [Idents.get "MPI_Barrier", Idents.get "MPI_Wait",
          Idents.get "MPI_Waitall", Idents.get "MPI_Comm_rank"] := by
        intro hmem
        have hall : ∀ x ∈ [Idents.get "MPI_Barrier", Idents.get "MPI_Wait",
            Idents.get "MPI_Waitall", Idents.get "MPI_Comm_rank"],
            funcClassifier_.isMPIType x = true := by decide
        rw [hall i hmem] at hm
        cases hm
      simp [hnot]
    | true =>
      exact of_contained
        (p := fun x =>
          (true && !(funcClassifier_.isPointToPointType x || funcClassifier_.isReduceType x ||
            funcClassifier_.isScatterType x || funcClassifier_.isGatherType x ||
            funcClassifier_.isAlltoallType x || funcClassifier_.isBcastType x)) =
          decide (x ∈ [Idents.get "MPI_Barrier", Idents.get "MPI_Wait",
            Idents.get "MPI_Waitall", Idents.get "MPI_Comm_rank"]))
        (by decide) hm

/-- A loop whose body is undefined at one of the elements is undefined. -/
theorem foldlM_eq_none_of_mem {α β : Type} (f : β → α → Option β) (l : List α) (a : α)
    (hmem : a ∈ l) (hnone : ∀ b, f b a = none) (b : β) : l.foldlM f b = none := by
  induction l generalizing b with
  | nil => cases hmem
  | cons x rest ih =>
    rw [List.foldlM_cons]
    rcases List.mem_cons.mp hmem with rfl | hrest
    · simp [hnone]
    · cases hx : f b x with
      | none => rfl
      | some b2 => exact ih hrest b2

/-- C26 (evaluation of the code). The loop body of `checkBufferTypeMatch` is undefined
for an index pair whose buffer argument references no variable (`vars_.front()` of an empty vector is
read and dereferenced), and so is the check of a call with such a buffer at a checked
index, as for `MPI_Send("hello", 1, MPI_CHAR, 0, 0, MPI_COMM_WORLD)`: it does not complete
with the diagnostics unchanged. -/
theorem checkBufferTypeMatch_no_variable_undefined :
    (∀ (getType : VarDecl → TypeVisitor) (mpiCall : MPICall) (reports : List Diagnostic)
        (idxPair : Nat × Nat) (bufferArgument : SingleArgVisitor),
      mpiCall.arguments_[idxPair.1]? = some bufferArgument → bufferArgument.vars_ = [] →
      checkBufferTypeMatch.visitPair getType mpiCall reports idxPair = none) ∧
    (∀ (getType : VarDecl → TypeVisitor) (mpiCall : MPICall) (reports : List Diagnostic)
        (indexPairs : List (Nat × Nat)) (idxPair : Nat × Nat)
        (bufferArgument : SingleArgVisitor),
      checkBufferTypeMatch.indexPairs funcClassifier_ mpiCall = some indexPairs →
      idxPair ∈ indexPairs →
      mpiCall.arguments_[idxPair.1]? = some bufferArgument → bufferArgument.vars_ = [] →
      checkBufferTypeMatch funcClassifier_ getType mpiCall reports = none) ∧
    checkBufferTypeMatch.indexPairs funcClassifier_ sampleLiteralSend = some [(0, 2)] ∧
    sampleLiteralSend.arguments_[0]?.map (·.vars_) = some [] ∧
    checkBufferTypeMatch funcClassifier_ (sampleGetType false) sampleLiteralSend [] = none := by
  have hpair : ∀ (getType : VarDecl → TypeVisitor) (mpiCall : MPICall)
      (reports : List Diagnostic) (idxPair : Nat × Nat) (bufferArgument : SingleArgVisitor),
      mpiCall.arguments_[idxPair.1]? = some bufferArgument → bufferArgument.vars_ = [] →
      checkBufferTypeMatch.visitPair getType mpiCall reports idxPair = none := by
    intro getType mpiCall reports idxPair bufferArgument harg hvars
    simp [checkBufferTypeMatch.visitPair, harg, hvars]
  refine ⟨hpair, ?_, by decide, by decide, by decide⟩
  intro getType mpiCall reports indexPairs idxPair bufferArgument hpairs hmem harg hvars
  simp only [checkBufferTypeMatch, hpairs]
  exact foldlM_eq_none_of_mem _ indexPairs idxPair hmem
    (fun r => hpair getType mpiCall r idxPair bufferArgument harg hvars) reports

end TypeMatching

/-! ## Properties of the check for invalid argument types -/

section InvalidArgs

open MPIFunctionClassifier

/-- The loop over the variables appends one diagnostic per variable of invalid type. -/
theorem foldl_visitVar (getType : VarDecl → TypeVisitor) (mpiCall : MPICall) (idx : Nat)
    (vars : List VarDecl) (reports : List Diagnostic) :
    vars.foldl (checkForInvalidArgs.visitVar getType mpiCall idx) reports =
      reports ++ (vars.filter (fun var => checkForInvalidArgs.isInvalid (getType var))).map
        (fun var => Diagnostic.invalidArgumentType mpiCall.callExpr_ idx
          (SourceRange.ofVarDecl var) "Variable") := by
  induction vars generalizing reports with
  | nil => simp
  | cons var rest ih =>
    rw [List.foldl_cons, ih]
    by_cases h : checkForInvalidArgs.isInvalid (getType var) = true <;>
      simp [checkForInvalidArgs.visitVar, List.filter_cons, h]

/-- The loop over the functions appends one diagnostic per function of invalid return
type. -/
theorem foldl_visitFunction (getReturnType : FunctionDecl → TypeVisitor) (mpiCall : MPICall)
    (idx : Nat) (functions : List FunctionDecl) (reports : List Diagnostic) :
    functions.foldl (checkForInvalidArgs.visitFunction getReturnType mpiCall idx) reports =
      reports ++
        (functions.filter
          (fun function => checkForInvalidArgs.isInvalid (getReturnType function))).map
          (fun function => Diagnostic.invalidArgumentType mpiCall.callExpr_ idx
            (SourceRange.ofFunctionDecl function) "Return value from function") := by
  induction functions generalizing reports with
  | nil => simp
  | cons function rest ih =>
    rw [List.foldl_cons, ih]
    by_cases h : checkForInvalidArgs.isInvalid (getReturnType function) = true <;>
      simp [checkForInvalidArgs.visitFunction, List.filter_cons, h]

/-- The loop body of `checkForInvalidArgs` at an index the call has an argument for. -/
theorem visitIndex_eq (getType : VarDecl → TypeVisitor)
    (getReturnType : FunctionDecl → TypeVisitor) (mpiCall : MPICall)
    (reports : List Diagnostic) (idx : Nat) (arg : SingleArgVisitor)
    (harg : mpiCall.arguments_[idx]? = some arg) :
    checkForInvalidArgs.visitIndex getType getReturnType mpiCall reports idx =
      some (reports ++ Spec.diagnosticsAt getType getReturnType mpiCall idx arg) := by
  simp only [checkForInvalidArgs.visitIndex, harg, foldl_visitVar, foldl_visitFunction,
    Spec.diagnosticsAt]
  cases arg.floatingLiterals_.head? <;> simp

/-- The result of `checkForInvalidArgs` for a point-to-point call that has a count, a rank
and a tag argument. -/
theorem checkForInvalidArgs_of_pointToPoint (c : MPIFunctionClassifier)
    (getType : VarDecl → TypeVisitor) (getReturnType : FunctionDecl → TypeVisitor)
    (mpiCall : MPICall) (reports : List Diagnostic) (count rank tag : SingleArgVisitor)
    (hp : c.isPointToPointType mpiCall.identInfo_ = true)
    (hcount : mpiCall.arguments_[1]? = some count)
    (hrank : mpiCall.arguments_[3]? = some rank)
    (htag : mpiCall.arguments_[4]? = some tag) :
    checkForInvalidArgs c getType getReturnType mpiCall reports =
      some (reports ++
        (Spec.diagnosticsAt getType getReturnType mpiCall 1 count ++
          Spec.diagnosticsAt getType getReturnType mpiCall 3 rank ++
          Spec.diagnosticsAt getType getReturnType mpiCall 4 tag)) := by
  simp [checkForInvalidArgs, hp, MPIPointToPoint.kCount, MPIPointToPoint.kRank,
    MPIPointToPoint.kTag, List.foldlM_cons,
    visitIndex_eq getType getReturnType mpiCall _ 1 count hcount,
    visitIndex_eq getType getReturnType mpiCall _ 3 rank hrank,
    visitIndex_eq getType getReturnType mpiCall _ 4 tag htag]

/-- C27 (amended). For a point-to-point call with a count, a rank and a tag argument,
`checkForInvalidArgs` appends, for each of the positions 1, 3 and 4 in this order: one
"Variable" diagnostic per referenced variable whose type has no builtin type or a builtin
type that is not an integer type, one "Literal" diagnostic (for the first floating
literal) if the argument has at least one floating literal, and one "Return value from
function" diagnostic per referenced function whose return type is invalid in the same
sense; each diagnostic names the call site and the index. -/
theorem checkForInvalidArgs_pointToPoint (getType : VarDecl → TypeVisitor)
    (getReturnType : FunctionDecl → TypeVisitor) (mpiCall : MPICall)
    (reports : List Diagnostic) (count rank tag : SingleArgVisitor)
    (hp : funcClassifier_.isPointToPointType mpiCall.identInfo_ = true)
    (hcount : mpiCall.arguments_[1]? = some count)
    (hrank : mpiCall.arguments_[3]? = some rank)
    (htag : mpiCall.arguments_[4]? = some tag) :
    checkForInvalidArgs funcClassifier_ getType getReturnType mpiCall reports =
      some (reports ++
        ([(1, count), (3, rank), (4, tag)].flatMap fun (idx, arg) =>
          (arg.vars_.filter (fun var => checkForInvalidArgs.isInvalid (getType var))).map
              (fun var => Diagnostic.invalidArgumentType mpiCall.callExpr_ idx
                (SourceRange.ofVarDecl var) "Variable") ++
            (arg.floatingLiterals_.head?.toList.map
              (fun front => Diagnostic.invalidArgumentType mpiCall.callExpr_ idx
                (SourceRange.ofFloatingLiteral front) "Literal")) ++
            (arg.functions_.filter
              (fun function => checkForInvalidArgs.isInvalid (getReturnType function))).map
              (fun function => Diagnostic.invalidArgumentType mpiCall.callExpr_ idx
                (SourceRange.ofFunctionDecl function) "Return value from function"))) := by
  rw [checkForInvalidArgs_of_pointToPoint funcClassifier_ getType getReturnType mpiCall reports
    count rank tag hp hcount hrank htag]
  simp [Spec.diagnosticsAt, List.flatMap_cons]

/-- Witness for C27 (amended): `MPI_Send(a, 1, MPI_INT, 0, ratio * scale() + n,
MPI_COMM_WORLD)` with `double ratio` and `double scale(void)` yields one "Variable" and one
"Return value from function" diagnostic at index 4. -/
theorem checkForInvalidArgs_pointToPoint_witness :
    checkForInvalidArgs funcClassifier_ (sampleGetType false) sampleGetReturnType
        sampleMixedTagSend [] =
      some [Diagnostic.invalidArgumentType sampleMixedTagSend.callExpr_ 4
          (SourceRange.ofVarDecl sampleFloatingVariable) "Variable",
        Diagnostic.invalidArgumentType sampleMixedTagSend.callExpr_ 4
          (SourceRange.ofFunctionDecl sampleFloatingFunction) "Return value from function"] :=
  (checkForInvalidArgs_pointToPoint (sampleGetType false) sampleGetReturnType
    sampleMixedTagSend []
    { expr_ := { sourceText := "1" }, integerLiterals_ := [{ node := 6061 }], intValues_ := [1] }
    { expr_ := { sourceText := "0" }, integerLiterals_ := [{ node := 6063 }], intValues_ := [0] }
    { expr_ := { sourceText := "ratio * scale() + n" }, binaryOperators_ := [.BO_Add, .BO_Mul],
      vars_ := [sampleFloatingVariable, { decl := 2, name := "n" }],
      functions_ := [sampleFloatingFunction] }
    (by decide) (by decide) (by decide) (by decide)).trans (by decide)

/-- Counterexample to C27 as stated: the tag `1.5 + 2.5` of
`MPI_Send(a, 1, MPI_INT, 0, 1.5 + 2.5, MPI_COMM_WORLD)` has two floating literals, and
`checkForInvalidArgs` emits one "Literal" diagnostic, for the first of them. -/
theorem two_floating_literals_one_diagnostic :
    sampleTwoFloatTagSend.arguments_[4]?.map (·.floatingLiterals_) =
      some [{ node := 701 }, { node := 702 }] ∧
    checkForInvalidArgs funcClassifier_ (sampleGetType false) sampleGetReturnType
        sampleTwoFloatTagSend [] =
      some [Diagnostic.invalidArgumentType sampleTwoFloatTagSend.callExpr_ 4
        (SourceRange.ofFloatingLiteral { node := 701 }) "Literal"] := by
  decide

/-- C28. `checkForInvalidArgs` leaves the diagnostics as they are for a call that is not
point-to-point; for two point-to-point calls at the same call site that agree on the
arguments at the positions 1, 3 and 4 it gives the same result, whatever the other
arguments are; and for a point-to-point call whose count, rank and tag reference only
variables and functions of valid type, with no floating literal in the count and the rank
and the single floating literal `literal` in the tag, it appends exactly one diagnostic,
with index 4 and kind "Literal". The call `MPI_Send(a, 1, MPI_INT, 0, 3.14,
MPI_COMM_WORLD)` is a case of the last. -/
theorem checkForInvalidArgs_scope (c : MPIFunctionClassifier) (getType : VarDecl → TypeVisitor)
    (getReturnType : FunctionDecl → TypeVisitor) (reports : List Diagnostic) :
    (∀ mpiCall : MPICall, c.isPointToPointType mpiCall.identInfo_ = false →
      checkForInvalidArgs c getType getReturnType mpiCall reports = some reports) ∧
    (∀ x y : MPICall, c.isPointToPointType x.identInfo_ = true →
      c.isPointToPointType y.identInfo_ = true → x.callExpr_ = y.callExpr_ →
      x.arguments_[1]? = y.arguments_[1]? → x.arguments_[3]? = y.arguments_[3]? →
      x.arguments_[4]? = y.arguments_[4]? →
      checkForInvalidArgs c getType getReturnType x reports =
        checkForInvalidArgs c getType getReturnType y reports) ∧
    (∀ (mpiCall : MPICall) (count rank tag : SingleArgVisitor) (literal : FloatingLiteral),
      c.isPointToPointType mpiCall.identInfo_ = true →
      mpiCall.arguments_[1]? = some count → mpiCall.arguments_[3]? = some rank →
      mpiCall.arguments_[4]? = some tag →
      (∀ arg ∈ [count, rank, tag],
        (∀ var ∈ arg.vars_, checkForInvalidArgs.isInvalid (getType var) = false) ∧
        (∀ function ∈ arg.functions_,
          checkForInvalidArgs.isInvalid (getReturnType function) = false)) →
      count.floatingLiterals_ = [] → rank.floatingLiterals_ = [] →
      tag.floatingLiterals_ = [literal] →
      checkForInvalidArgs c getType getReturnType mpiCall reports =
        some (reports ++ [Diagnostic.invalidArgumentType mpiCall.callExpr_ 4
          (SourceRange.ofFloatingLiteral literal) "Literal"])) ∧
    checkForInvalidArgs funcClassifier_ (sampleGetType false) sampleGetReturnType
        sampleFloatTagSend [] =
      some [Diagnostic.invalidArgumentType sampleFloatTagSend.callExpr_ 4
        (SourceRange.ofFloatingLiteral { node := 700 }) "Literal"] := by
  refine ⟨?_, ?_, ?_, by decide⟩
  · intro mpiCall hp
    simp [checkForInvalidArgs, hp]
  · intro x y hx hy hsite h1 h3 h4
    have hidx : ∀ (r : List Diagnostic) (idx : Nat), x.arguments_[idx]? = y.arguments_[idx]? →
        checkForInvalidArgs.visitIndex getType getReturnType x r idx =
          checkForInvalidArgs.visitIndex getType getReturnType y r idx := by
      intro r idx h
      rcases hyarg : y.arguments_[idx]? with _ | arg
      · simp [checkForInvalidArgs.visitIndex, h, hyarg]
      · rw [visitIndex_eq getType getReturnType x r idx arg (h.trans hyarg),
          visitIndex_eq getType getReturnType y r idx arg hyarg]
        simp [Spec.diagnosticsAt, hsite]
    simp only [checkForInvalidArgs, hx, hy, if_true, MPIPointToPoint.kCount,
      MPIPointToPoint.kRank, MPIPointToPoint.kTag, List.foldlM_cons, List.foldlM_nil,
      fun r => hidx r 1 h1, fun r => hidx r 3 h3, fun r => hidx r 4 h4]
  · intro mpiCall count rank tag literal hp hcount hrank htag hvalid hc hr ht
    rw [checkForInvalidArgs_of_pointToPoint c getType getReturnType mpiCall reports
      count rank tag hp hcount hrank htag]
    have hfilter : ∀ arg ∈ [count, rank, tag],
        arg.vars_.filter (fun var => checkForInvalidArgs.isInvalid (getType var)) = [] ∧
        arg.functions_.filter
          (fun function => checkForInvalidArgs.isInvalid (getReturnType function)) = [] := by
      intro arg harg
      obtain ⟨hv, hf⟩ := hvalid arg harg
      constructor
      · rw [List.filter_eq_nil_iff]
        intro var hvar
        simp [hv var hvar]
      · rw [List.filter_eq_nil_iff]
        intro function hfunction
        simp [hf function hfunction]
    obtain ⟨hcv, hcf⟩ := hfilter count (by simp)
    obtain ⟨hrv, hrf⟩ := hfilter rank (by simp)
    obtain ⟨htv, htf⟩ := hfilter tag (by simp)
    simp [Spec.diagnosticsAt, hcv, hcf, hrv, hrf, htv, htf, hc, hr, ht]

end InvalidArgs

/-! ## Properties of the rank-case builder -/

section RankCases

open TranslationUnitVisitor

/-- The loop of `VisitIfStmt` on a chain: it ends at the statement after the last arm,
with the conditions of the arms appended to the unmatched conditions and one rank case per
arm appended to the rank cases. -/
theorem loop_ifChain (c : MPIFunctionClassifier) (mpiCallsIn : Stmt → List MPICall)
    (arms : List IfArm) (last : Stmt) (hlast : last.isIfStmt = false)
    (unmatched : List ConditionVisitor) (self : TranslationUnitVisitor) :
    (VisitIfStmt.loop c mpiCallsIn (ifChain arms last) unmatched self).1 = last ∧
    (VisitIfStmt.loop c mpiCallsIn (ifChain arms last) unmatched self).2.1 =
      unmatched ++ arms.map (·.getCond) ∧
    (VisitIfStmt.loop c mpiCallsIn (ifChain arms last) unmatched self).2.2.visitedRankCases =
      self.visitedRankCases ++ armCases mpiCallsIn unmatched arms := by
  induction arms generalizing unmatched self with
  | nil =>
    cases last with
    | null => simp [ifChain, VisitIfStmt.loop, armCases]
    | IfStmt node getCond getThen getElse => simp [Stmt.isIfStmt] at hlast
    | other node => simp [ifChain, VisitIfStmt.loop, armCases]
  | cons arm rest ih =>
    simp only [ifChain, VisitIfStmt.loop, armCases, List.map_cons]
    obtain ⟨h1, h2, h3⟩ := ih (unmatched ++ [arm.getCond])
      { visitedIfStmts_ := self.visitedIfStmts_ ++
          [Stmt.IfStmt arm.node arm.getCond arm.getThen (ifChain rest last)]
        visitedRankCases := self.visitedRankCases ++
          [{ mpiCalls_ := mpiCallsIn arm.getThen, matchedCondition_ := some arm.getCond,
             unmatchedConditions_ := unmatched }]
        reports := checkForCollectiveCalls c self.reports
          { mpiCalls_ := mpiCallsIn arm.getThen, matchedCondition_ := some arm.getCond,
            unmatchedConditions_ := unmatched } }
    refine ⟨h1, ?_, ?_⟩
    · rw [h2]; simp
    · rw [h3]; simp

/-- The rank cases that `VisitIfStmt` appends for a chain whose head is a rank branch that
has not been expanded before. -/
theorem VisitIfStmt_ifChain (c : MPIFunctionClassifier) (visitedRankVariables : List VarDecl)
    (mpiCallsIn : Stmt → List MPICall) (self : TranslationUnitVisitor) (arm : IfArm)
    (arms : List IfArm) (last : Stmt) (hlast : last.isIfStmt = false)
    (hrank : isRankBranch visitedRankVariables arm.getCond = true)
    (hnew : ifChain (arm :: arms) last ∉ self.visitedIfStmts_) :
    (VisitIfStmt c visitedRankVariables mpiCallsIn (ifChain (arm :: arms) last)
        self).visitedRankCases =
      self.visitedRankCases ++ (armCases mpiCallsIn [] (arm :: arms) ++
        elseCase mpiCallsIn (arm :: arms) last) := by
  obtain ⟨h1, h2, h3⟩ := loop_ifChain c mpiCallsIn (arm :: arms) last hlast [] self
  have hcont : cont.isContained self.visitedIfStmts_ (ifChain (arm :: arms) last) = false := by
    simpa [cont.isContained, List.contains, List.elem_eq_mem] using hnew
  have hcont2 : cont.isContained self.visitedIfStmts_
      (Stmt.IfStmt arm.node arm.getCond arm.getThen (ifChain arms last)) = false := hcont
  rcases hloop : VisitIfStmt.loop c mpiCallsIn (ifChain (arm :: arms) last) [] self with
    ⟨stmt, unmatchedConditions, self2⟩
  rw [hloop] at h1 h2 h3
  simp only at h1 h2 h3
  have hloop2 : VisitIfStmt.loop c mpiCallsIn
      (Stmt.IfStmt arm.node arm.getCond arm.getThen (ifChain arms last)) [] self =
      (last, unmatchedConditions, self2) := by
    rw [h1] at hloop
    exact hloop
  clear h1
  cases last with
  | null =>
    simp [VisitIfStmt, ifChain, hrank, hcont2, hloop2, h3, elseCase]
  | IfStmt node getCond getThen getElse => simp [Stmt.isIfStmt] at hlast
  | other node =>
    simp [VisitIfStmt, ifChain, hrank, hcont2, hloop2, h3, h2, elseCase]

/-- The i-th rank case of the arms of a chain has the condition of the i-th arm as its own
and, as unmatched conditions, the given ones followed by the conditions of the arms
before the i-th. -/
theorem armCases_getElem (mpiCallsIn : Stmt → List MPICall) (arms : List IfArm)
    (unmatched : List ConditionVisitor) (i : Nat) :
    (armCases mpiCallsIn unmatched arms)[i]? =
      arms[i]?.map (fun arm =>
        { mpiCalls_ := mpiCallsIn arm.getThen, matchedCondition_ := some arm.getCond,
          unmatchedConditions_ := unmatched ++ (arms.take i).map (·.getCond) }) := by
  induction arms generalizing unmatched i with
  | nil => simp [armCases]
  | cons arm rest ih =>
    cases i with
    | zero => simp [armCases]
    | succ i => simp [armCases, ih, List.take_succ_cons]

/-- One rank case per arm. -/
theorem armCases_length (mpiCallsIn : Stmt → List MPICall) (arms : List IfArm)
    (unmatched : List ConditionVisitor) :
    (armCases mpiCallsIn unmatched arms).length = arms.length := by
  induction arms generalizing unmatched with
  | nil => simp [armCases]
  | cons arm rest ih => simp [armCases, ih]

/-- C29. For a chain with the arms `arm :: arms` (conditions c_1, ..., c_k) that ends in
`last` (the final else, or null), whose head condition references a rank variable and whose
head has not been expanded before, `VisitIfStmt` appends to the rank cases, in source
order, one rank case per arm and then, when there is a final else, one for the else: k or
k + 1 rank cases. The i-th has the calls of the i-th then-statement, own condition c_i and
unmatched conditions c_1, ..., c_(i-1); the one of the else has a null own condition and
unmatched conditions c_1, ..., c_k. For an if statement whose condition references no rank
variable the state is left as it is. -/
theorem VisitIfStmt_rank_cases (visitedRankVariables : List VarDecl)
    (mpiCallsIn : Stmt → List MPICall) (self : TranslationUnitVisitor) (arm : IfArm)
    (arms : List IfArm) (last : Stmt) (hlast : last.isIfStmt = false)
    (hrank : ∃ varDecl ∈ arm.getCond.vars_, varDecl ∈ visitedRankVariables)
    (hnew : ifChain (arm :: arms) last ∉ self.visitedIfStmts_) :
    (VisitIfStmt funcClassifier_ visitedRankVariables mpiCallsIn (ifChain (arm :: arms) last)
        self).visitedRankCases =
      self.visitedRankCases ++ (armCases mpiCallsIn [] (arm :: arms) ++
        (if last = Stmt.null then []
          else [{ mpiCalls_ := mpiCallsIn last, matchedCondition_ := none,
                  unmatchedConditions_ := (arm :: arms).map (·.getCond) }])) ∧
    (armCases mpiCallsIn [] (arm :: arms)).length = (arm :: arms).length ∧
    (∀ i : Nat, (armCases mpiCallsIn [] (arm :: arms))[i]? =
      (arm :: arms)[i]?.map (fun ithArm =>
        { mpiCalls_ := mpiCallsIn ithArm.getThen, matchedCondition_ := some ithArm.getCond,
          unmatchedConditions_ := ((arm :: arms).take i).map (·.getCond) })) ∧
    (∀ (node : Nat) (getCond : ConditionVisitor) (getThen getElse : Stmt),
      (¬ ∃ varDecl ∈ getCond.vars_, varDecl ∈ visitedRankVariables) →
      VisitIfStmt funcClassifier_ visitedRankVariables mpiCallsIn
        (Stmt.IfStmt node getCond getThen getElse) self = self) := by
  refine ⟨?_, armCases_length _ _ _, ?_, ?_⟩
  · have hr : isRankBranch visitedRankVariables arm.getCond = true := by
      simpa [isRankBranch, cont.isContained] using hrank
    rw [VisitIfStmt_ifChain funcClassifier_ visitedRankVariables mpiCallsIn self arm arms last
      hlast hr hnew]
    cases last <;> simp [elseCase]
  · intro i
    rw [armCases_getElem]
    simp
  · intro node getCond getThen getElse hno
    have hr : isRankBranch visitedRankVariables getCond = false := by
      rw [Bool.eq_false_iff]
      intro h
      exact hno (by simpa [isRankBranch, cont.isContained] using h)
    simp [VisitIfStmt, hr]

/-- Witness for C29: the chain `if (r == 0) S1 else if (r == 1) S2 else S3` with the rank
variable `r`, visited in the initial state, yields three rank cases. -/
theorem VisitIfStmt_rank_cases_witness :
    (VisitIfStmt funcClassifier_ [sampleRankVariable] sampleMpiCallsIn
        (ifChain sampleArms (Stmt.other 804)) {}).visitedRankCases =
      [{ mpiCalls_ := [sampleBcast],
         matchedCondition_ := some (sampleRankCondition "r == 0"),
         unmatchedConditions_ := [] },
       { mpiCalls_ := [],
         matchedCondition_ := some (sampleRankCondition "r == 1"),
         unmatchedConditions_ := [sampleRankCondition "r == 0"] },
       { mpiCalls_ := [],
         matchedCondition_ := none,
         unmatchedConditions_ := [sampleRankCondition "r == 0", sampleRankCondition "r == 1"] }] :=
  (VisitIfStmt_rank_cases [sampleRankVariable] sampleMpiCallsIn {}
    { node := 800, getCond := sampleRankCondition "r == 0", getThen := Stmt.other 801 }
    [{ node := 802, getCond := sampleRankCondition "r == 1", getThen := Stmt.other 803 }]
    (Stmt.other 804) rfl ⟨sampleRankVariable, by decide, by decide⟩
    (by simp)).1.trans (by decide)

/-- Every statement is a chain of if statements that ends in a statement that is not an
if statement. -/
theorem exists_ifChain (stmt : Stmt) :
    ∃ (arms : List IfArm) (last : Stmt), last.isIfStmt = false ∧ stmt = ifChain arms last := by
  induction stmt with
  | null => exact ⟨[], Stmt.null, rfl, rfl⟩
  | IfStmt node getCond getThen getElse _ ih =>
    obtain ⟨arms, last, hlast, h⟩ := ih
    exact ⟨{ node := node, getCond := getCond, getThen := getThen } :: arms, last, hlast,
      by simp [ifChain, h]⟩
  | other node => exact ⟨[], Stmt.other node, rfl, rfl⟩

/-- The unmatched conditions of the rank cases of the arms of a chain contain the
conditions of the arms before them. -/
theorem unmatched_mem_armCases (mpiCallsIn : Stmt → List MPICall) (arms : List IfArm)
    (unmatched : List ConditionVisitor) (condition : ConditionVisitor)
    (hcondition : condition ∈ unmatched) :
    ∀ rankCase ∈ armCases mpiCallsIn unmatched arms,
      condition ∈ rankCase.unmatchedConditions_ := by
  induction arms generalizing unmatched with
  | nil => simp [armCases]
  | cons arm rest ih =>
    intro rankCase hmem
    simp only [armCases, List.mem_cons] at hmem
    rcases hmem with rfl | hmem
    · exact hcondition
    · exact ih (unmatched ++ [arm.getCond]) (by simp [hcondition]) rankCase hmem

/-- C30. The rank cases after `VisitIfStmt` are the rank cases before it followed by the
ones the call produces, and every rank case it produces has conditions that refer to a
rank variable: its own condition, or one of its unmatched conditions, references a
variable of the rank-variable set. -/
theorem VisitIfStmt_cases_refer_to_rank (visitedRankVariables : List VarDecl)
    (mpiCallsIn : Stmt → List MPICall) (ifStmt : Stmt) (self : TranslationUnitVisitor) :
    ∃ produced : List MPIRankCase,
      (VisitIfStmt funcClassifier_ visitedRankVariables mpiCallsIn ifStmt
        self).visitedRankCases = self.visitedRankCases ++ produced ∧
      ∀ rankCase ∈ produced,
        (∃ condition, rankCase.matchedCondition_ = some condition ∧
          ∃ varDecl ∈ condition.vars_, varDecl ∈ visitedRankVariables) ∨
        (∃ condition ∈ rankCase.unmatchedConditions_,
          ∃ varDecl ∈ condition.vars_, varDecl ∈ visitedRankVariables) := by
  cases ifStmt with
  | null => exact ⟨[], by simp [VisitIfStmt], by simp⟩
  | other node => exact ⟨[], by simp [VisitIfStmt], by simp⟩
  | IfStmt node getCond getThen getElse =>
    by_cases hr : isRankBranch visitedRankVariables getCond = true
    swap
    · exact ⟨[], by simp [VisitIfStmt, hr], by simp⟩
    by_cases hv : Stmt.IfStmt node getCond getThen getElse ∈ self.visitedIfStmts_
    · exact ⟨[], by simp [VisitIfStmt, hr, cont.isContained, hv], by simp⟩
    obtain ⟨arms, last, hlast, hchain⟩ := exists_ifChain getElse
    have hrank : ∃ varDecl ∈ getCond.vars_, varDecl ∈ visitedRankVariables := by
      simpa [isRankBranch, cont.isContained] using hr
    have heq : Stmt.IfStmt node getCond getThen getElse =
        ifChain ({ node := node, getCond := getCond, getThen := getThen } :: arms) last := by
      simp [ifChain, hchain]
    rw [heq] at hv ⊢
    refine ⟨_, VisitIfStmt_ifChain funcClassifier_ visitedRankVariables mpiCallsIn self
      { node := node, getCond := getCond, getThen := getThen } arms last hlast hr hv, ?_⟩
    intro rankCase hmem
    simp only [armCases, List.mem_append, List.mem_cons] at hmem
    rcases hmem with (rfl | hmem) | hmem
    · exact Or.inl ⟨getCond, rfl, hrank⟩
    · exact Or.inr ⟨getCond,
        unmatched_mem_armCases mpiCallsIn arms ([] ++ [getCond]) getCond (by simp)
          rankCase hmem, hrank⟩
    · refine Or.inr ⟨getCond, ?_, hrank⟩
      cases last <;> simp [elseCase] at hmem <;> subst hmem <;> simp

end RankCases

/-! ## Properties of the call ids -/

section CallIds

/-- The ids of the records created one after the other while the counter does not wrap are
the successive counter values. -/
theorem createAll_ids (w : Nat) (calls : List (CallExpr × IdentPtr × List SingleArgVisitor))
    (id : Nat) (hwrap : id + calls.length ≤ 2 ^ w) :
    ((MPICall.createAll w id calls).1.map (·.id_)) = List.range' id calls.length := by
  induction calls generalizing id with
  | nil => rfl
  | cons call rest ih =>
    obtain ⟨callExpr, identInfo, arguments⟩ := call
    simp only [List.length_cons] at hwrap
    by_cases hrest : rest = []
    · subst hrest
      simp [MPICall.createAll, MPICall.create]
    · have hpos : 0 < rest.length := List.length_pos.2 hrest
      have hlt : id + 1 < 2 ^ w := by omega
      have hmod : (id + 1) % 2 ^ w = id + 1 := Nat.mod_eq_of_lt hlt
      simp only [MPICall.createAll, MPICall.create, hmod, List.map_cons, List.length_cons,
        List.range'_succ]
      rw [ih (id + 1) (by omega)]

/-- C31. The records created one after the other, starting with the counter value `id`,
get the successive counter values as ids as long as the counter of `w` bits does not wrap
during these creations: the id of a later record is strictly greater than the id of an
earlier one, and no two of the records share an id. -/
theorem createAll_ids_increasing (w : Nat)
    (calls : List (CallExpr × IdentPtr × List SingleArgVisitor)) (id : Nat)
    (hwrap : id + calls.length ≤ 2 ^ w) :
    ((MPICall.createAll w id calls).1.map (·.id_)) = List.range' id calls.length ∧
    ((MPICall.createAll w id calls).1.map (·.id_)).Pairwise (· < ·) ∧
    ((MPICall.createAll w id calls).1.map (·.id_)).Nodup := by
  have h := createAll_ids w calls id hwrap
  refine ⟨h, ?_, ?_⟩
  · rw [h]
    exact List.pairwise_lt_range' id calls.length
  · rw [h]
    exact List.nodup_range' id calls.length

/-- Witness for C31: three records created from the initial counter value 0 of a 64-bit
counter get the ids 0, 1, 2; when the counter wraps, the later id is not the greater one:
from the counter value 2^64 - 1 two records get the ids 2^64 - 1 and 0. -/
theorem createAll_ids_increasing_witness :
    ((MPICall.createAll 64 0
        [({ node := 100 }, Idents.get "MPI_Send", sampleSendArguments),
         ({ node := 101 }, Idents.get "MPI_Send", sampleSendArguments),
         ({ node := 102 }, Idents.get "MPI_Barrier", [])]).1.map (·.id_)) = [0, 1, 2] ∧
    ((MPICall.createAll 64 (2 ^ 64 - 1)
        [({ node := 100 }, Idents.get "MPI_Send", sampleSendArguments),
         ({ node := 101 }, Idents.get "MPI_Send", sampleSendArguments)]).1.map (·.id_)) =
      [2 ^ 64 - 1, 0] :=
  ⟨(createAll_ids_increasing 64
      [({ node := 100 }, Idents.get "MPI_Send", sampleSendArguments),
       ({ node := 101 }, Idents.get "MPI_Send", sampleSendArguments),
       ({ node := 102 }, Idents.get "MPI_Barrier", [])] 0 (by decide)).1.trans (by decide),
    by decide⟩

end CallIds

/-! ## Properties of the diagnostics of the redundancy check -/

section RedundancyReports
open checkForRedundantCall MPIFunctionClassifier

/-- The scan, when it returns: either every iteration ends in a `continue`, or the scan
stops at the first call whose iteration reaches the report. -/
theorem scan_split (c : MPIFunctionClassifier) (X : MPICall) (comps strs : List Nat)
    (L : List MPICall) (r : Option MPICall) (h : scan c X comps strs L = some r) :
    (r = none ∧ ∀ y ∈ L, isRedundantWith c X y comps strs = some false) ∨
    ∃ pre Y post, L = pre ++ Y :: post ∧ r = some Y ∧
      (∀ y ∈ pre, isRedundantWith c X y comps strs = some false) ∧
      isRedundantWith c X Y comps strs = some true := by
  induction L with
  | nil =>
    simp only [scan, Option.some.injEq] at h
    exact Or.inl ⟨h.symm, by simp⟩
  | cons y rest ih =>
    rw [scan] at h
    cases hv : isRedundantWith c X y comps strs with
    | none => simp [hv] at h
    | some b =>
      cases b with
      | true =>
        simp only [hv, Option.some.injEq] at h
        exact Or.inr ⟨[], y, rest, rfl, h.symm, by simp, hv⟩
      | false =>
        simp only [hv] at h
        rcases ih h with ⟨hr, hall⟩ | ⟨pre, Y, post, hL, hr, hpre, hY⟩
        · refine Or.inl ⟨hr, ?_⟩
          intro z hz
          rcases List.mem_cons.1 hz with rfl | hz
          · exact hv
          · exact hall z hz
        · refine Or.inr ⟨y :: pre, Y, post, by simp [hL], hr, ?_, hY⟩
          intro z hz
          rcases List.mem_cons.1 hz with rfl | hz
          · exact hv
          · exact hpre z hz

/-- One call of `checkForRedundantCall` on the call `X` at position `k`, when it returns:
either the state is unchanged and `X` is judged not redundant with every unmarked call, or
`X` is marked and one diagnostic is appended that pairs `X` with the first unmarked
recorded call it is judged redundant with. -/
theorem checkForRedundantCall_split (c : MPIFunctionClassifier) (L : List MPICall)
    (R : List Diagnostic) (k : Nat) (X : MPICall) (hX : L[k]? = some X) (st : CheckerState)
    (h : checkForRedundantCall c ⟨L, R⟩ k = some st) :
    (st = ⟨L, R⟩ ∧ ∀ y ∈ L, y.isMarked_ = false → judgedRedundant c X y = some false) ∨
    ∃ pre Y post, L = pre ++ Y :: post ∧ Y.isMarked_ = false ∧
      judgedRedundant c X Y = some true ∧
      (∀ y ∈ pre, y.isMarked_ = false → judgedRedundant c X y = some false) ∧
      st = ⟨L.set k { X with isMarked_ := true }, R ++ [redundancyReport c X Y]⟩ := by
  cases hs : scan c X (indicesToCheck c X).1 (indicesToCheck c X).2 L with
  | none => simp [checkForRedundantCall, hX, hs] at h
  | some r =>
    rcases scan_split c X _ _ L r hs with ⟨hr, hall⟩ | ⟨pre, Y, post, hL, hr, hpre, hY⟩
    · subst hr
      simp only [checkForRedundantCall, hX, hs, Option.some.injEq] at h
      refine Or.inl ⟨h.symm, ?_⟩
      intro y hy hm
      rw [← isRedundantWith_of_unmarked c X y hm]
      exact hall y hy
    · subst hr
      simp only [checkForRedundantCall, hX, hs, Option.some.injEq] at h
      have hm : Y.isMarked_ = false := by
        cases hm : Y.isMarked_ with
        | false => rfl
        | true =>
          rw [isRedundantWith_marked c X Y _ _ hm] at hY
          simp at hY
      refine Or.inr ⟨pre, Y, post, hL, hm, ?_, ?_, ?_⟩
      · rw [← isRedundantWith_of_unmarked c X Y hm]
        exact hY
      · intro y hy hmy
        rw [← isRedundantWith_of_unmarked c X y hmy]
        exact hpre y hy
      · rw [← h]
        rfl

/-- The first element at which a predicate holds is what `find?` returns. -/
theorem find?_eq_some_of_getElem? {α : Type} (p : α → Bool) (l : List α) (m : Nat) (y : α)
    (hy : l[m]? = some y) (hp : p y = true)
    (hnot : ∀ q z, q < m → l[q]? = some z → p z = false) : l.find? p = some y := by
  induction l generalizing m with
  | nil => simp at hy
  | cons a t ih =>
    cases m with
    | zero =>
      simp only [List.getElem?_cons_zero, Option.some.injEq] at hy
      subst hy
      simp [List.find?_cons, hp]
    | succ m =>
      have ha : p a = false := hnot 0 a (by omega) (by simp)
      simp only [List.find?_cons, ha]
      apply ih m (by simpa using hy)
      intro q z hq hz
      exact hnot (q + 1) z (by omega) (by simpa using hz)

/-- The diagnostics of the positions of a list are the diagnostics of the list. -/
theorem successorReports_eq_flatMap (c : MPIFunctionClassifier) (cs : List MPICall) :
    successorReports c cs = (List.range cs.length).flatMap (successorReportAt c cs) := by
  induction cs with
  | nil => rfl
  | cons x later ih =>
    have hshift : ∀ p, successorReportAt c (x :: later) (p + 1) = successorReportAt c later p := by
      intro p
      simp [successorReportAt]
    rw [List.length_cons, List.range_succ_eq_map, List.flatMap_cons, List.flatMap_map,
      successorReports, ih]
    congr 1
    · simp [successorReportAt]
    · apply List.flatMap_congr
      intro p _
      exact (hshift p).symm

/-- The state of the checking loop of `checkForRedundantCalls` after the first `k` recorded
calls, when the loop returns, for a verdict that is symmetric: the calls from position `k`
on are unmarked, a call before position `k` that is still unmarked is judged not redundant
with every later call, and the diagnostics emitted so far are the ones of the first `k`
positions. -/
theorem foldlM_checkForRedundantCall_reports (c : MPIFunctionClassifier)
    (hsymm : ∀ x y, judgedRedundant c x y = some true → judgedRedundant c y x = some true)
    (cs : List MPICall) (R : List Diagnostic) (hmarks : ∀ x ∈ cs, x.isMarked_ = false)
    (k : Nat) (hk : k ≤ cs.length) (st : CheckerState)
    (hrun : (List.range k).foldlM (checkForRedundantCall c) ⟨cs, R⟩ = some st) :
    st.visitedCalls.map MPICall.unmarked = cs.map MPICall.unmarked ∧
    (∀ l y, st.visitedCalls[l]? = some y → k ≤ l → y.isMarked_ = false) ∧
    (∀ p y, p < k → st.visitedCalls[p]? = some y → y.isMarked_ = false →
      ∀ q z, p < q → cs[q]? = some z → judgedRedundant c y z = some false) ∧
    st.reports = R ++ (List.range k).flatMap (successorReportAt c cs) := by
  induction k generalizing st with
  | zero =>
    simp only [List.range_zero, List.foldlM_nil] at hrun
    have hst : st = ⟨cs, R⟩ := (Option.some.inj hrun).symm
    subst hst
    refine ⟨rfl, ?_, ?_, by simp⟩
    · intro l y hy _
      exact hmarks y (List.getElem?_mem hy)
    · intro p y hp
      omega
  | succ k ih =>
    rw [List.range_succ, List.foldlM_append] at hrun
    cases hpre : (List.range k).foldlM (checkForRedundantCall c) ⟨cs, R⟩ with
    | none => simp [hpre] at hrun
    | some st₀ =>
      obtain ⟨hmap, hunm, hfalse, hrep⟩ := ih (by omega) st₀ hpre
      rcases st₀ with ⟨L, Rk⟩
      simp only at hmap hunm hfalse hrep
      have hstep : checkForRedundantCall c ⟨L, Rk⟩ k = some st := by
        simpa [hpre] using hrun
      have hlen : L.length = cs.length := by
        have := congrArg List.length hmap
        simpa using this
      have hX : L[k]? = some L[k] := List.getElem?_eq_getElem (by omega)
      have hXm : L[k].isMarked_ = false := hunm k _ hX (le_refl _)
      have hXc : cs[k]? = some L[k] := getElem?_of_unmarked hmap hmarks hX hXm
      have hback : ∀ q z, k ≤ q → cs[q]? = some z → L[q]? = some z ∧ z.isMarked_ = false := by
        intro q z hq hz
        have hqlt : q < L.length := by
          rw [hlen]; exact (List.getElem?_eq_some.1 hz).1
        have hLq : L[q]? = some L[q] := List.getElem?_eq_getElem hqlt
        have hLm : L[q].isMarked_ = false := hunm q _ hLq hq
        have hcq := getElem?_of_unmarked hmap hmarks hLq hLm
        rw [hz] at hcq
        have hzq : z = L[q] := Option.some.inj hcq
        rw [hzq]
        exact ⟨hLq, hLm⟩
      rcases checkForRedundantCall_split c L Rk k _ hX st hstep with
        ⟨hst, hnone⟩ | ⟨pre, Y, post, hL, hYm, hYv, hpreY, hst⟩
      · -- no match for the call at position `k`
        subst hst
        refine ⟨hmap, ?_, ?_, ?_⟩
        · intro l y hy hl
          exact hunm l y hy (by omega)
        · intro p y hp hy hm q z hq hz
          by_cases hpk : p = k
          · subst hpk
            rw [hX] at hy
            rw [← Option.some.inj hy]
            obtain ⟨hLq, hzm⟩ := hback q z (by omega) hz
            exact hnone z (List.getElem?_mem hLq) hzm
          · exact hfalse p y (by omega) hy hm q z hq hz
        · show Rk = _
          rw [List.range_succ, List.flatMap_append, List.flatMap_singleton, ← List.append_assoc,
            ← hrep]
          have hempty : successorReportAt c cs k = [] := by
            have hfind : successor c L[k] (cs.drop (k + 1)) = none := by
              rw [successor, List.find?_eq_none]
              intro z hz
              rcases List.mem_iff_getElem?.1 hz with ⟨n, hn⟩
              rw [List.getElem?_drop] at hn
              obtain ⟨hLq, hzm⟩ := hback (k + 1 + n) z (by omega) hn
              rw [hnone z (List.getElem?_mem hLq) hzm]
              simp
            simp [successorReportAt, hXc, hfind]
          rw [hempty, List.append_nil]
      · -- the call at position `k` is matched with `Y`
        subst hst
        have hYl : L[pre.length]? = some Y := by
          rw [hL, List.getElem?_append_right (le_refl _)]
          simp
        have hYc : cs[pre.length]? = some Y := getElem?_of_unmarked hmap hmarks hYl hYm
        have hlk : k < pre.length := by
          by_contra hnot
          by_cases hlk : pre.length = k
          · rw [hlk, hX] at hYl
            rw [← Option.some.inj hYl, judgedRedundant_self] at hYv
            simp at hYv
          · have h1 := hfalse pre.length Y (by omega) hYl hYm k _ (by omega) hXc
            rw [hsymm _ _ hYv] at h1
            simp at h1
        refine ⟨?_, ?_, ?_, ?_⟩
        · show (L.set k { L[k] with isMarked_ := true }).map MPICall.unmarked = _
          rw [map_unmarked_set L k _ hX, hmap]
        · intro l y hy hl
          have hy2 : (L.set k { L[k] with isMarked_ := true })[l]? = some y := hy
          rw [List.getElem?_set_ne (by omega)] at hy2
          exact hunm l y hy2 (by omega)
        · intro p y hp hy hm q z hq hz
          have hy2 : (L.set k { L[k] with isMarked_ := true })[p]? = some y := hy
          by_cases hpk : p = k
          · subst hpk
            rw [List.getElem?_set_self (by omega)] at hy2
            rw [← Option.some.inj hy2] at hm
            simp at hm
          · rw [List.getElem?_set_ne (fun h => hpk h.symm)] at hy2
            exact hfalse p y (by omega) hy2 hm q z hq hz
        · show Rk ++ [redundancyReport c L[k] Y] = _
          rw [List.range_succ, List.flatMap_append, List.flatMap_singleton, ← List.append_assoc,
            ← hrep]
          have hone : successorReportAt c cs k = [redundancyReport c L[k] Y] := by
            have hfind : successor c L[k] (cs.drop (k + 1)) = some Y := by
              rw [successor]
              apply find?_eq_some_of_getElem? _ _ (pre.length - (k + 1)) Y
              · rw [List.getElem?_drop]
                have : k + 1 + (pre.length - (k + 1)) = pre.length := by omega
                rw [this]
                exact hYc
              · simp [hYv]
              · intro q z hq hz
                rw [List.getElem?_drop] at hz
                obtain ⟨hLq, hzm⟩ := hback (k + 1 + q) z (by omega) hz
                rw [hL, List.getElem?_append_left (by omega)] at hLq
                rw [hpreY z (List.getElem?_mem hLq) hzm]
                simp
            simp [successorReportAt, hXc, hfind]
          rw [hone]

/-- The diagnostics of `checkForRedundantCalls`, when it returns, on unmarked recorded
calls and for a symmetric verdict: every call is paired with the first later call it is
judged redundant with; the recorded calls are as before. -/
theorem checkForRedundantCalls_reports (c : MPIFunctionClassifier)
    (hsymm : ∀ x y, judgedRedundant c x y = some true → judgedRedundant c y x = some true)
    (cs : List MPICall) (R : List Diagnostic) (hmarks : ∀ x ∈ cs, x.isMarked_ = false)
    (st : CheckerState)
    (hrun : checkForRedundantCalls c { visitedCalls := cs, reports := R } = some st) :
    st.reports = R ++ successorReports c cs ∧ st.visitedCalls = cs := by
  simp only [checkForRedundantCalls] at hrun
  cases hfold : (List.range cs.length).foldlM (checkForRedundantCall c) ⟨cs, R⟩ with
  | none => simp [hfold] at hrun
  | some st₀ =>
    obtain ⟨hmap, _, _, hrep⟩ :=
      foldlM_checkForRedundantCall_reports c hsymm cs R hmarks cs.length (le_refl _) st₀ hfold
    simp only [hfold, Option.some.injEq] at hrun
    have hcs : cs.map MPICall.unmarked = cs := by
      conv => rhs; rw [← List.map_id cs]
      apply List.map_congr_left
      intro x hx
      simpa using unmarked_eq_self (hmarks x hx)
    rw [← hrun]
    refine ⟨?_, ?_⟩
    · show st₀.reports = _
      rw [hrep, successorReports_eq_flatMap]
    · show st₀.visitedCalls.map (fun mpiCall => { mpiCall with isMarked_ := false }) = cs
      exact hmap.trans hcs

/-- Every diagnostic of the list pairs a call with a later call it is judged redundant
with. -/
theorem mem_successorReports (c : MPIFunctionClassifier) (cs : List MPICall) (d : Diagnostic)
    (hd : d ∈ successorReports c cs) :
    ∃ (i j : Nat) (x y : MPICall), i < j ∧ cs[i]? = some x ∧ cs[j]? = some y ∧
      judgedRedundant c x y = some true ∧ d = redundancyReport c x y := by
  induction cs with
  | nil => simp [successorReports] at hd
  | cons x later ih =>
    rw [successorReports, List.mem_append] at hd
    rcases hd with hd | hd
    · cases hs : successor c x later with
      | none => simp [hs] at hd
      | some y =>
        simp only [hs, List.mem_singleton] at hd
        have hfind := hs
        rw [successor] at hfind
        have hy : y ∈ later := List.mem_of_find?_eq_some hfind
        have hp := List.find?_some hfind
        rcases List.mem_iff_getElem?.1 hy with ⟨n, hn⟩
        refine ⟨0, n + 1, x, y, by omega, ?_, ?_, ?_, hd⟩
        · simp
        · simpa using hn
        · simpa using hp
    · obtain ⟨i, j, a, b, hij, ha, hb, hab, hd⟩ := ih hd
      refine ⟨i + 1, j + 1, a, b, by omega, ?_, ?_, hab, hd⟩
      · simpa using ha
      · simpa using hb

/-- Component equality does not depend on the order of the two calls. -/
theorem areComponentsOfArgumentEqual_comm (callOne callTwo : MPICall) (idx : Nat) :
    areComponentsOfArgumentEqual callOne callTwo idx =
      areComponentsOfArgumentEqual callTwo callOne idx := by
  cases hOne : callOne.arguments_[idx]? with
  | none =>
    cases hTwo : callTwo.arguments_[idx]? <;>
      simp [areComponentsOfArgumentEqual, hOne, hTwo]
  | some argOne =>
    cases hTwo : callTwo.arguments_[idx]? with
    | none => simp [areComponentsOfArgumentEqual, hOne, hTwo]
    | some argTwo =>
      rw [areComponentsOfArgumentEqual_eq_decide callOne callTwo idx _ _ hOne hTwo,
        areComponentsOfArgumentEqual_eq_decide callTwo callOne idx _ _ hTwo hOne]
      congr 1
      rw [Bool.eq_iff_iff]
      simp only [decide_eq_true_eq]
      constructor
      · rintro ⟨h₁, h₂, h₃, h₄, h₅⟩
        exact ⟨h₁.symm, h₂.symm, h₃.symm, h₄.symm, h₅.symm⟩
      · rintro ⟨h₁, h₂, h₃, h₄, h₅⟩
        exact ⟨h₁.symm, h₂.symm, h₃.symm, h₄.symm, h₅.symm⟩

/-- After `identifierInit` the reduce family, the scatter, gather and alltoall families and
the bcast family have no identifier in common. -/
theorem family_exclusive (i : IdentPtr) :
    (funcClassifier_.isReduceType i = true →
      (funcClassifier_.isScatterType i || funcClassifier_.isGatherType i ||
        funcClassifier_.isAlltoallType i) = false ∧ funcClassifier_.isBcastType i = false) ∧
    ((funcClassifier_.isScatterType i || funcClassifier_.isGatherType i ||
        funcClassifier_.isAlltoallType i) = true →
      funcClassifier_.isReduceType i = false ∧ funcClassifier_.isBcastType i = false) ∧
    (funcClassifier_.isBcastType i = true →
      funcClassifier_.isReduceType i = false ∧
        (funcClassifier_.isScatterType i || funcClassifier_.isGatherType i ||
          funcClassifier_.isAlltoallType i) = false) := by
  refine ⟨?_, ?_, ?_⟩
  · intro h
    simp only [isReduceType, Bool.or_eq_true, beq_iff_eq] at h
    rcases h with ((rfl | rfl) | rfl) | rfl <;> decide
  · intro h
    simp only [isScatterType, isGatherType, isAlltoallType, Bool.or_eq_true, beq_iff_eq] at h
    rcases h with ((rfl | rfl) | (((rfl | rfl) | rfl) | rfl)) | (rfl | rfl) <;> decide
  · intro h
    simp only [isBcastType, Bool.or_eq_true, beq_iff_eq] at h
    rcases h with rfl | rfl <;> decide

/-- After `identifierInit`, when the scan qualifies a pair it qualifies the pair in the other
order, and the index vectors of the two calls are the same. -/
theorem qualifyRedundancyCheck_symm (x y : MPICall)
    (hq : qualifyRedundancyCheck funcClassifier_ x y.unmarked = true) :
    qualifyRedundancyCheck funcClassifier_ y x.unmarked = true ∧
      indicesToCheck funcClassifier_ y = indicesToCheck funcClassifier_ x := by
  have hid : x.id_ ≠ y.id_ := by
    intro h
    simp [qualifyRedundancyCheck, MPICall.unmarked, h] at hq
  have hdisj : ∀ i : IdentPtr, ¬ (funcClassifier_.isPointToPointType i = true ∧
      funcClassifier_.isCollectiveType i = true) := not_contained_both (by decide)
  cases hpx : funcClassifier_.isPointToPointType x.identInfo_ with
  | true =>
    have hcx : funcClassifier_.isCollectiveType x.identInfo_ = false := by
      cases h : funcClassifier_.isCollectiveType x.identInfo_ with
      | false => rfl
      | true => exact absurd ⟨hpx, h⟩ (hdisj _)
    have hpy : funcClassifier_.isPointToPointType y.identInfo_ = true := by
      cases h : funcClassifier_.isPointToPointType y.identInfo_ with
      | true => rfl
      | false =>
        simp [qualifyRedundancyCheck, areCommunicationTypesEqual, MPICall.unmarked, hid, hpx,
          hcx, h] at hq
    rw [qualifyRedundancyCheck_pointToPoint funcClassifier_ x y hpx hpy hid] at hq
    refine ⟨?_, ?_⟩
    · rw [qualifyRedundancyCheck_pointToPoint funcClassifier_ y x hpy hpx (Ne.symm hid)]
      simp only [Bool.or_eq_true, Bool.and_eq_true] at hq ⊢
      rcases hq with ⟨h1, h2⟩ | ⟨h1, h2⟩
      · exact Or.inl ⟨h2, h1⟩
      · exact Or.inr ⟨h2, h1⟩
    · rw [indicesToCheck_pointToPoint funcClassifier_ x hpx,
        indicesToCheck_pointToPoint funcClassifier_ y hpy]
  | false =>
    have hc : funcClassifier_.isCollectiveType x.identInfo_ = true ∧
        funcClassifier_.isCollectiveType y.identInfo_ = true := by
      cases hcx : funcClassifier_.isCollectiveType x.identInfo_ with
      | false =>
        simp [qualifyRedundancyCheck, areCommunicationTypesEqual, MPICall.unmarked, hid, hpx,
          hcx] at hq
      | true =>
        cases hcy : funcClassifier_.isCollectiveType y.identInfo_ with
        | false =>
          simp [qualifyRedundancyCheck, areCommunicationTypesEqual, MPICall.unmarked, hid, hpx,
            hcx, hcy] at hq
        | true => exact ⟨rfl, rfl⟩
    obtain ⟨hcx, hcy⟩ := hc
    have hpy : funcClassifier_.isPointToPointType y.identInfo_ = false := by
      cases h : funcClassifier_.isPointToPointType y.identInfo_ with
      | false => rfl
      | true => exact absurd ⟨h, hcy⟩ (hdisj _)
    rw [qualifyRedundancyCheck_collective x y hcx hcy hid] at hq
    refine ⟨?_, ?_⟩
    · rw [qualifyRedundancyCheck_collective y x hcy hcx (Ne.symm hid)]
      simp only [Bool.or_eq_true, Bool.and_eq_true] at hq ⊢
      rcases hq with (((⟨h1, h2⟩ | ⟨h1, h2⟩) | ⟨h1, h2⟩) | ⟨h1, h2⟩) | ⟨h1, h2⟩
      · exact Or.inl (Or.inl (Or.inl (Or.inl ⟨h2, h1⟩)))
      · exact Or.inl (Or.inl (Or.inl (Or.inr ⟨h2, h1⟩)))
      · exact Or.inl (Or.inl (Or.inr ⟨h2, h1⟩))
      · exact Or.inl (Or.inr ⟨h2, h1⟩)
      · exact Or.inr ⟨h2, h1⟩
    · obtain ⟨hrx, hsx, hbx⟩ := family_exclusive x.identInfo_
      obtain ⟨hry, hsy, hby⟩ := family_exclusive y.identInfo_
      simp only [Bool.or_eq_true, Bool.and_eq_true] at hq
      have hsga : ∀ i : IdentPtr, (funcClassifier_.isScatterType i = true ∨
          funcClassifier_.isGatherType i = true ∨ funcClassifier_.isAlltoallType i = true) →
          (funcClassifier_.isScatterType i || funcClassifier_.isGatherType i ||
            funcClassifier_.isAlltoallType i) = true := by
        intro i h
        rcases h with h | h | h <;> simp [h]
      have hfam : (funcClassifier_.isReduceType x.identInfo_ = true ∧
            funcClassifier_.isReduceType y.identInfo_ = true) ∨
          ((funcClassifier_.isScatterType x.identInfo_ ||
              funcClassifier_.isGatherType x.identInfo_ ||
              funcClassifier_.isAlltoallType x.identInfo_) = true ∧
            (funcClassifier_.isScatterType y.identInfo_ ||
              funcClassifier_.isGatherType y.identInfo_ ||
              funcClassifier_.isAlltoallType y.identInfo_) = true) ∨
          (funcClassifier_.isBcastType x.identInfo_ = true ∧
            funcClassifier_.isBcastType y.identInfo_ = true) := by
        rcases hq with (((⟨h1, h2⟩ | ⟨h1, h2⟩) | ⟨h1, h2⟩) | ⟨h1, h2⟩) | ⟨h1, h2⟩
        · exact Or.inr (Or.inl ⟨hsga _ (Or.inl h1), hsga _ (Or.inl h2)⟩)
        · exact Or.inr (Or.inl ⟨hsga _ (Or.inr (Or.inl h1)), hsga _ (Or.inr (Or.inl h2))⟩)
        · exact Or.inr (Or.inl ⟨hsga _ (Or.inr (Or.inr h1)), hsga _ (Or.inr (Or.inr h2))⟩)
        · exact Or.inr (Or.inr ⟨h1, h2⟩)
        · exact Or.inl ⟨h1, h2⟩
      rcases hfam with ⟨h1, h2⟩ | ⟨h1, h2⟩ | ⟨h1, h2⟩
      · simp only [indicesToCheck, hpx, hpy, h1, h2, if_true, Bool.false_eq_true, if_false]
      · simp only [indicesToCheck, hpx, hpy, h1, h2, (hsx h1).1, (hsy h2).1, if_true,
          Bool.false_eq_true, if_false]
      · simp only [indicesToCheck, hpx, hpy, h1, h2, (hbx h1).1, (hby h2).1, (hbx h1).2,
          (hby h2).2, if_true, Bool.false_eq_true, if_false]

/-- After `identifierInit` the verdict "redundant" is symmetric. -/
theorem judgedRedundant_symm (x y : MPICall)
    (h : judgedRedundant funcClassifier_ x y = some true) :
    judgedRedundant funcClassifier_ y x = some true := by
  rw [judgedRedundant_eq_true_iff] at h ⊢
  obtain ⟨hq, hcomps, hnames⟩ := h
  obtain ⟨hq2, hidx⟩ := qualifyRedundancyCheck_symm x y hq
  refine ⟨hq2, ?_, ?_⟩
  · intro idx hmem
    rw [hidx] at hmem
    rw [areComponentsOfArgumentEqual_comm]
    exact hcomps idx hmem
  · intro idx hmem
    rw [hidx] at hmem
    obtain ⟨n, h1, h2⟩ := hnames idx hmem
    exact ⟨n, h2, h1⟩

/-- The search `find?` depends on the predicate only on the elements of the list. -/
theorem find?_congr_of_mem {α : Type} (p q : α → Bool) (l : List α)
    (h : ∀ y ∈ l, p y = q y) : l.find? p = l.find? q := by
  induction l with
  | nil => rfl
  | cons a t ih =>
    rw [List.find?_cons, List.find?_cons, h a (List.mem_cons_self _ _),
      ih (fun y hy => h y (List.mem_cons_of_mem _ hy))]

/-- The elements of a list that satisfy a predicate begin with the first one that does. -/
theorem filter_eq_of_find? {α : Type} (q : α → Bool) (l : List α) :
    (l.find? q = none → l.filter q = []) ∧
    (∀ y, l.find? q = some y → ∃ t, l.filter q = y :: t) := by
  induction l with
  | nil => simp
  | cons a t ih =>
    cases ha : q a with
    | true => simp [List.find?_cons, List.filter_cons, ha]
    | false => simpa [List.find?_cons, List.filter_cons, ha] using ih

/-- The diagnostics that name a member of a group of calls judged redundant with each other
and with no other call of the list: each member is paired with the next member. -/
theorem filter_successorReports (c : MPIFunctionClassifier)
    (hsymm : ∀ x y, judgedRedundant c x y = some true → judgedRedundant c y x = some true)
    (inGroup : MPICall → Bool) (G : List MPICall) (l : List MPICall) (hnodup : l.Nodup)
    (hG : ∀ x ∈ l, (∃ g ∈ G, g.callExpr_ = x.callExpr_) ↔ inGroup x = true)
    (hpair : ∀ x ∈ l, ∀ y ∈ l, inGroup x = true → inGroup y = true → x ≠ y →
      judgedRedundant c x y = some true)
    (hout : ∀ x ∈ l, ∀ y ∈ l, inGroup x = true → inGroup y = false →
      judgedRedundant c x y = some false) :
    (successorReports c l).filter (fun d => G.any (fun g => d.names g.callExpr_)) =
      ((l.filter inGroup).zip (l.filter inGroup).tail).map
        (fun p => redundancyReport c p.1 p.2) := by
  induction l with
  | nil => simp [successorReports]
  | cons x later ih =>
    obtain ⟨hx, hnd⟩ := List.nodup_cons.1 hnodup
    have ih2 := ih hnd (fun y hy => hG y (List.mem_cons_of_mem _ hy))
      (fun a ha b hb => hpair a (List.mem_cons_of_mem _ ha) b (List.mem_cons_of_mem _ hb))
      (fun a ha b hb => hout a (List.mem_cons_of_mem _ ha) b (List.mem_cons_of_mem _ hb))
    rw [successorReports, List.filter_append, ih2]
    have hxmem : x ∈ x :: later := List.mem_cons_self _ _
    cases hgx : inGroup x with
    | true =>
      have hsucc : successor c x later = later.find? inGroup := by
        rw [successor]
        apply find?_congr_of_mem
        intro y hy
        have hxy : x ≠ y := fun h => hx (h ▸ hy)
        cases hgy : inGroup y with
        | true => simp [hpair x hxmem y (List.mem_cons_of_mem _ hy) hgx hgy hxy]
        | false => simp [hout x hxmem y (List.mem_cons_of_mem _ hy) hgx hgy]
      obtain ⟨g, hgG, hgsite⟩ := (hG x hxmem).2 hgx
      cases hf : later.find? inGroup with
      | none =>
        have hnil := (filter_eq_of_find? inGroup later).1 hf
        simp [hsucc, hf, List.filter_cons, hgx, hnil]
      | some y =>
        obtain ⟨t, ht⟩ := (filter_eq_of_find? inGroup later).2 y hf
        have hkeep : (G.any fun g => (redundancyReport c x y).names g.callExpr_) = true := by
          rw [List.any_eq_true]
          exact ⟨g, hgG, by simp [redundancyReport, Diagnostic.names, hgsite]⟩
        simp [hsucc, hf, List.filter_cons, hgx, ht, hkeep]
    | false =>
      have hnotG : ∀ z ∈ x :: later, inGroup z = false → ∀ g ∈ G, g.callExpr_ ≠ z.callExpr_ := by
        intro z hz hgz g hg hsite
        have := (hG z hz).1 ⟨g, hg, hsite⟩
        rw [hgz] at this
        cases this
      cases hs : successor c x later with
      | none => simp [List.filter_cons, hgx]
      | some y =>
        have hfind := hs
        rw [successor] at hfind
        have hy : y ∈ later := List.mem_of_find?_eq_some hfind
        have hxy : judgedRedundant c x y = some true := by
          simpa using List.find?_some hfind
        have hgy : inGroup y = false := by
          cases hgy : inGroup y with
          | false => rfl
          | true =>
            have h1 := hout y (List.mem_cons_of_mem _ hy) x hxmem hgy hgx
            rw [hsymm x y hxy] at h1
            simp at h1
        have hdrop : (G.any fun g => (redundancyReport c x y).names g.callExpr_) = false := by
          rw [List.any_eq_false]
          intro g hg
          have h1 := hnotG x hxmem hgx g hg
          have h2 := hnotG y (List.mem_cons_of_mem _ hy) hgy g hg
          simp [redundancyReport, Diagnostic.names, Ne.symm h1, Ne.symm h2]
        simp [List.filter_cons, hgx, hdrop]

/-- Every member of a list of at least two elements occurs in a pair of neighbours. -/
theorem exists_zip_tail_of_mem {α : Type} (G : List α) (g : α) (hg : g ∈ G)
    (hlen : 2 ≤ G.length) : ∃ p ∈ G.zip G.tail, p.1 = g ∨ p.2 = g := by
  induction G with
  | nil => simp at hg
  | cons a rest ih =>
    cases rest with
    | nil => simp at hlen
    | cons b rest2 =>
      rcases List.mem_cons.1 hg with rfl | hg2
      · exact ⟨(g, b), by simp, Or.inl rfl⟩
      · cases rest2 with
        | nil =>
          have hgb : g = b := by simpa using hg2
          exact ⟨(a, b), by simp, Or.inr hgb.symm⟩
        | cons c rest3 =>
          obtain ⟨p, hp, hor⟩ := ih hg2 (by simp)
          exact ⟨p, by
            simp only [List.tail_cons, List.zip_cons_cons] at hp ⊢
            exact List.mem_cons_of_mem _ hp, hor⟩

/-- The reports of a group where every verdict is defined. Let the recorded calls be
unmarked, have pairwise different call sites and defined verdicts, and let the calls of a
group be judged redundant with each other and with no call outside the group. Then `checkForRedundantCalls` returns, and the diagnostics that name a
call of the group are, in order, the ones that pair each member of the group with the next
member in insertion order: n - 1 diagnostics for a group of n calls, none for the last
member; when the group has two calls or more, every member is named by a diagnostic. -/
theorem checkForRedundantCalls_group (cs : List MPICall) (inGroup : MPICall → Bool)
    (hmarks : ∀ x ∈ cs, x.isMarked_ = false)
    (hsites : (cs.map (·.callExpr_)).Nodup)
    (hdef : ∀ x ∈ cs, ∀ y ∈ cs, judgedRedundant funcClassifier_ x y ≠ none)
    (hpair : ∀ x ∈ cs, ∀ y ∈ cs, inGroup x = true → inGroup y = true → x ≠ y →
      judgedRedundant funcClassifier_ x y = some true)
    (hout : ∀ x ∈ cs, ∀ y ∈ cs, inGroup x = true → inGroup y = false →
      judgedRedundant funcClassifier_ x y = some false) :
    ∃ st, checkForRedundantCalls funcClassifier_ { visitedCalls := cs, reports := [] } =
        some st ∧
      st.reports.filter (fun d => (cs.filter inGroup).any (fun g => d.names g.callExpr_)) =
        ((cs.filter inGroup).zip (cs.filter inGroup).tail).map
          (fun p => Diagnostic.redundantCall p.1.callExpr_ p.2.callExpr_
            ((checkForRedundantCall.indicesToCheck funcClassifier_ p.1).1 ++
              (checkForRedundantCall.indicesToCheck funcClassifier_ p.1).2)) ∧
      (st.reports.filter
          (fun d => (cs.filter inGroup).any (fun g => d.names g.callExpr_))).length =
        (cs.filter inGroup).length - 1 ∧
      (2 ≤ (cs.filter inGroup).length → ∀ g ∈ cs.filter inGroup,
        ∃ d ∈ st.reports, d.names g.callExpr_ = true) := by
  obtain ⟨st₀, hfold, _⟩ :=
    foldlM_checkForRedundantCall_total funcClassifier_ cs [] hdef cs.length (le_refl _)
  have hrun : checkForRedundantCalls funcClassifier_ { visitedCalls := cs, reports := [] } =
      some { st₀ with visitedCalls := st₀.visitedCalls.map fun mpiCall =>
        { mpiCall with isMarked_ := false } } := by
    simp only [checkForRedundantCalls, hfold]
  obtain ⟨hrep, _⟩ := checkForRedundantCalls_reports funcClassifier_ judgedRedundant_symm cs []
    hmarks _ hrun
  have hG : ∀ x ∈ cs, (∃ g ∈ cs.filter inGroup, g.callExpr_ = x.callExpr_) ↔
      inGroup x = true := by
    intro x hx
    constructor
    · rintro ⟨g, hg, hsite⟩
      obtain ⟨hgcs, hgin⟩ := List.mem_filter.1 hg
      have := List.inj_on_of_nodup_map hsites hgcs hx hsite
      rw [← this]
      exact hgin
    · intro hin
      exact ⟨x, List.mem_filter.2 ⟨hx, hin⟩, rfl⟩
  have hfilter := filter_successorReports funcClassifier_ judgedRedundant_symm inGroup
    (cs.filter inGroup) cs (List.Nodup.of_map _ hsites) hG hpair hout
  have hreports : ({ st₀ with visitedCalls := st₀.visitedCalls.map fun mpiCall =>
      { mpiCall with isMarked_ := false } } : CheckerState).reports = successorReports funcClassifier_ cs := by
    rw [hrep]
    simp
  refine ⟨_, hrun, ?_, ?_, ?_⟩
  · rw [hreports, hfilter]
    rfl
  · rw [hreports, hfilter]
    simp only [List.length_map, List.length_zip, List.length_tail]
    omega
  · intro hlen g hg
    obtain ⟨p, hp, hor⟩ := exists_zip_tail_of_mem (cs.filter inGroup) g hg hlen
    have hd : redundancyReport funcClassifier_ p.1 p.2 ∈
        (successorReports funcClassifier_ cs).filter
          (fun d => (cs.filter inGroup).any (fun g => d.names g.callExpr_)) := by
      rw [hfilter]
      exact List.mem_map.2 ⟨p, hp, rfl⟩
    refine ⟨redundancyReport funcClassifier_ p.1 p.2, ?_, ?_⟩
    · rw [hreports]
      exact (List.mem_filter.1 hd).1
    · rcases hor with h | h
      · simp [redundancyReport, Diagnostic.names, h]
      · simp [redundancyReport, Diagnostic.names, h]

/-- The reports of a group on a sample: in the recorded list
`MPI_Send; MPI_Send; MPI_Barrier; MPI_Send` the
three `MPI_Send` calls form a group; two diagnostics name a call of the group: the first
send with the second, and the second with the third. -/
theorem checkForRedundantCalls_group_witness :
    ∃ st, checkForRedundantCalls funcClassifier_
        { visitedCalls := sampleGroupCalls, reports := [] } = some st ∧
      st.reports.filter (fun d => [sampleSendOne, sampleSendTwo, sampleSendThree].any
          (fun g => d.names g.callExpr_)) =
        [Diagnostic.redundantCall sampleSendOne.callExpr_ sampleSendTwo.callExpr_ [1, 3, 4, 2],
          Diagnostic.redundantCall sampleSendTwo.callExpr_ sampleSendThree.callExpr_
            [1, 3, 4, 2]] := by
  obtain ⟨st, hrun, hfilter, _, _⟩ := checkForRedundantCalls_group sampleGroupCalls
    (fun x => x.identInfo_ == Idents.get "MPI_Send") (by decide) (by decide) (by decide)
    (by decide) (by decide)
  exact ⟨st, hrun, hfilter.trans (by decide)⟩

/-- C32 (evaluation of the code). In the recorded list of three calls `MPI_Send(a, n,
MPI_INT, 1, 0, MPI_COMM_WORLD)` and two calls `MPI_Recv(b, n, elemType(), 0, 0,
MPI_COMM_WORLD, &status)`, the three sends are a group: each is judged redundant with the
two others, and none with a recv or by a recv. The comparison of the two recvs reads
`vars_.front()` of the datatype argument `elemType()`, which references no variable
(`areDatatypesEqual`, MPICheckerImpl.cpp:450-451): it is undefined, and so is
`checkForRedundantCalls` on this list, after the scans of the three sends have emitted the
two diagnostics of the group. -/
theorem redundancy_scan_undefined_beside_group :
    (∀ x ∈ [sampleSendOne, sampleSendTwo, sampleSendThree],
      ∀ y ∈ [sampleSendOne, sampleSendTwo, sampleSendThree], x ≠ y →
        judgedRedundant funcClassifier_ x y = some true) ∧
    (∀ x ∈ [sampleSendOne, sampleSendTwo, sampleSendThree],
      ∀ y ∈ [sampleRecvNoVariable 107, sampleRecvNoVariable 108],
        judgedRedundant funcClassifier_ x y = some false ∧
        judgedRedundant funcClassifier_ y x = some false) ∧
    (∀ x ∈ sampleGroupBesideRecvs, x.isMarked_ = false) ∧
    (sampleGroupBesideRecvs.map (·.callExpr_)).Nodup ∧
    judgedRedundant funcClassifier_ (sampleRecvNoVariable 107) (sampleRecvNoVariable 108) =
      none ∧
    ((List.range 3).foldlM (checkForRedundantCall funcClassifier_)
        { visitedCalls := sampleGroupBesideRecvs, reports := [] }).map (·.reports) =
      some [Diagnostic.redundantCall sampleSendOne.callExpr_ sampleSendTwo.callExpr_
          [1, 3, 4, 2],
        Diagnostic.redundantCall sampleSendTwo.callExpr_ sampleSendThree.callExpr_
          [1, 3, 4, 2]] ∧
    checkForRedundantCall funcClassifier_
        { visitedCalls := sampleGroupBesideRecvs, reports := [] } 3 = none ∧
    checkForRedundantCalls funcClassifier_
        { visitedCalls := sampleGroupBesideRecvs, reports := [] } = none := by
  decide

/-- C33. When the recorded calls are unmarked and `checkForRedundantCalls` returns, every
diagnostic it emits pairs a recorded call (the reporting call, which is marked) with a call
recorded at a later position, which it is judged redundant with: no call is reported
together with an earlier call or with itself. -/
theorem checkForRedundantCalls_reports_later (cs : List MPICall) (R : List Diagnostic)
    (st : CheckerState) (hmarks : ∀ x ∈ cs, x.isMarked_ = false)
    (hrun : checkForRedundantCalls funcClassifier_ { visitedCalls := cs, reports := R } =
      some st) :
    ∃ emitted, st.reports = R ++ emitted ∧
      ∀ d ∈ emitted, ∃ (i j : Nat) (x y : MPICall), i < j ∧ cs[i]? = some x ∧
        cs[j]? = some y ∧ judgedRedundant funcClassifier_ x y = some true ∧
        d = Diagnostic.redundantCall x.callExpr_ y.callExpr_
          ((checkForRedundantCall.indicesToCheck funcClassifier_ x).1 ++
            (checkForRedundantCall.indicesToCheck funcClassifier_ x).2) := by
  obtain ⟨hrep, _⟩ := checkForRedundantCalls_reports funcClassifier_ judgedRedundant_symm cs R
    hmarks st hrun
  exact ⟨successorReports funcClassifier_ cs, hrep,
    fun d hd => mem_successorReports funcClassifier_ cs d hd⟩

/-- Witness for C33: on the recorded list `MPI_Send; MPI_Send; MPI_Barrier; MPI_Send` the
check returns with two diagnostics, each pairing a call with a later one. -/
theorem checkForRedundantCalls_reports_later_witness :
    checkForRedundantCalls funcClassifier_ { visitedCalls := sampleGroupCalls, reports := [] } =
      some { visitedCalls := sampleGroupCalls,
             reports :=
              [Diagnostic.redundantCall sampleSendOne.callExpr_ sampleSendTwo.callExpr_
                 [1, 3, 4, 2],
               Diagnostic.redundantCall sampleSendTwo.callExpr_ sampleSendThree.callExpr_
                 [1, 3, 4, 2]] } ∧
    ∃ emitted,
      [Diagnostic.redundantCall sampleSendOne.callExpr_ sampleSendTwo.callExpr_ [1, 3, 4, 2],
        Diagnostic.redundantCall sampleSendTwo.callExpr_ sampleSendThree.callExpr_
          [1, 3, 4, 2]] = [] ++ emitted ∧
      ∀ d ∈ emitted, ∃ (i j : Nat) (x y : MPICall), i < j ∧ sampleGroupCalls[i]? = some x ∧
        sampleGroupCalls[j]? = some y ∧ judgedRedundant funcClassifier_ x y = some true ∧
        d = Diagnostic.redundantCall x.callExpr_ y.callExpr_
          ((checkForRedundantCall.indicesToCheck funcClassifier_ x).1 ++
            (checkForRedundantCall.indicesToCheck funcClassifier_ x).2) :=
  ⟨by decide,
    checkForRedundantCalls_reports_later sampleGroupCalls []
      { visitedCalls := sampleGroupCalls,
        reports :=
          [Diagnostic.redundantCall sampleSendOne.callExpr_ sampleSendTwo.callExpr_
             [1, 3, 4, 2],
           Diagnostic.redundantCall sampleSendTwo.callExpr_ sampleSendThree.callExpr_
             [1, 3, 4, 2]] }
      (by decide) (by decide)⟩

/-- The identifiers of `MPI_Barrier`, `MPI_Wait`, `MPI_Waitall` and `MPI_Comm_rank` are in
no point-to-point bucket and in none of the five collective sub-families. -/
theorem additional_identifiers_unclassified :
    ∀ i ∈ [Idents.get "MPI_Barrier", Idents.get "MPI_Wait", Idents.get "MPI_Waitall",
        Idents.get "MPI_Comm_rank"],
      funcClassifier_.isPointToPointType i = false ∧ funcClassifier_.isScatterType i = false ∧
      funcClassifier_.isGatherType i = false ∧ funcClassifier_.isAlltoallType i = false ∧
      funcClassifier_.isBcastType i = false ∧ funcClassifier_.isReduceType i = false := by
  decide

/-- After `identifierInit` the scan never qualifies a pair in which one of the calls is
`MPI_Barrier`, `MPI_Wait`, `MPI_Waitall` or `MPI_Comm_rank`. -/
theorem qualifyRedundancyCheck_additional (x y : MPICall)
    (h : x.identInfo_ ∈ [Idents.get "MPI_Barrier", Idents.get "MPI_Wait",
        Idents.get "MPI_Waitall", Idents.get "MPI_Comm_rank"] ∨
      y.identInfo_ ∈ [Idents.get "MPI_Barrier", Idents.get "MPI_Wait",
        Idents.get "MPI_Waitall", Idents.get "MPI_Comm_rank"]) :
    qualifyRedundancyCheck funcClassifier_ x y = false := by
  have hdisj : ∀ i : IdentPtr, ¬ (funcClassifier_.isPointToPointType i = true ∧
      funcClassifier_.isCollectiveType i = true) := not_contained_both (by decide)
  rcases h with h | h
  · obtain ⟨hp, hs, hg, ha, hb, hr⟩ := additional_identifiers_unclassified _ h
    simp [qualifyRedundancyCheck, hp, hs, hg, ha, hb, hr]
  · obtain ⟨hp, hs, hg, ha, hb, hr⟩ := additional_identifiers_unclassified _ h
    cases hpx : funcClassifier_.isPointToPointType x.identInfo_ with
    | true =>
      have hcx : funcClassifier_.isCollectiveType x.identInfo_ = false := by
        cases hc : funcClassifier_.isCollectiveType x.identInfo_ with
        | false => rfl
        | true => exact absurd ⟨hpx, hc⟩ (hdisj _)
      simp [qualifyRedundancyCheck, areCommunicationTypesEqual, hp, hpx, hcx]
    | false =>
      simp [qualifyRedundancyCheck, hp, hs, hg, ha, hb, hr, hpx]

/-- A call of `checkForRedundantCall` leaves the state as it is when every recorded call is
`MPI_Barrier`, `MPI_Wait`, `MPI_Waitall` or `MPI_Comm_rank`. -/
theorem checkForRedundantCall_additional (L : List MPICall) (R : List Diagnostic)
    (hall : ∀ x ∈ L, x.identInfo_ ∈ [Idents.get "MPI_Barrier", Idents.get "MPI_Wait",
      Idents.get "MPI_Waitall", Idents.get "MPI_Comm_rank"])
    (k : Nat) (hk : k < L.length) :
    checkForRedundantCall funcClassifier_ ⟨L, R⟩ k = some ⟨L, R⟩ := by
  have hX : L[k]? = some L[k] := List.getElem?_eq_getElem hk
  have hfalse : ∀ y, judgedRedundant funcClassifier_ L[k] y = some false := by
    intro y
    have hq := qualifyRedundancyCheck_additional L[k] y.unmarked
      (Or.inl (hall _ (List.getElem?_mem hX)))
    simp [judgedRedundant, isRedundantWith, hq]
  rcases checkForRedundantCall_spec funcClassifier_ L R k _ hX
      (fun y _ => by rw [hfalse y]; simp) with ⟨hstep, _⟩ | ⟨Y, _, _, hYv, _⟩
  · exact hstep
  · rw [hfalse Y] at hYv
    simp at hYv

/-- C39. After `identifierInit`, `qualifyRedundancyCheck` returns false whenever one of the
two calls is `MPI_Barrier`, `MPI_Wait`, `MPI_Waitall` or `MPI_Comm_rank`; no diagnostic that
`checkForRedundantCalls` emits on unmarked recorded calls pairs such a call; and on a
recorded list of such calls only (any number of repeated `MPI_Barrier` calls, for one)
`checkForRedundantCalls` returns with the diagnostics as they were. -/
theorem checkForRedundantCalls_additional :
    (∀ x y : MPICall,
      (x.identInfo_ ∈ [Idents.get "MPI_Barrier", Idents.get "MPI_Wait",
          Idents.get "MPI_Waitall", Idents.get "MPI_Comm_rank"] ∨
        y.identInfo_ ∈ [Idents.get "MPI_Barrier", Idents.get "MPI_Wait",
          Idents.get "MPI_Waitall", Idents.get "MPI_Comm_rank"]) →
      qualifyRedundancyCheck funcClassifier_ x y = false) ∧
    (∀ (cs : List MPICall) (R : List Diagnostic) (st : CheckerState),
      (∀ x ∈ cs, x.isMarked_ = false) →
      checkForRedundantCalls funcClassifier_ { visitedCalls := cs, reports := R } = some st →
      ∃ emitted, st.reports = R ++ emitted ∧
        ∀ d ∈ emitted, ∃ x ∈ cs, ∃ y ∈ cs,
          d = Diagnostic.redundantCall x.callExpr_ y.callExpr_
            ((checkForRedundantCall.indicesToCheck funcClassifier_ x).1 ++
              (checkForRedundantCall.indicesToCheck funcClassifier_ x).2) ∧
          x.identInfo_ ∉ [Idents.get "MPI_Barrier", Idents.get "MPI_Wait",
            Idents.get "MPI_Waitall", Idents.get "MPI_Comm_rank"] ∧
          y.identInfo_ ∉ [Idents.get "MPI_Barrier", Idents.get "MPI_Wait",
            Idents.get "MPI_Waitall", Idents.get "MPI_Comm_rank"]) ∧
    (∀ (cs : List MPICall) (R : List Diagnostic),
      (∀ x ∈ cs, x.identInfo_ ∈ [Idents.get "MPI_Barrier", Idents.get "MPI_Wait",
        Idents.get "MPI_Waitall", Idents.get "MPI_Comm_rank"]) →
      checkForRedundantCalls funcClassifier_ { visitedCalls := cs, reports := R } =
        some { visitedCalls := cs.map MPICall.unmarked, reports := R }) ∧
    checkForRedundantCalls funcClassifier_
        { visitedCalls := [sampleBarrier, sampleBarrierTwo], reports := [] } =
      some { visitedCalls := [sampleBarrier, sampleBarrierTwo], reports := [] } := by
  refine ⟨qualifyRedundancyCheck_additional, ?_, ?_, by decide⟩
  · intro cs R st hmarks hrun
    obtain ⟨hrep, _⟩ := checkForRedundantCalls_reports funcClassifier_ judgedRedundant_symm cs R
      hmarks st hrun
    refine ⟨successorReports funcClassifier_ cs, hrep, ?_⟩
    intro d hd
    obtain ⟨i, j, x, y, _, hx, hy, hxy, hd⟩ := mem_successorReports funcClassifier_ cs d hd
    have hq := ((judgedRedundant_eq_true_iff funcClassifier_ x y).1 hxy).1
    refine ⟨x, List.getElem?_mem hx, y, List.getElem?_mem hy, hd, ?_, ?_⟩
    · intro hmem
      rw [qualifyRedundancyCheck_additional x y.unmarked (Or.inl hmem)] at hq
      cases hq
    · intro hmem
      rw [qualifyRedundancyCheck_additional x y.unmarked (Or.inr hmem)] at hq
      cases hq
  · intro cs R hall
    have hfold : ∀ ks : List Nat, (∀ k ∈ ks, k < cs.length) →
        ks.foldlM (checkForRedundantCall funcClassifier_) ⟨cs, R⟩ = some ⟨cs, R⟩ := by
      intro ks
      induction ks with
      | nil => intro _; rfl
      | cons k rest ih =>
        intro hks
        rw [List.foldlM_cons, checkForRedundantCall_additional cs R hall k
          (hks k (List.mem_cons_self _ _))]
        exact ih (fun q hq => hks q (List.mem_cons_of_mem _ hq))
    simp only [checkForRedundantCalls,
      hfold (List.range cs.length) (fun k hk => List.mem_range.1 hk)]
    rfl

end RedundancyReports

/-! ## Properties of the seen-set of the rank-case builder -/

section SeenSet

open TranslationUnitVisitor

/-- The loop of `VisitIfStmt` on a chain adds the if statements of the chain to the
if statements already expanded. -/
theorem loop_visitedIfStmts (c : MPIFunctionClassifier) (mpiCallsIn : Stmt → List MPICall)
    (arms : List IfArm) (last : Stmt) (hlast : last.isIfStmt = false)
    (unmatched : List ConditionVisitor) (self : TranslationUnitVisitor) :
    (VisitIfStmt.loop c mpiCallsIn (ifChain arms last) unmatched self).2.2.visitedIfStmts_ =
      self.visitedIfStmts_ ++ chainStmts arms last := by
  induction arms generalizing unmatched self with
  | nil =>
    cases last with
    | null => simp [ifChain, VisitIfStmt.loop, chainStmts]
    | IfStmt node getCond getThen getElse => simp [Stmt.isIfStmt] at hlast
    | other node => simp [ifChain, VisitIfStmt.loop, chainStmts]
  | cons arm rest ih =>
    simp only [ifChain, VisitIfStmt.loop, chainStmts]
    rw [ih]
    simp [ifChain]

/-- The if statements expanded after `VisitIfStmt` has expanded a chain. -/
theorem VisitIfStmt_visitedIfStmts (c : MPIFunctionClassifier)
    (visitedRankVariables : List VarDecl) (mpiCallsIn : Stmt → List MPICall)
    (self : TranslationUnitVisitor) (arm : IfArm) (arms : List IfArm) (last : Stmt)
    (hlast : last.isIfStmt = false)
    (hrank : isRankBranch visitedRankVariables arm.getCond = true)
    (hnew : ifChain (arm :: arms) last ∉ self.visitedIfStmts_) :
    (VisitIfStmt c visitedRankVariables mpiCallsIn (ifChain (arm :: arms) last)
        self).visitedIfStmts_ =
      self.visitedIfStmts_ ++ chainStmts (arm :: arms) last := by
  have h := loop_visitedIfStmts c mpiCallsIn (arm :: arms) last hlast [] self
  have h1 := (loop_ifChain c mpiCallsIn (arm :: arms) last hlast [] self).1
  have hcont : cont.isContained self.visitedIfStmts_
      (Stmt.IfStmt arm.node arm.getCond arm.getThen (ifChain arms last)) = false := by
    simpa [cont.isContained, List.contains, List.elem_eq_mem, ifChain] using hnew
  rcases hloop : VisitIfStmt.loop c mpiCallsIn (ifChain (arm :: arms) last) [] self with
    ⟨stmt, unmatchedConditions, self2⟩
  rw [hloop] at h h1
  simp only at h h1
  have hloop2 : VisitIfStmt.loop c mpiCallsIn
      (Stmt.IfStmt arm.node arm.getCond arm.getThen (ifChain arms last)) [] self =
      (last, unmatchedConditions, self2) := by
    rw [h1] at hloop
    exact hloop
  clear h1
  cases last with
  | null => simp [VisitIfStmt, ifChain, hrank, hcont, hloop2, h]
  | IfStmt node getCond getThen getElse => simp [Stmt.isIfStmt] at hlast
  | other node => simp [VisitIfStmt, ifChain, hrank, hcont, hloop2, h]

/-- `VisitIfStmt` leaves the state as it is on a statement that has been expanded. -/
theorem VisitIfStmt_of_visited (c : MPIFunctionClassifier) (visitedRankVariables : List VarDecl)
    (mpiCallsIn : Stmt → List MPICall) (stmt : Stmt) (self : TranslationUnitVisitor)
    (h : stmt ∈ self.visitedIfStmts_) :
    VisitIfStmt c visitedRankVariables mpiCallsIn stmt self = self := by
  cases stmt with
  | null => simp [VisitIfStmt]
  | other node => simp [VisitIfStmt]
  | IfStmt node getCond getThen getElse =>
    by_cases hr : isRankBranch visitedRankVariables getCond = true
    · simp [VisitIfStmt, hr, cont.isContained, h]
    · simp [VisitIfStmt, hr]

/-- The i-th if statement of a chain is the head of the chain of the arms from the i-th
on. -/
theorem chainStmts_getElem (arms : List IfArm) (last : Stmt) (i : Nat) (hi : i < arms.length) :
    (chainStmts arms last)[i]? = some (ifChain (arms.drop i) last) := by
  induction arms generalizing i with
  | nil => simp at hi
  | cons arm rest ih =>
    cases i with
    | zero => simp [chainStmts]
    | succ i =>
      simp only [chainStmts, List.getElem?_cons_succ, List.drop_succ_cons]
      exact ih i (by simpa using hi)

/-- C34. After `VisitIfStmt` has expanded a chain (head condition with a rank variable, head
not expanded before), the head of the chain and the if statements of all its else-if arms
are among the expanded if statements, and in every later state that still holds them
`VisitIfStmt` on the head or on one of the else-if statements leaves the state as it is:
no rank case is appended and no diagnostic is emitted. -/
theorem VisitIfStmt_no_reexpansion (visitedRankVariables : List VarDecl)
    (mpiCallsIn : Stmt → List MPICall) (self : TranslationUnitVisitor) (arm : IfArm)
    (arms : List IfArm) (last : Stmt) (hlast : last.isIfStmt = false)
    (hrank : ∃ varDecl ∈ arm.getCond.vars_, varDecl ∈ visitedRankVariables)
    (hnew : ifChain (arm :: arms) last ∉ self.visitedIfStmts_) :
    (∀ i : Nat, i < (arm :: arms).length →
      ifChain ((arm :: arms).drop i) last ∈
        (VisitIfStmt funcClassifier_ visitedRankVariables mpiCallsIn
          (ifChain (arm :: arms) last) self).visitedIfStmts_) ∧
    (∀ later : TranslationUnitVisitor,
      (∀ stmt ∈ (VisitIfStmt funcClassifier_ visitedRankVariables mpiCallsIn
          (ifChain (arm :: arms) last) self).visitedIfStmts_, stmt ∈ later.visitedIfStmts_) →
      ∀ i : Nat, i < (arm :: arms).length →
        VisitIfStmt funcClassifier_ visitedRankVariables mpiCallsIn
          (ifChain ((arm :: arms).drop i) last) later = later) := by
  have hr : isRankBranch visitedRankVariables arm.getCond = true := by
    simpa [isRankBranch, cont.isContained] using hrank
  have hvisited := VisitIfStmt_visitedIfStmts funcClassifier_ visitedRankVariables mpiCallsIn
    self arm arms last hlast hr hnew
  have hmem : ∀ i : Nat, i < (arm :: arms).length →
      ifChain ((arm :: arms).drop i) last ∈
        (VisitIfStmt funcClassifier_ visitedRankVariables mpiCallsIn
          (ifChain (arm :: arms) last) self).visitedIfStmts_ := by
    intro i hi
    rw [hvisited]
    exact List.mem_append_right _
      (List.getElem?_mem (chainStmts_getElem (arm :: arms) last i hi))
  refine ⟨hmem, ?_⟩
  intro later hlater i hi
  exact VisitIfStmt_of_visited funcClassifier_ visitedRankVariables mpiCallsIn _ later
    (hlater _ (hmem i hi))

/-- Witness for C34: after the chain `if (r == 0) S1 else if (r == 1) S2 else S3` has been
expanded, visiting its else-if statement changes nothing. -/
theorem VisitIfStmt_no_reexpansion_witness :
    VisitIfStmt funcClassifier_ [sampleRankVariable] sampleMpiCallsIn
        (ifChain (sampleArms.drop 1) (Stmt.other 804))
        (VisitIfStmt funcClassifier_ [sampleRankVariable] sampleMpiCallsIn
          (ifChain sampleArms (Stmt.other 804)) {}) =
      VisitIfStmt funcClassifier_ [sampleRankVariable] sampleMpiCallsIn
        (ifChain sampleArms (Stmt.other 804)) {} :=
  (VisitIfStmt_no_reexpansion [sampleRankVariable] sampleMpiCallsIn {}
    { node := 800, getCond := sampleRankCondition "r == 0", getThen := Stmt.other 801 }
    [{ node := 802, getCond := sampleRankCondition "r == 1", getThen := Stmt.other 803 }]
    (Stmt.other 804) rfl ⟨sampleRankVariable, by decide, by decide⟩ (by simp)).2
    _ (fun _ h => h) 1 (by decide)

end SeenSet

/-! ## Properties of the legacy argument comparison -/

section LegacyComparison

open MPISchemaCheckerAST

/-- The erase-and-search loop of the legacy comparison decides whether the components of
the second argument are contained, with their multiplicities, in those of the first. -/
theorem search_iff_subperm {α : Type} [DecidableEq α] (componentsOne componentsTwo : List α) :
    fullArgumentComparison.search componentsOne componentsTwo = true ↔
      componentsTwo.Subperm componentsOne := by
  induction componentsTwo generalizing componentsOne with
  | nil => simp [fullArgumentComparison.search, List.nil_subperm]
  | cons x rest ih =>
    rw [fullArgumentComparison.search]
    by_cases hx : x ∈ componentsOne
    · have hc : lx.cont.isContained componentsOne x = true := by
        simpa [lx.cont.isContained] using hx
      simp only [hc, Bool.not_true, Bool.false_eq_true, if_false, lx.cont.erase, ih]
      rw [← List.subperm_cons x, ← (List.perm_cons_erase hx).subperm_left]
    · have hc : lx.cont.isContained componentsOne x = false := by
        simpa [lx.cont.isContained] using hx
      simp only [hc, Bool.not_false, if_true, Bool.false_eq_true, false_iff]
      intro hsub
      exact hx (hsub.subset (List.mem_cons_self _ _))

/-- C35 (evaluation of the code). The legacy erase-and-search `fullArgumentComparison`
returns true exactly when the two flags agree, the operators, variables, integer literals
and functions of the second argument are contained, with their multiplicities, in those of
the first, and the float-literal counts are equal: it does not look at what is left of the
components of the first argument. For `x + y + 1` against `x + y` it returns true, in the
other order it returns false, and the comparison with `util::isPermutation` returns
false. -/
theorem fullArgumentComparison_decides_inclusion :
    (∀ (callOne callTwo : MPISchemaCheckerAST.MPICall) (idx : Nat)
        (argOne argTwo : MPISchemaCheckerAST.SingleArgVisitor),
      callOne.arguments_[idx]? = some argOne → callTwo.arguments_[idx]? = some argTwo →
      (MPISchemaCheckerAST.fullArgumentComparison callOne callTwo idx = some true ↔
        argOne.isArgumentStatic_ = argTwo.isArgumentStatic_ ∧
        argOne.isSimpleExpression_ = argTwo.isSimpleExpression_ ∧
        argTwo.binaryOperators_.Subperm argOne.binaryOperators_ ∧
        argTwo.vars_.Subperm argOne.vars_ ∧
        argTwo.integerLiterals_.Subperm argOne.integerLiterals_ ∧
        argOne.floatingLiterals_.length = argTwo.floatingLiterals_.length ∧
        argTwo.functions_.Subperm argOne.functions_)) ∧
    MPISchemaCheckerAST.fullArgumentComparison sampleLegacyCallOne sampleLegacyCallTwo 0 =
      some true ∧
    MPISchemaCheckerAST.fullArgumentComparison sampleLegacyCallTwo sampleLegacyCallOne 0 =
      some false ∧
    MPISchemaChecker.fullArgumentComparison sampleLegacyCallOne sampleLegacyCallTwo 0 =
      some false ∧
    MPISchemaChecker.fullArgumentComparison sampleLegacyCallTwo sampleLegacyCallOne 0 =
      some false := by
  refine ⟨?_, by decide, by decide, by decide, by decide⟩
  intro callOne callTwo idx argOne argTwo hOne hTwo
  simp only [MPISchemaCheckerAST.fullArgumentComparison, hOne, hTwo, ← search_iff_subperm]
  split_ifs with h1 <;> try simp_all
  intro hs he
  rcases h1 with h1 | h1
  · exact absurd hs h1
  · exact absurd he h1

end LegacyComparison

/-! ## Properties of the outstanding-request set -/

section RequestSet

/-- The non-blocking part of `checkRequestUsage` keeps the request variables of the
outstanding requests pairwise distinct. -/
theorem nonBlocking_nodup (st st2 : RequestState) (mpiCall : MPICall)
    (hnodup : (st.visitedRequests.map (·.requestVariable_)).Nodup)
    (h : checkRequestUsage.nonBlocking st mpiCall = some st2) :
    (st2.visitedRequests.map (·.requestVariable_)).Nodup := by
  unfold checkRequestUsage.nonBlocking at h
  rcases harg : mpiCall.arguments_[mpiCall.getNumArgs - 1]? with _ | arg
  · simp [harg] at h
  rcases hvar : arg.vars_.head? with _ | requestVar
  · simp [harg, hvar] at h
  rcases hfind : cont.findPred st.visitedRequests
      (fun r => r.requestVariable_ == requestVar) with _ | iterator
  · simp only [harg, hvar, hfind, Option.some.injEq] at h
    rw [← h]
    simp only [List.map_append, List.map_cons, List.map_nil]
    apply List.Nodup.append hnodup (List.nodup_singleton _)
    rw [List.disjoint_singleton]
    intro hmem
    rcases List.mem_map.1 hmem with ⟨r, hr, hrv⟩
    have hnone := List.find?_eq_none.1 hfind r hr
    simp [hrv] at hnone
  · simp only [harg, hvar, hfind, Option.some.injEq] at h
    rw [← h]
    exact hnodup

/-- The wait step of `checkRequestUsage` keeps the request variables of the outstanding
requests pairwise distinct. -/
theorem waitOn_nodup (mpiCall : MPICall) (st : RequestState) (requestVar : VarDecl)
    (hnodup : (st.visitedRequests.map (·.requestVariable_)).Nodup) :
    ((checkRequestUsage.waitOn mpiCall st requestVar).visitedRequests.map
      (·.requestVariable_)).Nodup := by
  unfold checkRequestUsage.waitOn
  rcases hfind : cont.findPred st.visitedRequests
      (fun r => r.requestVariable_ == requestVar) with _ | iterator
  · exact hnodup
  · exact List.Nodup.sublist ((List.filter_sublist _).map _) hnodup

/-- One call of `checkRequestUsage` keeps the request variables of the outstanding requests
pairwise distinct. -/
theorem checkRequestUsage_nodup (c : MPIFunctionClassifier)
    (TraverseVarDecl : VarDecl → List VarDecl) (st st2 : RequestState) (mpiCall : MPICall)
    (hnodup : (st.visitedRequests.map (·.requestVariable_)).Nodup)
    (h : checkRequestUsage c TraverseVarDecl st mpiCall = some st2) :
    (st2.visitedRequests.map (·.requestVariable_)).Nodup := by
  unfold checkRequestUsage at h
  have hfold : ∀ (requestVector : List VarDecl) (s : RequestState),
      (s.visitedRequests.map (·.requestVariable_)).Nodup →
      ((requestVector.foldl (checkRequestUsage.waitOn mpiCall) s).visitedRequests.map
        (·.requestVariable_)).Nodup := by
    intro requestVector
    induction requestVector with
    | nil => intro s hs; exact hs
    | cons r rest ih =>
      intro s hs
      exact ih _ (waitOn_nodup mpiCall s r hs)
  rcases hfirst : (if c.isNonBlockingType mpiCall.identInfo_ then
      checkRequestUsage.nonBlocking st mpiCall else some st) with _ | st1
  · simp [hfirst] at h
  have hnodup1 : (st1.visitedRequests.map (·.requestVariable_)).Nodup := by
    by_cases hnb : c.isNonBlockingType mpiCall.identInfo_ = true
    · rw [if_pos hnb] at hfirst
      exact nonBlocking_nodup st st1 mpiCall hnodup hfirst
    · rw [if_neg hnb] at hfirst
      rw [← Option.some.inj hfirst]
      exact hnodup
  simp only [hfirst] at h
  by_cases hw : c.isWaitType mpiCall.identInfo_ = true
  · rw [if_pos hw] at h
    rcases hvec : checkRequestUsage.requestVector c TraverseVarDecl mpiCall with
      _ | requestVector
    · simp [hvec] at h
    · simp only [hvec, Option.some.injEq] at h
      rw [← h]
      exact hfold requestVector st1 hnodup1
  · rw [if_neg hw] at h
    rw [← Option.some.inj h]
    exact hnodup1

/-- A sequence of calls of `checkRequestUsage` keeps the request variables of the
outstanding requests pairwise distinct. -/
theorem foldlM_checkRequestUsage_nodup (c : MPIFunctionClassifier)
    (TraverseVarDecl : VarDecl → List VarDecl) (mpiCalls : List MPICall)
    (st st2 : RequestState)
    (hnodup : (st.visitedRequests.map (·.requestVariable_)).Nodup)
    (h : mpiCalls.foldlM (checkRequestUsage c TraverseVarDecl) st = some st2) :
    (st2.visitedRequests.map (·.requestVariable_)).Nodup := by
  induction mpiCalls generalizing st with
  | nil =>
    simp only [List.foldlM_nil] at h
    rw [← Option.some.inj h]
    exact hnodup
  | cons mpiCall rest ih =>
    rw [List.foldlM_cons] at h
    rcases hstep : checkRequestUsage c TraverseVarDecl st mpiCall with _ | st1
    · simp [hstep] at h
    · rw [hstep] at h
      exact ih st1 (checkRequestUsage_nodup c TraverseVarDecl st st1 mpiCall hnodup hstep) h

/-- C36. Starting from the empty set of outstanding requests, after any finite sequence of
calls of `checkRequestUsage` that returns, the request variables of the outstanding
requests are pairwise distinct: the set holds at most one entry per request variable. -/
theorem checkRequestUsage_requests_distinct (c : MPIFunctionClassifier)
    (TraverseVarDecl : VarDecl → List VarDecl) (mpiCalls : List MPICall)
    (reports : List Diagnostic) (st : RequestState)
    (h : mpiCalls.foldlM (checkRequestUsage c TraverseVarDecl)
      { visitedRequests := [], reports := reports } = some st) :
    (st.visitedRequests.map (·.requestVariable_)).Nodup :=
  foldlM_checkRequestUsage_nodup c TraverseVarDecl mpiCalls _ st (by simp) h

/-- Witness for C36: after `MPI_Isend(..., &req); MPI_Isend(..., &req); MPI_Wait(&req,
&status); MPI_Isend(..., &req)` the set holds the one entry of the last call. -/
theorem checkRequestUsage_requests_distinct_witness :
    [sampleIsend, sampleIsend, sampleWait, sampleIsend].foldlM
        (checkRequestUsage funcClassifier_ (sampleTraverseVarDecl false)) {} =
      some { visitedRequests :=
               [{ requestVariable_ := sampleRequest,
                  callUsingTheRequest_ := sampleIsend.callExpr_ }],
             reports := [Diagnostic.doubleRequestUse sampleIsend.callExpr_ sampleRequest
               sampleIsend.callExpr_] } ∧
    ([sampleRequest] : List VarDecl).Nodup :=
  ⟨by decide,
    checkRequestUsage_requests_distinct funcClassifier_ (sampleTraverseVarDecl false)
      [sampleIsend, sampleIsend, sampleWait, sampleIsend] []
      { visitedRequests :=
          [{ requestVariable_ := sampleRequest,
             callUsingTheRequest_ := sampleIsend.callExpr_ }],
        reports := [Diagnostic.doubleRequestUse sampleIsend.callExpr_ sampleRequest
          sampleIsend.callExpr_] }
      (by decide)⟩

end RequestSet

/-! ## Properties of the redundancy relation -/

section RedundancyRelation
open checkForRedundantCall MPIFunctionClassifier

/-- Component equality is transitive. -/
theorem areComponentsOfArgumentEqual_trans (a b c : MPICall) (idx : Nat)
    (hab : areComponentsOfArgumentEqual a b idx = some true)
    (hbc : areComponentsOfArgumentEqual b c idx = some true) :
    areComponentsOfArgumentEqual a c idx = some true := by
  rcases ha : a.arguments_[idx]? with _ | argA
  · simp [areComponentsOfArgumentEqual, ha] at hab
  rcases hb : b.arguments_[idx]? with _ | argB
  · simp [areComponentsOfArgumentEqual, ha, hb] at hab
  rcases hc : c.arguments_[idx]? with _ | argC
  · simp [areComponentsOfArgumentEqual, hb, hc] at hbc
  rw [areComponentsOfArgumentEqual_eq_decide a b idx _ _ ha hb] at hab
  rw [areComponentsOfArgumentEqual_eq_decide b c idx _ _ hb hc] at hbc
  rw [areComponentsOfArgumentEqual_eq_decide a c idx _ _ ha hc]
  simp only [Option.some.injEq, decide_eq_true_eq] at hab hbc ⊢
  obtain ⟨h₁, h₂, h₃, h₄, h₅⟩ := hab
  obtain ⟨k₁, k₂, k₃, k₄, k₅⟩ := hbc
  exact ⟨h₁.trans k₁, h₂.trans k₂, h₃.trans k₃, h₄.trans k₄, h₅.trans k₅⟩

/-- After `identifierInit` an identifier is in at most one of the five collective
sub-families of the redundancy check. -/
theorem subfamily_at_most_one (i : IdentPtr) :
    (funcClassifier_.isScatterType i = true →
      funcClassifier_.isGatherType i = false ∧ funcClassifier_.isAlltoallType i = false ∧
      funcClassifier_.isBcastType i = false ∧ funcClassifier_.isReduceType i = false) ∧
    (funcClassifier_.isGatherType i = true →
      funcClassifier_.isScatterType i = false ∧ funcClassifier_.isAlltoallType i = false ∧
      funcClassifier_.isBcastType i = false ∧ funcClassifier_.isReduceType i = false) ∧
    (funcClassifier_.isAlltoallType i = true →
      funcClassifier_.isScatterType i = false ∧ funcClassifier_.isGatherType i = false ∧
      funcClassifier_.isBcastType i = false ∧ funcClassifier_.isReduceType i = false) ∧
    (funcClassifier_.isBcastType i = true →
      funcClassifier_.isScatterType i = false ∧ funcClassifier_.isGatherType i = false ∧
      funcClassifier_.isAlltoallType i = false ∧ funcClassifier_.isReduceType i = false) ∧
    (funcClassifier_.isReduceType i = true →
      funcClassifier_.isScatterType i = false ∧ funcClassifier_.isGatherType i = false ∧
      funcClassifier_.isAlltoallType i = false ∧ funcClassifier_.isBcastType i = false) := by
  refine ⟨?_, ?_, ?_, ?_, ?_⟩
  · intro h
    simp only [isScatterType, Bool.or_eq_true, beq_iff_eq] at h
    rcases h with rfl | rfl <;> decide
  · intro h
    simp only [isGatherType, Bool.or_eq_true, beq_iff_eq] at h
    rcases h with ((rfl | rfl) | rfl) | rfl <;> decide
  · intro h
    simp only [isAlltoallType, Bool.or_eq_true, beq_iff_eq] at h
    rcases h with rfl | rfl <;> decide
  · intro h
    simp only [isBcastType, Bool.or_eq_true, beq_iff_eq] at h
    rcases h with rfl | rfl <;> decide
  · intro h
    simp only [isReduceType, Bool.or_eq_true, beq_iff_eq] at h
    rcases h with ((rfl | rfl) | rfl) | rfl <;> decide

/-- After `identifierInit`, when the scan qualifies the pairs (a, b) and (b, c) and the ids
of `a` and `c` differ, it qualifies the pair (a, c). -/
theorem qualifyRedundancyCheck_trans (a b c : MPICall)
    (hab : qualifyRedundancyCheck funcClassifier_ a b.unmarked = true)
    (hbc : qualifyRedundancyCheck funcClassifier_ b c.unmarked = true)
    (hid : a.id_ ≠ c.id_) :
    qualifyRedundancyCheck funcClassifier_ a c.unmarked = true := by
  have hidab : a.id_ ≠ b.id_ := by
    intro h
    simp [qualifyRedundancyCheck, MPICall.unmarked, h] at hab
  have hidbc : b.id_ ≠ c.id_ := by
    intro h
    simp [qualifyRedundancyCheck, MPICall.unmarked, h] at hbc
  have hdisj : ∀ i : IdentPtr, ¬ (funcClassifier_.isPointToPointType i = true ∧
      funcClassifier_.isCollectiveType i = true) := not_contained_both (by decide)
  have hba := (qualifyRedundancyCheck_symm a b hab).1
  -- the communication types of the three calls
  have hkind : ∀ x y : MPICall, x.id_ ≠ y.id_ →
      qualifyRedundancyCheck funcClassifier_ x y.unmarked = true →
      (funcClassifier_.isPointToPointType x.identInfo_ = true ∧
        funcClassifier_.isPointToPointType y.identInfo_ = true) ∨
      (funcClassifier_.isCollectiveType x.identInfo_ = true ∧
        funcClassifier_.isCollectiveType y.identInfo_ = true) := by
    intro x y hxy hq
    simp only [qualifyRedundancyCheck, areCommunicationTypesEqual, MPICall.unmarked] at hq
    by_contra hne
    have hf : (funcClassifier_.isPointToPointType x.identInfo_ &&
        funcClassifier_.isPointToPointType y.identInfo_ ||
        funcClassifier_.isCollectiveType x.identInfo_ &&
        funcClassifier_.isCollectiveType y.identInfo_) = false := by
      rw [Bool.eq_false_iff]
      intro h
      apply hne
      simpa using h
    rw [hf] at hq
    simp [hxy] at hq
  rcases hkind a b hidab hab with ⟨hpa, hpb⟩ | ⟨hca, hcb⟩
  · -- point-to-point
    have hpc : funcClassifier_.isPointToPointType c.identInfo_ = true := by
      rcases hkind b c hidbc hbc with ⟨_, hpc⟩ | ⟨hcb, _⟩
      · exact hpc
      · exact absurd ⟨hpb, hcb⟩ (hdisj _)
    rw [qualifyRedundancyCheck_pointToPoint funcClassifier_ a b hpa hpb hidab] at hab
    rw [qualifyRedundancyCheck_pointToPoint funcClassifier_ b c hpb hpc hidbc] at hbc
    rw [qualifyRedundancyCheck_pointToPoint funcClassifier_ a c hpa hpc hid]
    have hsr := not_isSendType_and_isRecvType b.identInfo_
    simp only [Bool.or_eq_true, Bool.and_eq_true] at hab hbc ⊢
    rcases hab with ⟨h1, h2⟩ | ⟨h1, h2⟩ <;> rcases hbc with ⟨h3, h4⟩ | ⟨h3, h4⟩
    · exact Or.inl ⟨h1, h4⟩
    · exact absurd ⟨h2, h3⟩ hsr
    · exact absurd ⟨h3, h2⟩ hsr
    · exact Or.inr ⟨h1, h4⟩
  · -- collective
    have hcc : funcClassifier_.isCollectiveType c.identInfo_ = true := by
      rcases hkind b c hidbc hbc with ⟨hpb, _⟩ | ⟨_, hcc⟩
      · exact absurd ⟨hpb, hcb⟩ (hdisj _)
      · exact hcc
    rw [qualifyRedundancyCheck_collective a b hca hcb hidab] at hab
    rw [qualifyRedundancyCheck_collective b c hcb hcc hidbc] at hbc
    rw [qualifyRedundancyCheck_collective a c hca hcc hid]
    obtain ⟨hs, hg, ha, hb, hr⟩ := subfamily_at_most_one b.identInfo_
    simp only [Bool.or_eq_true, Bool.and_eq_true] at hab hbc ⊢
    rcases hab with (((⟨h1, h2⟩ | ⟨h1, h2⟩) | ⟨h1, h2⟩) | ⟨h1, h2⟩) | ⟨h1, h2⟩ <;>
      rcases hbc with (((⟨h3, h4⟩ | ⟨h3, h4⟩) | ⟨h3, h4⟩) | ⟨h3, h4⟩) | ⟨h3, h4⟩ <;>
      first
        | exact Or.inl (Or.inl (Or.inl (Or.inl ⟨h1, h4⟩)))
        | exact Or.inl (Or.inl (Or.inl (Or.inr ⟨h1, h4⟩)))
        | exact Or.inl (Or.inl (Or.inr ⟨h1, h4⟩))
        | exact Or.inl (Or.inr ⟨h1, h4⟩)
        | exact Or.inr ⟨h1, h4⟩
        | (exfalso; simp_all)

/-- After `identifierInit` the verdict "redundant" is transitive on calls with different
ids. -/
theorem judgedRedundant_trans (a b c : MPICall)
    (hab : judgedRedundant funcClassifier_ a b = some true)
    (hbc : judgedRedundant funcClassifier_ b c = some true) (hid : a.id_ ≠ c.id_) :
    judgedRedundant funcClassifier_ a c = some true := by
  rw [judgedRedundant_eq_true_iff] at hab hbc ⊢
  obtain ⟨hq1, hc1, hn1⟩ := hab
  obtain ⟨hq2, hc2, hn2⟩ := hbc
  have hidx := (qualifyRedundancyCheck_symm a b hq1).2
  rw [hidx] at hc2 hn2
  refine ⟨qualifyRedundancyCheck_trans a b c hq1 hq2 hid, ?_, ?_⟩
  · intro idx hmem
    exact areComponentsOfArgumentEqual_trans a b c idx (hc1 idx hmem) (hc2 idx hmem)
  · intro idx hmem
    obtain ⟨n, h1, h2⟩ := hn1 idx hmem
    obtain ⟨m, h3, h4⟩ := hn2 idx hmem
    rw [h2] at h3
    have hnm : n = m := Option.some.inj h3
    exact ⟨n, h1, hnm ▸ h4⟩

/-- C37. Component equality at an argument index is transitive; it is reflexive on the
calls that have an argument at the index, and symmetric: an equivalence relation on these
calls. After `identifierInit` the verdict "redundant" of the redundancy check is symmetric,
and transitive on calls with different ids, so that the calls judged redundant fall into
groups. -/
theorem areComponentsOfArgumentEqual_equivalence (a b c : MPICall) (idx : Nat) :
    (areComponentsOfArgumentEqual a b idx = some true →
      areComponentsOfArgumentEqual b c idx = some true →
      areComponentsOfArgumentEqual a c idx = some true) ∧
    (idx < a.arguments_.length → areComponentsOfArgumentEqual a a idx = some true) ∧
    (areComponentsOfArgumentEqual a b idx = some true →
      areComponentsOfArgumentEqual b a idx = some true) ∧
    (judgedRedundant funcClassifier_ a b = some true →
      judgedRedundant funcClassifier_ b a = some true) ∧
    (judgedRedundant funcClassifier_ a b = some true →
      judgedRedundant funcClassifier_ b c = some true → a.id_ ≠ c.id_ →
      judgedRedundant funcClassifier_ a c = some true) ∧
    areComponentsOfArgumentEqual sampleSendOne sampleSendTwo 1 = some true ∧
    areComponentsOfArgumentEqual sampleSendTwo sampleSendThree 1 = some true ∧
    areComponentsOfArgumentEqual sampleSendOne sampleSendThree 1 = some true ∧
    judgedRedundant funcClassifier_ sampleSendOne sampleSendTwo = some true ∧
    judgedRedundant funcClassifier_ sampleSendTwo sampleSendThree = some true ∧
    judgedRedundant funcClassifier_ sampleSendOne sampleSendThree = some true := by
  refine ⟨areComponentsOfArgumentEqual_trans a b c idx, ?_, ?_, judgedRedundant_symm a b,
    judgedRedundant_trans a b c, by decide, by decide, by decide, by decide, by decide,
    by decide⟩
  · intro hlt
    have h : a.arguments_[idx]? = some a.arguments_[idx] := List.getElem?_eq_getElem hlt
    rw [areComponentsOfArgumentEqual_eq_decide a a idx _ _ h h]
    simp
  · intro h
    rw [areComponentsOfArgumentEqual_comm]
    exact h

/-- C38. For point-to-point calls, the verdict of the redundancy check reads only the ids,
the send or recv classification and the arguments at the positions 1 to 4: when `x2` agrees
with `x` and `y2` agrees with `y` in these (whatever their buffer, communicator and request
arguments and their send or recv spellings are), the verdict on `x2` and `y2` is the verdict
on `x` and `y`. -/
theorem judgedRedundant_pointToPoint_independent (x x2 y y2 : MPICall)
    (hx : funcClassifier_.isPointToPointType x.identInfo_ = true)
    (hx2 : funcClassifier_.isPointToPointType x2.identInfo_ = true)
    (hy : funcClassifier_.isPointToPointType y.identInfo_ = true)
    (hy2 : funcClassifier_.isPointToPointType y2.identInfo_ = true)
    (hidx : x2.id_ = x.id_) (hidy : y2.id_ = y.id_)
    (hsx : funcClassifier_.isSendType x2.identInfo_ = funcClassifier_.isSendType x.identInfo_)
    (hrx : funcClassifier_.isRecvType x2.identInfo_ = funcClassifier_.isRecvType x.identInfo_)
    (hsy : funcClassifier_.isSendType y2.identInfo_ = funcClassifier_.isSendType y.identInfo_)
    (hry : funcClassifier_.isRecvType y2.identInfo_ = funcClassifier_.isRecvType y.identInfo_)
    (hargsx : ∀ idx ∈ [1, 2, 3, 4], x2.arguments_[idx]? = x.arguments_[idx]?)
    (hargsy : ∀ idx ∈ [1, 2, 3, 4], y2.arguments_[idx]? = y.arguments_[idx]?) :
    judgedRedundant funcClassifier_ x2 y2 = judgedRedundant funcClassifier_ x y := by
  have hx1 := hargsx 1 (by simp)
  have hx2a := hargsx 2 (by simp)
  have hx3 := hargsx 3 (by simp)
  have hx4 := hargsx 4 (by simp)
  have hy1 := hargsy 1 (by simp)
  have hy2a := hargsy 2 (by simp)
  have hy3 := hargsy 3 (by simp)
  have hy4 := hargsy 4 (by simp)
  have hq : qualifyRedundancyCheck funcClassifier_ x2 y2.unmarked =
      qualifyRedundancyCheck funcClassifier_ x y.unmarked := by
    simp [qualifyRedundancyCheck, areCommunicationTypesEqual, MPICall.unmarked, hx, hx2, hy,
      hy2, hidx, hidy, hsx, hrx, hsy, hry]
  have hcomp : ∀ idx ∈ [1, 2, 3, 4],
      areComponentsOfArgumentEqual x2 y2.unmarked idx =
        areComponentsOfArgumentEqual x y.unmarked idx := by
    intro idx hmem
    have h1 : y2.unmarked.arguments_[idx]? = y.unmarked.arguments_[idx]? := hargsy idx hmem
    simp only [areComponentsOfArgumentEqual, hargsx idx hmem, h1]
  have hdata : areDatatypesEqual x2 y2.unmarked 2 = areDatatypesEqual x y.unmarked 2 := by
    have h1 : y2.unmarked.arguments_[2]? = y.unmarked.arguments_[2]? := hy2a
    simp only [areDatatypesEqual, hx2a, h1]
  simp only [judgedRedundant, isRedundantWith, hq,
    indicesToCheck_pointToPoint funcClassifier_ x hx,
    indicesToCheck_pointToPoint funcClassifier_ x2 hx2, componentsLoop, datatypesLoop,
    hcomp 1 (by simp), hcomp 3 (by simp), hcomp 4 (by simp), hdata]

/-- Witness for C38: `MPI_Send(a, n, MPI_INT, 1, 0, MPI_COMM_WORLD)` is judged redundant with
`MPI_Issend(b, n, MPI_INT, 1, 0, MPI_COMM_SELF, &other)` as it is with
`MPI_Isend(a, n, MPI_INT, 1, 0, MPI_COMM_WORLD, &req)`. -/
theorem judgedRedundant_pointToPoint_independent_witness :
    judgedRedundant funcClassifier_ sampleSendOne sampleIssendOther = some true ∧
    judgedRedundant funcClassifier_ sampleSendOne sampleIssendOther =
      judgedRedundant funcClassifier_ sampleSendOne sampleIsend :=
  ⟨by decide,
    judgedRedundant_pointToPoint_independent sampleSendOne sampleSendOne sampleIsend
      sampleIssendOther (by decide) (by decide) (by decide) (by decide) rfl (by decide)
      (by decide) (by decide) (by decide) (by decide) (by decide) (by decide)⟩

end RedundancyRelation

end mpi
